import Mathlib

/-!
Verification development for the gitlet version-control core (a Go
implementation of the Gitlet VCS).  The Go sources are shallowly embedded:
the repository state (object store, branch refs, HEAD, index, working tree)
is a record of finite maps from names to raw bytes, bytes are `List Nat`
(each entry < 256), and every operation is a total Lean function from the
state to an outcome that mirrors the Go control flow (`ok` for normal
return, `fatal` for `log.Fatal`, `err` for a returned `error`).  SHA-1 and
the JSON encoding of commits are implemented concretely so that object
identifiers in the model are the exact 40-hex digests the program computes.
-/

set_option maxRecDepth 8000

namespace Gitlet

/-- UTF-8 byte sequence of a string.  All strings this program stores on disk
(paths, hashes, commit messages in the scenarios considered) are ASCII, for
which code points and bytes coincide. -/
def strBytes (s : String) : List Nat := s.toList.map Char.toNat

/-- Decode a byte sequence as a string (inverse of `strBytes` on ASCII). -/
def bytesToStr (b : List Nat) : String := String.mk (b.map Char.ofNat)

/-- Model of Go `bytes.TrimRight(b, "\n")`: drop every trailing newline byte. -/
def trimRightNl (b : List Nat) : List Nat := (b.reverse.dropWhile (· == 10)).reverse

/-! ### SHA-1

A byte-level implementation of SHA-1, mirroring Go's `crypto/sha1` as used by
`getHash`.  Words are `Nat` reduced mod `2^32`. -/

def m32 : Nat := 4294967296

/-- Rotate a 32-bit word left by `k` bits. -/
def rotl (k w : Nat) : Nat := ((w <<< k) ||| (w >>> (32 - k))) % m32

/-- Big-endian 32-bit words of a byte list (length a multiple of 4). -/
def wordsOf : List Nat → List Nat
  | b0 :: b1 :: b2 :: b3 :: rest => (((b0 * 256 + b1) * 256 + b2) * 256 + b3) :: wordsOf rest
  | _ => []

/-- Extend the 16 message words to the 80-word schedule. -/
def extendW (w : List Nat) : Nat → List Nat
  | 0 => w
  | c + 1 =>
    let n := w.length
    let x := rotl 1 ((w.getD (n - 3) 0) ^^^ (w.getD (n - 8) 0) ^^^
      (w.getD (n - 14) 0) ^^^ (w.getD (n - 16) 0))
    extendW (w ++ [x]) c

/-- The SHA-1 round function for round `t`. -/
def sha1f (t b c d : Nat) : Nat :=
  if t < 20 then ((b &&& c) ||| ((b ^^^ (m32 - 1)) &&& d)) % m32
  else if t < 40 then b ^^^ c ^^^ d
  else if t < 60 then (b &&& c) ||| (b &&& d) ||| (c &&& d)
  else b ^^^ c ^^^ d

/-- The SHA-1 round constant for round `t`. -/
def sha1k (t : Nat) : Nat :=
  if t < 20 then 1518500249
  else if t < 40 then 1859775393
  else if t < 60 then 2400959708
  else 3395469782

/-- Run the 80 compression rounds over the word schedule. -/
def sha1rounds : List Nat → Nat → Nat × Nat × Nat × Nat × Nat → Nat × Nat × Nat × Nat × Nat
  | [], _, st => st
  | wt :: ws, t, (a, b, c, d, e) =>
    let tmp := (rotl 5 a + sha1f t b c d + e + sha1k t + wt) % m32
    sha1rounds ws (t + 1) (tmp, a, rotl 30 b, c, d)

/-- Process one 64-byte chunk, updating the running hash state. -/
def sha1chunk (h : Nat × Nat × Nat × Nat × Nat) (chunk : List Nat) :
    Nat × Nat × Nat × Nat × Nat :=
  let w := extendW (wordsOf chunk) 64
  match h, sha1rounds w 0 h with
  | (h0, h1, h2, h3, h4), (a, b, c, d, e) =>
    ((h0 + a) % m32, (h1 + b) % m32, (h2 + c) % m32, (h3 + d) % m32, (h4 + e) % m32)

/-- Big-endian 8-byte encoding of a 64-bit value. -/
def be64 (n : Nat) : List Nat :=
  [(n >>> 56) % 256, (n >>> 48) % 256, (n >>> 40) % 256, (n >>> 32) % 256,
   (n >>> 24) % 256, (n >>> 16) % 256, (n >>> 8) % 256, n % 256]

/-- SHA-1 padding: append 0x80, zero bytes to 56 mod 64, then the bit length. -/
def sha1pad (b : List Nat) : List Nat :=
  let len := b.length
  let padz := (64 - ((len + 9) % 64)) % 64
  b ++ 128 :: List.replicate padz 0 ++ be64 (len * 8)

/-- Split a byte list into 64-byte chunks (fuel-driven so that it reduces
definitionally; the fuel is always sufficient at `b.length`). -/
def chunksOf64 : Nat → List Nat → List (List Nat)
  | 0, _ => []
  | fuel + 1, b => if b.isEmpty then [] else b.take 64 :: chunksOf64 fuel (b.drop 64)

/-- Lower-case hex digit for a value below 16. -/
def hexDigit (n : Nat) : Char := Char.ofNat (if n < 10 then 48 + n else 87 + n)

/-- Lower-case 8-digit hex rendering of a 32-bit word. -/
def hex8 (n : Nat) : String :=
  String.mk ((List.range 8).map fun i => hexDigit ((n >>> ((7 - i) * 4)) &&& 15))

/-- The 40-hex-character SHA-1 digest of a byte sequence (the digest Go's
`hex.EncodeToString(h.Sum(nil))` produces). -/
def hexSha1 (b : List Nat) : String :=
  let padded := sha1pad b
  match (chunksOf64 padded.length padded).foldl sha1chunk
      (1732584193, 4023233417, 2562383102, 271733878, 3285377520) with
  | (h0, h1, h2, h3, h4) => hex8 h0 ++ hex8 h1 ++ hex8 h2 ++ hex8 h3 ++ hex8 h4

/-- Sanity check of the SHA-1 implementation against the published test
vector for `"abc"`. -/
theorem hexSha1_abc : hexSha1 (strBytes "abc") = "a9993e364706816aba3e25717850c26c9cd0d89d" := by
  decide

/-! ### Commit records and their JSON encoding

Embedding of the Go struct `commit {Message; Timestamp; FileToBlob;
ParentUIDs}` together with `serialize` / `deserialize`, which in the source
are `json.Marshal` / `json.Unmarshal`.  `json.Marshal` renders the struct
fields in declaration order and the map keys in sorted order, escaping
`"`, `\\`, control characters and (HTML mode) `<`, `>`, `&`; this is
reproduced byte for byte.  The parser accepts exactly the serializer's
grammar plus trailing whitespace, which covers every commit blob this
program itself writes (`json.Unmarshal` is more lenient on foreign input,
which the program never produces). -/

structure Commit where
  message : String
  timestamp : Int
  fileToBlob : List (String × String)
  parentUIDs : String × String
deriving DecidableEq, Repr, Inhabited

/-- Byte-wise (lexicographic) order on byte lists, as Go compares strings. -/
def bytesLe : List Nat → List Nat → Bool
  | [], _ => true
  | _ :: _, [] => false
  | a :: as, b :: bs => if a < b then true else if b < a then false else bytesLe as bs

/-- Go's string order: lexicographic on the UTF-8 bytes. -/
def strLe (a b : String) : Bool := bytesLe (strBytes a) (strBytes b)

/-- Insert a key/value pair into a key-sorted association list. -/
def insertSortedKV (x : String × String) : List (String × String) → List (String × String)
  | [] => [x]
  | y :: ys => if strLe x.1 y.1 then x :: y :: ys else y :: insertSortedKV x ys

/-- Sort an association list by key (Go's `json.Marshal` sorts map keys). -/
def sortByKey (l : List (String × String)) : List (String × String) :=
  l.foldr insertSortedKV []

/-- JSON escape of one character, matching Go's default (HTML-escaping)
encoder. -/
def escChar (c : Char) : List Nat :=
  let n := c.toNat
  if n = 34 then [92, 34]
  else if n = 92 then [92, 92]
  else if n = 10 then [92, 110]
  else if n = 13 then [92, 114]
  else if n = 9 then [92, 116]
  else if n = 60 || n = 62 || n = 38 || n < 32 then
    [92, 117, 48, 48, (hexDigit (n / 16)).toNat, (hexDigit (n % 16)).toNat]
  else [n]

/-- Bytes of a JSON-quoted string. -/
def qstr (s : String) : List Nat :=
  34 :: s.toList.foldr (fun c acc => escChar c ++ acc) [34]

/-- Bytes of `json.Marshal` applied to a commit record (byte 123 is the
opening brace, 125 the closing brace, 58 a colon, 44 a comma). -/
def serialize (c : Commit) : List Nat :=
  123 :: strBytes "\"Message\":" ++ qstr c.message
    ++ strBytes ",\"Timestamp\":" ++ strBytes (toString c.timestamp)
    ++ strBytes ",\"FileToBlob\":"
    ++ (123 :: (List.intercalate [44]
          ((sortByKey c.fileToBlob).map fun kv => qstr kv.1 ++ 58 :: qstr kv.2)) ++ [125])
    ++ strBytes ",\"ParentUIDs\":[" ++ qstr c.parentUIDs.1 ++ 44 :: qstr c.parentUIDs.2
    ++ [93, 125]

/-- Value of one hex digit byte. -/
def hexVal (c : Nat) : Option Nat :=
  if 48 ≤ c ∧ c ≤ 57 then some (c - 48)
  else if 97 ≤ c ∧ c ≤ 102 then some (c - 87)
  else if 65 ≤ c ∧ c ≤ 70 then some (c - 55)
  else none

/-- Parse the body of a JSON string up to the closing quote, undoing the
escapes `escChar` produces. -/
def parseStrAux : List Nat → Option (List Char × List Nat)
  | 34 :: rest => some ([], rest)
  | 92 :: 117 :: a :: b :: c :: d :: rest => do
    let ha ← hexVal a
    let hb ← hexVal b
    let hc ← hexVal c
    let hd ← hexVal d
    let (cs, r) ← parseStrAux rest
    pure (Char.ofNat (((ha * 16 + hb) * 16 + hc) * 16 + hd) :: cs, r)
  | 92 :: e :: rest => do
    let c ← if e = 34 then some (Char.ofNat 34)
      else if e = 92 then some (Char.ofNat 92)
      else if e = 110 then some (Char.ofNat 10)
      else if e = 114 then some (Char.ofNat 13)
      else if e = 116 then some (Char.ofNat 9)
      else if e = 47 then some (Char.ofNat 47)
      else none
    let (cs, r) ← parseStrAux rest
    pure (c :: cs, r)
  | c :: rest => do
    let (cs, r) ← parseStrAux rest
    pure (Char.ofNat c :: cs, r)
  | [] => none

/-- Parse a JSON-quoted string. -/
def parseQString (b : List Nat) : Option (String × List Nat) :=
  match b with
  | 34 :: rest => (parseStrAux rest).map fun p => (String.mk p.1, p.2)
  | _ => none

/-- Parse a JSON integer (optional minus sign, then digits). -/
def parseIntJ (b : List Nat) : Option (Int × List Nat) :=
  match b with
  | 45 :: rest =>
    let ds := rest.takeWhile fun c => decide (48 ≤ c) && decide (c ≤ 57)
    if ds.isEmpty then none
    else some (-(Int.ofNat (ds.foldl (fun a c => a * 10 + (c - 48)) 0)), rest.drop ds.length)
  | _ =>
    let ds := b.takeWhile fun c => decide (48 ≤ c) && decide (c ≤ 57)
    if ds.isEmpty then none
    else some (Int.ofNat (ds.foldl (fun a c => a * 10 + (c - 48)) 0), b.drop ds.length)

/-- Parse the entries of a non-empty JSON string→string object, consuming
the closing brace. -/
def parseMapEntries : Nat → List Nat → Option (List (String × String) × List Nat)
  | 0, _ => none
  | fuel + 1, b => do
    let (k, r1) ← parseQString b
    match r1 with
    | 58 :: r2 => do
      let (v, r3) ← parseQString r2
      match r3 with
      | 44 :: r4 => do
        let (rest, r5) ← parseMapEntries fuel r4
        pure ((k, v) :: rest, r5)
      | 125 :: r4 => pure ([(k, v)], r4)
      | _ => none
    | _ => none

/-- Parse a JSON string→string object. -/
def parseMap (b : List Nat) : Option (List (String × String) × List Nat) :=
  match b with
  | 123 :: 125 :: rest => some ([], rest)
  | 123 :: rest => parseMapEntries rest.length rest
  | _ => none

/-- Expect a literal byte sequence. -/
def expectBytes (pat b : List Nat) : Option (List Nat) :=
  if pat.isPrefixOf b then some (b.drop pat.length) else none

/-- JSON whitespace bytes. -/
def isWsp (c : Nat) : Bool := c == 32 || c == 9 || c == 10 || c == 13

/-- Model of `deserialize[commit]`: parse the JSON encoding of a commit
record, tolerating trailing whitespace as `json.Unmarshal` does. -/
def parseCommit (b : List Nat) : Option Commit := do
  let r0 ← expectBytes (123 :: strBytes "\"Message\":") b
  let (msg, r1) ← parseQString r0
  let r2 ← expectBytes (strBytes ",\"Timestamp\":") r1
  let (ts, r3) ← parseIntJ r2
  let r4 ← expectBytes (strBytes ",\"FileToBlob\":") r3
  let (ftb, r5) ← parseMap r4
  let r6 ← expectBytes (strBytes ",\"ParentUIDs\":[") r5
  let (p0, r7) ← parseQString r6
  let r8 ← expectBytes [44] r7
  let (p1, r9) ← parseQString r8
  let r10 ← expectBytes [93, 125] r9
  if r10.all isWsp then pure ⟨msg, ts, ftb, (p0, p1)⟩ else none

/-- Sanity check: serializing and re-parsing a sample commit is the
identity, and a trailing newline (which the object files carry) is
tolerated. -/
theorem parseCommit_serialize_sample :
    parseCommit (serialize ⟨"add wug", 42, [("wug.txt", "ab12"), ("a.txt", "cd34")], ("p0", "")⟩
        ++ [10]) =
      some ⟨"add wug", 42, [("a.txt", "cd34"), ("wug.txt", "ab12")], ("p0", "")⟩ := by
  decide

/-! ### Repository state and persistence primitives

The Go program works against the filesystem; the embedding keeps the
repository's on-disk state as a record of association lists from names to
raw bytes.  `.gitlet/objects/<hash>`, `.gitlet/refs/heads/<name>`,
`.gitlet/HEAD` and the user's working-tree files each live in their own
component, and reads/writes of path strings dispatch on the path prefix
exactly as the fixed path constants in the source lay the repository out.
The index file `.gitlet/INDEX` is held structurally (its serialized form
round-trips and no claim depends on its bytes).  `output` collects the
messages printed with `log.Print*`.  Working-tree entries carry the file's
modification time, which `stageFile` consults via `os.Stat`. -/

/-- Metadata for staged files (Go struct `indexMetadata`). -/
structure IndexMetadata where
  hash : String
  modTime : Int
  fileSize : Int
deriving DecidableEq, Repr, Inhabited

/-- A working-tree file: raw bytes plus modification time. -/
structure WFile where
  bytes : List Nat
  modTime : Int
deriving DecidableEq, Repr, Inhabited

/-- The persistent state of one gitlet repository plus its working tree. -/
structure RepoState where
  gitletExists : Bool
  objects : List (String × List Nat)
  branches : List (String × List Nat)
  head : List Nat
  index : List (String × IndexMetadata)
  workdir : List (String × WFile)
  output : List String
deriving DecidableEq, Repr, Inhabited

/-- First-match association-list lookup (Go map read). -/
def alookup {α : Type} : List (String × α) → String → Option α
  | [], _ => none
  | (k, v) :: rest, key => if k = key then some v else alookup rest key

/-- Association-list update: replace the first binding or append (Go map
write combined with file overwrite-or-create). -/
def aset {α : Type} : List (String × α) → String → α → List (String × α)
  | [], key, v => [(key, v)]
  | (k, w) :: rest, key, v => if k = key then (k, v) :: rest else (k, w) :: aset rest key v

/-- Association-list deletion (Go map delete / file removal). -/
def adel {α : Type} : List (String × α) → String → List (String × α)
  | [], _ => []
  | (k, w) :: rest, key => if k = key then adel rest key else (k, w) :: adel rest key

/-- Insert into a sorted string list (byte order). -/
def insertSortedStr (x : String) : List String → List String
  | [] => [x]
  | y :: ys => if strLe x y then x :: y :: ys else y :: insertSortedStr x ys

/-- Sort strings in byte order (Go `slices.Sort` on the names returned by
`os.ReadDir`, which already yields sorted entries). -/
def sortStrings (l : List String) : List String := l.foldr insertSortedStr []

/-- Fixed repository paths (the Go package-level path constants). -/
def gitletDir : String := ".gitlet"

def objectsDir : String := ".gitlet/objects"

def branchesDir : String := ".gitlet/refs/heads"

def headFile : String := ".gitlet/HEAD"

/-- The index sentinel for files staged for deletion. -/
def stagedForRemovalMarker : String := "DELETED"

/-- Join a directory and a file name (`filepath.Join` on Linux). -/
def pathJoin (dir name : String) : String := dir ++ "/" ++ name

/-- Last component of a slash-separated path (`filepath.Base`). -/
def baseName (p : String) : String :=
  bytesToStr ((strBytes p).reverse.takeWhile (fun c => !(c == 47))).reverse

/-- Go errors as the model distinguishes them: `notExist` satisfies
`errors.Is(err, fs.ErrNotExist)`; wrapping with `fmt.Errorf("f: %w", err)`
preserves that property and prepends a breadcrumb. -/
inductive GErr where
  | notExist (msg : String)
  | other (msg : String)
deriving DecidableEq, Repr

/-- Breadcrumb wrapping of an error (`fmt.Errorf` with `%w`). -/
def GErr.wrap (pre : String) : GErr → GErr
  | .notExist m => .notExist (pre ++ m)
  | .other m => .other (pre ++ m)

/-- Message carried by an error. -/
def GErr.msg : GErr → String
  | .notExist m => m
  | .other m => m

instance {ε α : Type} [DecidableEq ε] [DecidableEq α] : DecidableEq (Except ε α) := fun a b =>
  match a, b with
  | .ok x, .ok y =>
    if h : x = y then isTrue (congrArg Except.ok h)
    else isFalse (fun e => h (Except.ok.inj e))
  | .error x, .error y =>
    if h : x = y then isTrue (congrArg Except.error h)
    else isFalse (fun e => h (Except.error.inj e))
  | .ok _, .error _ => isFalse (fun e => Except.noConfusion e)
  | .error _, .ok _ => isFalse (fun e => Except.noConfusion e)

/-- Outcome of running an operation: normal return with a value, process
termination via `log.Fatal` (carrying the state at that moment, since the
process exits without further writes), or an `error` return propagated to
the caller. -/
inductive Res (α : Type) where
  | ok (v : α) (s : RepoState)
  | fatal (msg : String) (s : RepoState)
  | err (e : GErr) (s : RepoState)
deriving DecidableEq, Repr

/-- State at which an outcome left the repository. -/
def Res.state {α : Type} : Res α → RepoState
  | .ok _ s => s
  | .fatal _ s => s
  | .err _ s => s

/-- The `log.Fatal` message of an outcome, when it is one. -/
def Res.fatalMsg {α : Type} : Res α → Option String
  | .fatal m _ => some m
  | _ => none

/-- The returned value of an outcome, when it returned normally. -/
def Res.val? {α : Type} : Res α → Option α
  | .ok v _ => some v
  | _ => none

/-- Append a printed line to the captured output (`log.Print*`). -/
def addOut (s : RepoState) (msg : String) : RepoState :=
  { s with output := s.output ++ [msg] }

/-- Fragments fed to `getHash` and `writeContents`: the Go call sites pass
`[]any` values that are strings or byte slices. -/
inductive Frag where
  | str (s : String)
  | bytes (b : List Nat)
deriving DecidableEq, Repr

/-- Bytes contributed by one fragment. -/
def fragBytes : Frag → List Nat
  | .str s => strBytes s
  | .bytes b => b

/-- Concatenated bytes of a fragment sequence. -/
def fragsBytes (arr : List Frag) : List Nat :=
  arr.foldr (fun f acc => fragBytes f ++ acc) []

/-- Model of `getHash`: the hex SHA-1 digest of the fragments fed to the
hasher in order.  (The Go version returns an error only for fragments that
are neither strings nor byte slices, which `Frag` rules out.) -/
def getHash (arr : List Frag) : String := hexSha1 (fragsBytes arr)

/-- Byte-level test that `pre` is a prefix of path `p`. -/
def pHasPre (pre p : String) : Bool := (strBytes pre).isPrefixOf (strBytes p)

/-- Drop a path prefix, at byte level. -/
def pDropPre (pre p : String) : String :=
  bytesToStr ((strBytes p).drop (strBytes pre).length)

/-- True for paths that name working-tree files rather than repository
metadata. -/
def isWdPath (p : String) : Bool :=
  !(p == headFile) && !pHasPre (objectsDir ++ "/") p && !pHasPre (branchesDir ++ "/") p

/-- Read the raw bytes of a path, dispatching on the repository layout. -/
def rawRead (s : RepoState) (p : String) : Option (List Nat) :=
  if p = headFile then some s.head
  else if pHasPre (objectsDir ++ "/") p then alookup s.objects (pDropPre (objectsDir ++ "/") p)
  else if pHasPre (branchesDir ++ "/") p then
    alookup s.branches (pDropPre (branchesDir ++ "/") p)
  else (alookup s.workdir p).map WFile.bytes

/-- Overwrite or create the file at a path with raw bytes; working-tree
files record `now` as their new modification time. -/
def rawWrite (s : RepoState) (p : String) (b : List Nat) (now : Int) : RepoState :=
  if p = headFile then { s with head := b }
  else if pHasPre (objectsDir ++ "/") p then
    { s with objects := aset s.objects (pDropPre (objectsDir ++ "/") p) b }
  else if pHasPre (branchesDir ++ "/") p then
    { s with branches := aset s.branches (pDropPre (branchesDir ++ "/") p) b }
  else { s with workdir := aset s.workdir p ⟨b, now⟩ }

/-- Remove the file at a path, if present. -/
def rawDelete (s : RepoState) (p : String) : RepoState :=
  if pHasPre (objectsDir ++ "/") p then
    { s with objects := adel s.objects (pDropPre (objectsDir ++ "/") p) }
  else if pHasPre (branchesDir ++ "/") p then
    { s with branches := adel s.branches (pDropPre (branchesDir ++ "/") p) }
  else { s with workdir := adel s.workdir p }

/-- Model of `readContents`: read a whole file and strip every trailing
newline byte. -/
def readContents (s : RepoState) (p : String) : Except GErr (List Nat) :=
  match rawRead s p with
  | none => .error (.notExist ("readContents: open " ++ p ++ ": no such file or directory"))
  | some b => .ok (trimRightNl b)

/-- Model of `readContentsAsString`. -/
def readContentsAsString (s : RepoState) (p : String) : Except GErr String :=
  match readContents s p with
  | .error e => .error (e.wrap "readContentsToString: ")
  | .ok b => .ok (bytesToStr b)

/-- Model of `writeContents`: truncate/create the file, write the fragments
in order, then append a final newline byte.  (The source's directory check
has no counterpart because the model's stores hold only regular files.) -/
def writeContents (s : RepoState) (p : String) (arr : List Frag) (now : Int) : RepoState :=
  rawWrite s p (fragsBytes arr ++ [10]) now

/-- Model of `restrictedDelete`: delete the file, a no-op when absent.  The
`.gitlet` presence check holds in every state the operations run in. -/
def restrictedDelete (s : RepoState) (p : String) : RepoState := rawDelete s p

/-- Model of `getFilenames`: sorted names of the regular files in a
directory.  The source only lists the object directory and the working
directory. -/
def getFilenames (s : RepoState) (dir : String) : List String :=
  if dir = objectsDir then sortStrings (s.objects.map Prod.fst)
  else sortStrings (s.workdir.map Prod.fst)

/-! ### Object store layer -/

/-- The fixed read buffer used by `readBlob` (`bufferSize`). -/
def bufferSize : Nat := 4096

/-- Reading a blob's raw bytes as `readBlob` does: `bufio.ReadBytes(0)`
returns the header up to the zero delimiter, and a single `Read` into a
4096-byte buffer returns whatever of the file is buffered — at most
`bufferSize` bytes and never more than the first 4096 bytes of the file
beyond the header (the headers this program writes, `"file"` and
`"commit"`, sit well inside the reader's first 4096-byte fill).  A file
exhausted before the delimiter, or with nothing after it, yields the
reader's EOF error. -/
def readBlobBytes (raw : List Nat) : Except GErr (String × List Nat) :=
  match raw.findIdx? (· == 0) with
  | none => .error (.other "readBlob: EOF")
  | some i =>
    let after := i + 1
    let filled := min bufferSize raw.length
    if after < filled then .ok (bytesToStr (raw.take i), (raw.take filled).drop after)
    else if after < raw.length then .ok (bytesToStr (raw.take i), (raw.drop after).take bufferSize)
    else .error (.other "readBlob: EOF")

/-- Model of `readBlob`: open `.gitlet/objects/<hash>` and split it into
type header and payload, subject to the fixed read buffer. -/
def readBlob (s : RepoState) (hash : String) : Except GErr (String × List Nat) :=
  match alookup s.objects hash with
  | none =>
    .error (.notExist ("readBlob: open " ++ pathJoin objectsDir hash ++
      ": no such file or directory"))
  | some raw => readBlobBytes raw

/-- Model of `writeBlob`: hash `(header, 0x00, payload)` and write those
fragments to `.gitlet/objects/<hash>` via `writeContents`. -/
def writeBlob (s : RepoState) (header : String) (b : List Nat) (now : Int) : RepoState :=
  let payload := [Frag.str header, Frag.bytes [0], Frag.bytes b]
  writeContents s (pathJoin objectsDir (getHash payload)) payload now

/-- Model of `resolveHash`: match a hash abbreviation against the object
directory listing. -/
def resolveHash (s : RepoState) (hash : String) : Except GErr String :=
  match (getFilenames s objectsDir).filter (fun f => hash.isPrefixOf f) with
  | [] => .error (.other "resolveHash: no matching blobs found")
  | [m] => .ok m
  | _ => .error (.other "resolveHash: ambiguous hash prefix")

/-- Model of `getCommit`: resolve short hashes, read the blob, check the
`"commit"` header and deserialize the payload. -/
def getCommit (s : RepoState) (hash : String) : Except GErr Commit :=
  match (if hash.length < 40 then resolveHash s hash else .ok hash) with
  | .error e => .error (e.wrap ("getCommit: could not resolve hash: "))
  | .ok h =>
    match readBlob s h with
    | .error e => .error (e.wrap "getCommit: ")
    | .ok (header, contents) =>
      if header = "commit" then
        match parseCommit contents with
        | none => .error (.other "getCommit: deserialize: invalid JSON")
        | some c => .ok c
      else
        .error (.other ("getCommit: incorrect blob header, want 'commit', got '" ++ header ++ "'"))

/-- Model of `getHeadCommitHash`: HEAD names the current branch file, whose
content is the head commit hash. -/
def getHeadCommitHash (s : RepoState) : Except GErr String :=
  match readContentsAsString s headFile with
  | .error e => .error (e.wrap "getHeadCommitHash: ")
  | .ok currentBranchFile =>
    match readContentsAsString s currentBranchFile with
    | .error e => .error (e.wrap "getHeadCommitHash: ")
    | .ok h => .ok h

/-- Model of `getHeadCommit`. -/
def getHeadCommit (s : RepoState) : Except GErr Commit :=
  match readContentsAsString s headFile with
  | .error e => .error (e.wrap "getHeadCommit: ")
  | .ok currentBranchFile =>
    match readContentsAsString s currentBranchFile with
    | .error e => .error (e.wrap "getHeadCommit: ")
    | .ok h =>
      match getCommit s h with
      | .error e => .error (e.wrap "getHeadCommit: ")
      | .ok c => .ok c

/-! ### Index layer

`readIndex`/`writeIndex` serialize the index map as JSON in the file
`.gitlet/INDEX`.  The encoding round-trips and no claim concerns its bytes,
so the model keeps the map itself in the state; reads always succeed (the
file exists from `init` on) and hand the caller a fresh copy, matching
`readIndex`'s per-call deserialization. -/

/-- Model of `readIndex`. -/
def readIndex (s : RepoState) : List (String × IndexMetadata) := s.index

/-- Model of `writeIndex`. -/
def writeIndex (s : RepoState) (i : List (String × IndexMetadata)) : RepoState :=
  { s with index := i }

/-- Model of `newIndex`: clear the index. -/
def newIndex (s : RepoState) : RepoState := writeIndex s []

/-! ### Operations -/

/-- The working directory path handed to `getFilenames` by the checkout,
reset and merge commands (`os.Getwd`); any path other than the object
directory lists the working tree. -/
def cwd : String := "/cwd"

/-- Model of `newRepository`: refuse to re-init, create the fresh `.gitlet`
layout, write the initial commit blob (message `"initial commit"`,
timestamp 0, no files, empty parents), point branch `main` at it, point
HEAD at `main`, and write an empty index. -/
def newRepository (s : RepoState) : Res Unit :=
  if s.gitletExists then
    .fatal "A Gitlet version-control system already exists in the current directory." s
  else
    let initialCommit : Commit := ⟨"initial commit", 0, [], ("", "")⟩
    let contents := serialize initialCommit
    let payload := [Frag.str "commit", Frag.bytes [0], Frag.bytes contents]
    let initialCommitHash := getHash payload
    let s := { s with gitletExists := true, objects := [], branches := [], head := [],
                      index := [] }
    let s := writeContents s (pathJoin objectsDir initialCommitHash) payload 0
    let mainBranchFile := pathJoin branchesDir "main"
    let s := writeContents s mainBranchFile [Frag.str initialCommitHash] 0
    let s := writeContents s headFile [Frag.str mainBranchFile] 0
    let s := newIndex s
    .ok () s

/-- Model of `stageFile`: reconcile the working tree, the index and the
head commit for one path, exactly along the source's branches. -/
def stageFile (file : String) (now : Int) (s : RepoState) : Res Unit :=
  match getHeadCommit s with
  | .error e => .err (e.wrap "stageFile: cannot get head commit: ") s
  | .ok headCommit =>
    let tr := alookup headCommit.fileToBlob file
    let trackedHash := tr.getD ""
    let isTracked := tr.isSome
    let index := readIndex s
    let sm := alookup index file
    let stagedMetadata := sm.getD default
    let isStaged := sm.isSome
    match alookup s.workdir file with
    | none =>
      if isTracked then
        if isStaged ∧ stagedMetadata.hash = stagedForRemovalMarker then
          .ok () (addOut s ("File '" ++ file ++ "' is already staged."))
        else
          .ok () (writeIndex s (aset index file ⟨stagedForRemovalMarker, now, 0⟩))
      else
        if isStaged then
          let s := restrictedDelete s (pathJoin objectsDir stagedMetadata.hash)
          .ok () (writeIndex s (adel index file))
        else
          .fatal "File does not exist." s
    | some wdInfo =>
      if isStaged ∧ (wdInfo.bytes.length : Int) = stagedMetadata.fileSize ∧
          wdInfo.modTime = stagedMetadata.modTime then
        .ok () (addOut s ("File '" ++ file ++ "' is already staged."))
      else
        let wdContents := trimRightNl wdInfo.bytes
        let wdBlobPayload := [Frag.str "file", Frag.bytes [0], Frag.bytes wdContents]
        let wdHash := getHash wdBlobPayload
        if isStaged ∧ wdHash = stagedMetadata.hash then
          .ok () (addOut s ("File '" ++ file ++ "' is already staged."))
        else if ¬isStaged ∧ isTracked ∧ wdHash = trackedHash then
          .ok () (addOut s "No changes detected. Skipping staging...")
        else
          let s := if isStaged then
              restrictedDelete s (pathJoin objectsDir stagedMetadata.hash)
            else s
          let s := writeContents s (pathJoin objectsDir wdHash) wdBlobPayload now
          .ok () (writeIndex s (aset index file ⟨wdHash, now, (wdContents.length : Int)⟩))

/-- Model of `writeCommit`: refuse an empty index, write the commit blob,
advance the current branch ref, clear the index, and return the new hash. -/
def writeCommit (c : Commit) (now : Int) (s : RepoState) : Res String :=
  let index := readIndex s
  if index.length = 0 then .fatal "No changes added to commit." s
  else
    let contents := serialize c
    let payload := [Frag.str "commit", Frag.bytes [0], Frag.bytes contents]
    let commitHash := getHash payload
    let s := writeContents s (pathJoin objectsDir commitHash) payload now
    match readContentsAsString s headFile with
    | .error e => .err (e.wrap "writeCommit: ") s
    | .ok currentBranchFile =>
      let s := writeContents s currentBranchFile [Frag.str commitHash] now
      let s := newIndex s
      .ok commitHash s

/-- Fold the index over a files map: staged deletions remove the entry,
regular stagings overwrite it (the loop shared by `newCommit` and
`newMergeCommit`). -/
def applyIndex (index : List (String × IndexMetadata)) (m : List (String × String)) :
    List (String × String) :=
  index.foldl
    (fun m kv => if kv.2.hash = stagedForRemovalMarker then adel m kv.1 else aset m kv.1 kv.2.hash)
    m

/-- Model of `newCommit`: compose the next commit from the head commit and
the index and write it via `writeCommit`. -/
def newCommit (message : String) (now : Int) (s : RepoState) : Res Unit :=
  if message = "" then .fatal "Please enter a commit message." s
  else
    let index := readIndex s
    if index.length = 0 then .fatal "No changes added to commit." s
    else
      match readContentsAsString s headFile with
      | .error e => .err (e.wrap "newCommit: ") s
      | .ok currentBranchFile =>
        match readContentsAsString s currentBranchFile with
        | .error e => .err (e.wrap "newCommit: ") s
        | .ok headCommitHash =>
          match getCommit s headCommitHash with
          | .error e => .err (e.wrap "newCommit: ") s
          | .ok headCommit =>
            let c : Commit :=
              ⟨message, now, applyIndex index headCommit.fileToBlob, (headCommitHash, "")⟩
            match writeCommit c now s with
            | .ok _ s => .ok () s
            | .fatal m s => .fatal m s
            | .err e s => .err (e.wrap "newCommit: ") s

/-- Model of `unstageFile` (`rm`): drop a staged entry and its blob; if the
file is tracked, also delete it from the working tree and stage a
deletion via `stageFile`. -/
def unstageFile (file : String) (now : Int) (s : RepoState) : Res Unit :=
  let index := readIndex s
  let sm := alookup index file
  let isStaged := sm.isSome
  let s := match sm with
    | some m =>
      let s := restrictedDelete s (pathJoin objectsDir m.hash)
      writeIndex s (adel index file)
    | none => s
  match getHeadCommit s with
  | .error e => .err (e.wrap "unstageFile: ") s
  | .ok headCommit =>
    let isTracked := (alookup headCommit.fileToBlob file).isSome
    if ¬isStaged ∧ ¬isTracked then .fatal "No reason to remove the file." s
    else if isTracked then
      let s := restrictedDelete s file
      match stageFile file now s with
      | .ok _ s => .ok () s
      | .fatal m s => .fatal m s
      | .err e s => .err (e.wrap "unstageFile: ") s
    else .ok () s

/-- Model of `checkoutCommit`: pull one file as it exists in the given
commit into the working directory (created or overwritten, not staged). -/
def checkoutCommit (file : String) (targetCommitUID : String) (now : Int) (s : RepoState) :
    Res Unit :=
  match getCommit s targetCommitUID with
  | .error (.notExist _) => .fatal "No commit with that id exists." s
  | .error e => .err (e.wrap "checkoutCommit: ") s
  | .ok targetCommit =>
    match alookup targetCommit.fileToBlob file with
    | none => .fatal "File does not exist in that commit." s
    | some targetBlobHash =>
      match readBlob s targetBlobHash with
      | .error e => .err (e.wrap "checkoutCommit: ") s
      | .ok (_, contents) => .ok () (writeContents s file [Frag.bytes contents] now)

/-- The untracked-file scan shared by `checkoutBranch`, `resetFile` and
`mergeBranch`: true when some working-directory file is untracked in the
current head commit but present in the target commit (the loop fatals at
the first such file; no state is touched before or during the scan). -/
def untrackedConflictScan (cur tgt : Commit) : List String → Bool
  | [] => false
  | f :: rest =>
    if (alookup cur.fileToBlob f).isNone ∧ (alookup tgt.fileToBlob f).isSome then true
    else untrackedConflictScan cur tgt rest

/-- The write loop of `checkoutBranch`: pull every file of the target head
commit into the working directory. -/
def checkoutFiles (now : Int) : List (String × String) → RepoState → Res Unit
  | [], s => .ok () s
  | (file, h) :: rest, s =>
    match readBlob s h with
    | .error e => .err (e.wrap "checkoutBranch: ") s
    | .ok (_, contents) => checkoutFiles now rest (writeContents s file [Frag.bytes contents] now)

/-- The delete loop of `checkoutBranch` and `resetFile`: remove every
listed working-directory file that the target commit does not track. -/
def deleteMissing (tgt : Commit) (wdFiles : List String) (s : RepoState) : RepoState :=
  wdFiles.foldl
    (fun s f => if (alookup tgt.fileToBlob f).isNone then restrictedDelete s f else s) s

/-- Model of `checkoutBranch`: switch HEAD to the target branch after
materializing its head commit into the working tree, guarded by the
untracked-file scan; clears the index. -/
def checkoutBranch (targetBranch : String) (now : Int) (s : RepoState) : Res Unit :=
  match readContentsAsString s headFile with
  | .error e => .err (e.wrap "checkoutBranch: ") s
  | .ok currentBranchFile =>
    let currentBranch := baseName currentBranchFile
    if targetBranch = currentBranch then .fatal "No need to checkout the current branch." s
    else
      let targetBranchFile := pathJoin branchesDir targetBranch
      match readContentsAsString s targetBranchFile with
      | .error (.notExist _) => .fatal "No such branch exists." s
      | .error e => .err (e.wrap "checkoutBranch: ") s
      | .ok targetBranchHeadCommitHash =>
        match getCommit s targetBranchHeadCommitHash with
        | .error e => .err (e.wrap "checkoutBranch: ") s
        | .ok targetBranchHeadCommit =>
          match getHeadCommit s with
          | .error e => .err (e.wrap "checkoutBranch: ") s
          | .ok currentBranchHeadCommit =>
            let wdFiles := getFilenames s cwd
            if untrackedConflictScan currentBranchHeadCommit targetBranchHeadCommit wdFiles then
              .fatal "There is an untracked file in the way; delete it, or add and commit it first." s
            else
              match checkoutFiles now targetBranchHeadCommit.fileToBlob s with
              | .fatal m s => .fatal m s
              | .err e s => .err e s
              | .ok _ s =>
                let s := deleteMissing targetBranchHeadCommit wdFiles s
                let s := writeContents s headFile [Frag.str targetBranchFile] now
                let s := newIndex s
                .ok () (addOut s ("Branch '" ++ targetBranch ++ "' is now checked out."))

/-- Model of `addBranch`: create a branch ref at the current head commit
(without checking it out). -/
def addBranch (branchName : String) (now : Int) (s : RepoState) : Res Unit :=
  let branchFile := pathJoin branchesDir branchName
  if (rawRead s branchFile).isSome then .fatal "A branch with that name already exists." s
  else
    match readContentsAsString s headFile with
    | .error e => .err (e.wrap "addBranch: ") s
    | .ok currentBranchFile =>
      match readContents s currentBranchFile with
      | .error e => .err (e.wrap "addBranch: ") s
      | .ok headCommitHash =>
        let s := writeContents s branchFile [Frag.bytes headCommitHash] now
        .ok () (addOut s ("Branch '" ++ branchName ++ "' was created on commit (" ++
          bytesToStr (headCommitHash.take 6) ++ ")."))

/-- The Go call `writeContents(file, contents)` in `resetFile` passes a
`[]byte` where `writeContents` expects a slice of fragments, so the loop
ranges over single bytes; a byte matches neither case of the type switch,
hence after the `O_TRUNC` open the first element aborts with an error,
leaving the file empty.  An empty payload reaches the final newline
write. -/
def writeContentsByteElems (s : RepoState) (p : String) (contents : List Nat) (now : Int) :
    Res Unit :=
  if contents.isEmpty then .ok () (rawWrite s p [10] now)
  else .err (.other "writeContents: not an array of strings or byte arrays") (rawWrite s p [] now)

/-- The write loop of `resetFile` (using the byte-element `writeContents`
call as the source does). -/
def resetFiles (now : Int) : List (String × String) → RepoState → Res Unit
  | [], s => .ok () s
  | (file, h) :: rest, s =>
    match readBlob s h with
    | .error e => .err (e.wrap "resetFile: ") s
    | .ok (_, contents) =>
      match writeContentsByteElems s file contents now with
      | .ok _ s => resetFiles now rest s
      | .fatal m s => .fatal m s
      | .err e s => .err (e.wrap "resetFile: ") s

/-- Model of `resetFile` (`reset`): check out every file of the target
commit, drop other tracked files, move the current branch ref to the
target commit and clear the index, guarded by the untracked-file scan. -/
def resetFile (targetCommitUID : String) (now : Int) (s : RepoState) : Res Unit :=
  match getCommit s targetCommitUID with
  | .error (.notExist _) => .fatal "No commit with that id exists." s
  | .error e => .err (e.wrap "resetFile: ") s
  | .ok targetCommit =>
    match getHeadCommit s with
    | .error e => .err (e.wrap "resetFile: ") s
    | .ok headCommit =>
      let wdFiles := getFilenames s cwd
      if untrackedConflictScan headCommit targetCommit wdFiles then
        .fatal "There is an untracked file in the way; delete it, or add and commit it first." s
      else
        match resetFiles now targetCommit.fileToBlob s with
        | .fatal m s => .fatal m s
        | .err e s => .err e s
        | .ok _ s =>
          let s := deleteMissing targetCommit wdFiles s
          match readContentsAsString s headFile with
          | .error e => .err (e.wrap "resetFile: ") s
          | .ok currentBranchFile =>
            let s := writeContents s currentBranchFile [Frag.str targetCommitUID] now
            .ok () (newIndex s)

/-- The BFS loop of `findSplitPoint`, made total with explicit fuel: each
continuing iteration marks a previously unvisited commit UID drawn from
the two start UIDs and the parents recorded in the store, so the fuel
`2 * |objects| + 3` chosen by `findSplitPoint` is never exhausted (proved
below as `splitLoop_fuel`). -/
def splitLoop (s : RepoState) : Nat → List String → List String → Except GErr String
  | 0, _, _ => .error (.other "findSplitPoint: out of fuel")
  | _ + 1, [], _ => .error (.other "findSplitPoint: no valid commit")
  | fuel + 1, commitUID :: rest, visited =>
    if visited.contains commitUID then .ok commitUID
    else
      match getCommit s commitUID with
      | .error e => .error (e.wrap "findSplitPoint: ")
      | .ok c =>
        splitLoop s fuel (rest ++ ([c.parentUIDs.1, c.parentUIDs.2].filter (fun p => !(p == ""))))
          (commitUID :: visited)

/-- Model of `findSplitPoint`: BFS from both commits with one shared
visited set; the first UID dequeued while already visited is the split
point. -/
def findSplitPoint (s : RepoState) (commitUID1 commitUID2 : String) : Except GErr String :=
  splitLoop s (2 * s.objects.length + 3) [commitUID1, commitUID2] []

/-- Cases 4–8 of the merge per-file resolution (the statements following
the `modified` if/else chain in the loop body of `mergeBranch`).  Returns
whether the file was resolved as a conflict. -/
def mergeResolveLate (targetBranchHeadCommitHash : String)
    (splitPointCommit currentBranchHeadCommit targetBranchHeadCommit : Commit)
    (file : String) (now : Int) (s : RepoState) : Res Bool :=
  let tB := alookup targetBranchHeadCommit.fileToBlob file
  let cB := alookup currentBranchHeadCommit.fileToBlob file
  let sB := alookup splitPointCommit.fileToBlob file
  let targetHeadFileBlob := tB.getD ""
  let inTargetBranchHeadCommit := tB.isSome
  let currentHeadFileBlob := cB.getD ""
  let inCurrentBranchHeadCommit := cB.isSome
  let inSplitPointCommit := sB.isSome
  let splitPointFileBlob := sB.getD ""
  let removedInCurrentBranch := inSplitPointCommit && !inCurrentBranchHeadCommit
  let changedInCurrentBranch := inSplitPointCommit && inCurrentBranchHeadCommit &&
    !(splitPointFileBlob == currentHeadFileBlob)
  let addedInCurrentBranch := !inSplitPointCommit && inCurrentBranchHeadCommit
  let modifiedInCurrentBranch := removedInCurrentBranch || changedInCurrentBranch ||
    addedInCurrentBranch
  let removedInTargetBranch := inSplitPointCommit && !inTargetBranchHeadCommit
  let changedInTargetBranch := inSplitPointCommit && inTargetBranchHeadCommit &&
    !(splitPointFileBlob == targetHeadFileBlob)
  let addedInTargetBranch := !inSplitPointCommit && inTargetBranchHeadCommit
  let modifiedInTargetBranch := removedInTargetBranch || changedInTargetBranch ||
    addedInTargetBranch
  if !inSplitPointCommit && !inTargetBranchHeadCommit && inCurrentBranchHeadCommit then
    .ok false s
  else if !inSplitPointCommit && inTargetBranchHeadCommit && !inCurrentBranchHeadCommit then
    match checkoutCommit file targetBranchHeadCommitHash now s with
    | .fatal m s => .fatal m s
    | .err e s => .err e s
    | .ok _ s =>
      match stageFile file now s with
      | .fatal m s => .fatal m s
      | .err e s => .err e s
      | .ok _ s => .ok false s
  else if inSplitPointCommit && !modifiedInCurrentBranch && !inTargetBranchHeadCommit then
    match unstageFile file now s with
    | .fatal m s => .fatal m s
    | .err e s => .err (e.wrap "mergeBranch: ") s
    | .ok _ s => .ok false s
  else if inSplitPointCommit && !modifiedInTargetBranch && !inCurrentBranchHeadCommit then
    .ok false s
  else if modifiedInCurrentBranch && modifiedInTargetBranch then
    match (if removedInCurrentBranch then Except.ok ("", []) else readBlob s currentHeadFileBlob)
    with
    | .error e => .err e s
    | .ok (_, currentBranchFileContents) =>
      match (if removedInTargetBranch then Except.ok ("", []) else readBlob s targetHeadFileBlob)
      with
      | .error e => .err e s
      | .ok (_, targetBranchFileContents) =>
        let s := writeContents s file
          [Frag.str "<<<<<<< HEAD\n", Frag.bytes currentBranchFileContents,
           Frag.str "=======", Frag.bytes targetBranchFileContents, Frag.str ">>>>>>>"] now
        match stageFile file now s with
        | .fatal m s => .fatal m s
        | .err e s => .err e s
        | .ok _ s => .ok true s
  else .ok false s

/-- One iteration of the merge per-file resolution loop (`mergeBranch`'s
`for file := range allFiles` body).  Returns whether the file was resolved
as a conflict. -/
def mergeResolveFile (targetBranchHeadCommitHash : String)
    (splitPointCommit currentBranchHeadCommit targetBranchHeadCommit : Commit)
    (file : String) (now : Int) (s : RepoState) : Res Bool :=
  let tB := alookup targetBranchHeadCommit.fileToBlob file
  let cB := alookup currentBranchHeadCommit.fileToBlob file
  let sB := alookup splitPointCommit.fileToBlob file
  let targetHeadFileBlob := tB.getD ""
  let inTargetBranchHeadCommit := tB.isSome
  let currentHeadFileBlob := cB.getD ""
  let inCurrentBranchHeadCommit := cB.isSome
  let inSplitPointCommit := sB.isSome
  let splitPointFileBlob := sB.getD ""
  let removedInCurrentBranch := inSplitPointCommit && !inCurrentBranchHeadCommit
  let changedInCurrentBranch := inSplitPointCommit && inCurrentBranchHeadCommit &&
    !(splitPointFileBlob == currentHeadFileBlob)
  let addedInCurrentBranch := !inSplitPointCommit && inCurrentBranchHeadCommit
  let modifiedInCurrentBranch := removedInCurrentBranch || changedInCurrentBranch ||
    addedInCurrentBranch
  let removedInTargetBranch := inSplitPointCommit && !inTargetBranchHeadCommit
  let changedInTargetBranch := inSplitPointCommit && inTargetBranchHeadCommit &&
    !(splitPointFileBlob == targetHeadFileBlob)
  let addedInTargetBranch := !inSplitPointCommit && inTargetBranchHeadCommit
  let modifiedInTargetBranch := removedInTargetBranch || changedInTargetBranch ||
    addedInTargetBranch
  if modifiedInTargetBranch && !modifiedInCurrentBranch then
    match checkoutCommit file targetBranchHeadCommitHash now s with
    | .fatal m s => .fatal m s
    | .err e s => .err e s
    | .ok _ s =>
      match stageFile file now s with
      | .fatal m s => .fatal m s
      | .err e s => .err e s
      | .ok _ s => .ok false s
  else if modifiedInCurrentBranch && !modifiedInTargetBranch then .ok false s
  else if modifiedInCurrentBranch && modifiedInTargetBranch then
    if removedInCurrentBranch && removedInTargetBranch then .ok false s
    else if !removedInCurrentBranch && !removedInTargetBranch then
      if currentHeadFileBlob = targetHeadFileBlob then .ok false s
      else
        match readBlob s currentHeadFileBlob with
        | .error e => .err (e.wrap "mergeBranch: cannot read current file blob: ") s
        | .ok (_, currentBranchFileContents) =>
          match readBlob s targetHeadFileBlob with
          | .error e => .err (e.wrap "mergeBranch: cannot read target file blob: ") s
          | .ok (_, targetBranchFileContents) =>
            if currentBranchFileContents = targetBranchFileContents then .ok false s
            else
              mergeResolveLate targetBranchHeadCommitHash splitPointCommit
                currentBranchHeadCommit targetBranchHeadCommit file now s
    else
      mergeResolveLate targetBranchHeadCommitHash splitPointCommit
        currentBranchHeadCommit targetBranchHeadCommit file now s
  else
    mergeResolveLate targetBranchHeadCommitHash splitPointCommit
      currentBranchHeadCommit targetBranchHeadCommit file now s

/-- The merge per-file resolution loop; accumulates (as ghost output) the
files that were resolved as conflicts, in processing order. -/
def mergeResolveLoop (targetBranchHeadCommitHash : String)
    (splitPointCommit currentBranchHeadCommit targetBranchHeadCommit : Commit) (now : Int) :
    List String → RepoState → List String → Res (List String)
  | [], s, acc => .ok acc s
  | f :: rest, s, acc =>
    match mergeResolveFile targetBranchHeadCommitHash splitPointCommit currentBranchHeadCommit
        targetBranchHeadCommit f now s with
    | .fatal m s => .fatal m s
    | .err e s => .err e s
    | .ok conflict s =>
      mergeResolveLoop targetBranchHeadCommitHash splitPointCommit currentBranchHeadCommit
        targetBranchHeadCommit now rest s (if conflict then acc ++ [f] else acc)

/-- The union of the file names of the split-point, current-head and
target-head commits.  The Go code iterates a `map[string]bool` in
unspecified order; the model fixes ascending byte order. -/
def mergeAllFiles (sp cur tgt : Commit) : List String :=
  sortStrings
    ((sp.fileToBlob.map Prod.fst ++ cur.fileToBlob.map Prod.fst ++
      tgt.fileToBlob.map Prod.fst).dedup)

/-- Model of `newMergeCommit`: compose the merge commit (message
`"Merged <target> into <current>."`, parents `[current head, target
head]`) from the head commit and the index, write it via `writeCommit`,
then (redundantly, as the source does) re-point the current branch and
clear the index again. -/
def newMergeCommit (targetBranch targetBranchHeadCommitHash currentBranch
    currentBranchHeadCommitHash : String) (now : Int) (s : RepoState) : Res Unit :=
  match getHeadCommit s with
  | .error e => .err (e.wrap "newCommit: ") s
  | .ok headCommit =>
    let index := readIndex s
    let c : Commit :=
      ⟨"Merged " ++ targetBranch ++ " into " ++ currentBranch ++ ".", now,
       applyIndex index headCommit.fileToBlob,
       (currentBranchHeadCommitHash, targetBranchHeadCommitHash)⟩
    match writeCommit c now s with
    | .fatal m s => .fatal m s
    | .err e s => .err e s
    | .ok commitHash s =>
      match readContentsAsString s headFile with
      | .error e => .err e s
      | .ok currentBranchFile =>
        let s := writeContents s currentBranchFile [Frag.str commitHash] now
        .ok () (newIndex s)

/-- Model of `mergeBranch`: the four preconditions, split-point discovery,
the two shortcuts, the per-file resolution loop, the merge commit, and the
(unconditional) closing `log.Print("Encountered a merge conflict.")`.  The
returned list of conflicted files is ghost output for the claims; the Go
function returns only an error. -/
def mergeBranch (branchName : String) (now : Int) (s : RepoState) : Res (List String) :=
  let idx := readIndex s
  if idx.length ≠ 0 then .fatal "You have uncommitted changes." s
  else
    let targetBranchFile := pathJoin branchesDir branchName
    match readContentsAsString s targetBranchFile with
    | .error (.notExist _) => .fatal "A branch with that name does not exist." s
    | .error e => .err (e.wrap "mergeBranch: ") s
    | .ok targetBranchHeadCommitHash =>
      match readContentsAsString s headFile with
      | .error e => .err (e.wrap "mergeBranch: ") s
      | .ok currentBranchFile =>
        let currentBranch := baseName currentBranchFile
        if branchName = currentBranch then .fatal "Cannot merge a branch with itself." s
        else
          match getCommit s targetBranchHeadCommitHash with
          | .error e => .err (e.wrap "mergeBranch: ") s
          | .ok targetBranchHeadCommit =>
            match getHeadCommit s with
            | .error e => .err (e.wrap "mergeBranch: ") s
            | .ok currentBranchHeadCommit =>
              let wdFiles := getFilenames s cwd
              if untrackedConflictScan currentBranchHeadCommit targetBranchHeadCommit wdFiles
              then
                .fatal
                  "There is an untracked file in the way; delete it, or add and commit it first."
                  s
              else
                match getHeadCommitHash s with
                | .error e => .err (e.wrap "mergeBranch: ") s
                | .ok currentBranchHeadCommitHash =>
                  match findSplitPoint s currentBranchHeadCommitHash targetBranchHeadCommitHash
                  with
                  | .error e => .err (e.wrap "mergeBranch: ") s
                  | .ok splitPointCommitHash =>
                    if splitPointCommitHash = targetBranchHeadCommitHash then
                      .ok [] (addOut s "Given branch is an ancestor of the current branch.")
                    else if splitPointCommitHash = currentBranchHeadCommitHash then
                      match checkoutBranch branchName now s with
                      | .fatal m s => .fatal m s
                      | .err e s => .err (e.wrap "mergeBranch: ") s
                      | .ok _ s => .ok [] (addOut s "Current branch fast-forwarded.")
                    else
                      match getCommit s splitPointCommitHash with
                      | .error e => .err (e.wrap "mergeBranch: ") s
                      | .ok splitPointCommit =>
                        match mergeResolveLoop targetBranchHeadCommitHash splitPointCommit
                            currentBranchHeadCommit targetBranchHeadCommit now
                            (mergeAllFiles splitPointCommit currentBranchHeadCommit
                              targetBranchHeadCommit) s [] with
                        | .fatal m s => .fatal m s
                        | .err e s => .err e s
                        | .ok conflicts s =>
                          match newMergeCommit branchName targetBranchHeadCommitHash
                              currentBranch currentBranchHeadCommitHash now s with
                          | .fatal m s => .fatal m s
                          | .err e s => .err (e.wrap "mergeBranch: ") s
                          | .ok _ s =>
                            .ok conflicts (addOut s "Encountered a merge conflict.")

/-- The fragments `stageFile` hashes and writes for a working-tree file
with raw bytes `b` (header `"file"`, zero byte, right-trimmed contents). -/
def fileBlobPayload (b : List Nat) : List Frag :=
  [Frag.str "file", Frag.bytes [0], Frag.bytes (trimRightNl b)]

/-- The blob hash `stageFile` records for a working-tree file with raw
bytes `b`. -/
def fileBlobHash (b : List Nat) : String := getHash (fileBlobPayload b)

/-! ### Definitions written from the specification's words

These are not translations of the source; they restate what the
specification asserts, to be compared against the source-derived
definitions above. -/

/-- Spec-side conflict rendering: "the concatenation of, in order:
`"<<<<<<< HEAD\n"`, the current-branch content bytes (empty if removed),
`"=======\n"`, the target-branch content bytes (empty if removed),
`">>>>>>>\n"`". -/
def specConflictBytes (cur tgt : List Nat) : List Nat :=
  strBytes "<<<<<<< HEAD\n" ++ cur ++ strBytes "=======\n" ++ tgt ++ strBytes ">>>>>>>\n"

/-- Spec-side split-point BFS: "BFS over both starting frontiers
simultaneously, with a shared visited set; the first commit observed as
already-visited is returned.  The traversal enqueues a commit's parents
(excluding empty).  Fails with `NoCommonAncestor` if the queue empties."
The visited set is a `Finset`; fuel makes the recursion total. -/
def specSplitLoop (s : RepoState) : Nat → List String → Finset String → Except GErr String
  | 0, _, _ => .error (.other "NoCommonAncestor: out of fuel")
  | _ + 1, [], _ => .error (.other "NoCommonAncestor")
  | fuel + 1, u :: queue, visited =>
    if u ∈ visited then .ok u
    else
      match getCommit s u with
      | .error _ => .error (.other "MissingCommit")
      | .ok c =>
        specSplitLoop s fuel
          (queue ++ ([c.parentUIDs.1, c.parentUIDs.2].filter (fun p => !(p == ""))))
          (insert u visited)

/-- Spec-side split point of two commits. -/
def specSplitPoint (s : RepoState) (current target : String) : Except GErr String :=
  specSplitLoop s (2 * s.objects.length + 3) [current, target] ∅

/-! ### Predicates used by the claims -/

/-- The amended content-address invariant for one object file: the on-disk
bytes end with the single newline byte appended by `writeContents`, and
the file name is the hex SHA-1 digest of the bytes before it. -/
def objectFileOK (kv : String × List Nat) : Prop :=
  kv.2.getLast? = some 10 ∧ kv.1 = hexSha1 kv.2.dropLast

/-- All object files of a state satisfy the content-address invariant. -/
def objectsOK (s : RepoState) : Prop := ∀ kv ∈ s.objects, objectFileOK kv

instance (kv : String × List Nat) : Decidable (objectFileOK kv) := by
  unfold objectFileOK
  infer_instance

instance (s : RepoState) : Decidable (objectsOK s) := by
  unfold objectsOK
  infer_instance

/-- Parse a stored object file as a commit blob (the read path of
`getCommit` applied to raw bytes). -/
def commitOfRaw (raw : List Nat) : Option Commit :=
  match readBlobBytes raw with
  | .error _ => none
  | .ok (header, contents) => if header = "commit" then parseCommit contents else none

/-- Every parent UID recorded in any stored commit blob, in store order. -/
def storeParents (s : RepoState) : List String :=
  s.objects.foldr
    (fun kv acc =>
      match commitOfRaw kv.2 with
      | some c => c.parentUIDs.1 :: c.parentUIDs.2 :: acc
      | none => acc) []

/-- Whether `getCommit` succeeds on a UID. -/
def isOkCommit (s : RepoState) (u : String) : Bool :=
  match getCommit s u with
  | .ok _ => true
  | .error _ => false

/-- Decidable parent-closure of the object store: every non-empty parent
recorded in a stored commit blob can itself be loaded with `getCommit`. -/
def storeClosed (s : RepoState) : Bool :=
  s.objects.all fun kv =>
    match commitOfRaw kv.2 with
    | some c =>
      (c.parentUIDs.1 == "" || isOkCommit s c.parentUIDs.1) &&
      (c.parentUIDs.2 == "" || isOkCommit s c.parentUIDs.2)
    | none => true

/-! ### Concrete repositories used as witnesses and counterexamples

Every state below is produced by running the modelled operations from an
empty directory (the working-tree edits between commands stand for the
user writing files). -/

/-- A directory without a repository. -/
def emptyRepo : RepoState := ⟨false, [], [], [], [], [], []⟩

/-- Freshly initialized repository. -/
def repo0 : RepoState := (newRepository emptyRepo).state

/-- Scenario W: one file `wug.txt` staged and committed on `main`, then a
branch `side` created at that commit. -/
def wugA : RepoState := { repo0 with workdir := [("wug.txt", ⟨strBytes "This is a wug", 100⟩)] }

def wugStaged : RepoState := (stageFile "wug.txt" 101 wugA).state

def wugCommitted : RepoState := (newCommit "add wug file" 102 wugStaged).state

def wugBranched : RepoState := (addBranch "side" 103 wugCommitted).state

/-- The blob hash `stageFile` records for `wug.txt` (checked below). -/
def wugHash : String := "3a7ca71ab48d4f0b2c50f95247c1bcf7386123d0"

/-- The commit hash branch `side` points at in the wug scenario (checked in
the C3 counterexample). -/
def wugCommitHash : String := "bfb3018f323f20270a3b2d934576fa2890ab66d8"

/-- The parsed `"add wug file"` commit. -/
def wugCommitVal : Commit :=
  ⟨"add wug file", 102, [("wug.txt", "3a7ca71ab48d4f0b2c50f95247c1bcf7386123d0")],
    ("f14a7dfac63092f78fb5d209312a84315dd9ef73", "")⟩

/-- The state after checking out branch `side` from `wugBranched`. -/
def c3s : RepoState := (checkoutBranch "side" 105 wugBranched).state

/-- Scenario M1: `main` and `other` diverge with no conflicting file —
`other` changes `b.txt`, `main` adds `c.txt`. -/
def m1a : RepoState := { repo0 with workdir := [("b.txt", ⟨strBytes "B", 200⟩)] }

def m1b : RepoState := (stageFile "b.txt" 201 m1a).state

def m1c : RepoState := (newCommit "commit b" 202 m1b).state

def m1d : RepoState := (addBranch "other" 203 m1c).state

def m1e : RepoState := (checkoutBranch "other" 204 m1d).state

def m1f : RepoState := { m1e with workdir := aset m1e.workdir "b.txt" ⟨strBytes "!B", 205⟩ }

def m1g : RepoState := (stageFile "b.txt" 206 m1f).state

def m1h : RepoState := (newCommit "change b" 207 m1g).state

def m1i : RepoState := (checkoutBranch "main" 208 m1h).state

def m1j : RepoState := { m1i with workdir := aset m1i.workdir "c.txt" ⟨strBytes "C", 209⟩ }

def m1k : RepoState := (stageFile "c.txt" 210 m1j).state

def m1l : RepoState := (newCommit "add c" 211 m1k).state

/-- The M1 merge of `other` into `main`. -/
def m1merge : Res (List String) := mergeBranch "other" 212 m1l

/-- Scenario M2: the two branches diverge but per-file resolution stages
nothing (`target` added and then removed `x.txt`; `main` added `a.txt`). -/
def m2a : RepoState := (addBranch "target" 300 repo0).state

def m2b : RepoState := { m2a with workdir := [("a.txt", ⟨strBytes "A", 301⟩)] }

def m2c : RepoState := (stageFile "a.txt" 302 m2b).state

def m2d : RepoState := (newCommit "add a" 303 m2c).state

def m2e : RepoState := (checkoutBranch "target" 304 m2d).state

def m2f : RepoState := { m2e with workdir := aset m2e.workdir "x.txt" ⟨strBytes "X", 305⟩ }

def m2g : RepoState := (stageFile "x.txt" 306 m2f).state

def m2h : RepoState := (newCommit "add x" 307 m2g).state

def m2i : RepoState := (unstageFile "x.txt" 308 m2h).state

def m2j : RepoState := (newCommit "rm x" 309 m2i).state

def m2k : RepoState := (checkoutBranch "main" 310 m2j).state

/-- The M2 merge of `target` into `main`. -/
def m2merge : Res (List String) := mergeBranch "target" 311 m2k

/-- Head commit hashes in M2 (checked below). -/
def m2mainHash : String := "f4f7180c1a510a5affb6b735bc143a7ef0d64441"

def m2targetHash : String := "864772abeadda9c04fd13943c01ee7c0e611596e"

/-- The initial commit's hash (every scenario starts from it). -/
def initialHash : String := "f14a7dfac63092f78fb5d209312a84315dd9ef73"

/-- Scenario M3: a genuine conflict — `target` removes `a.txt`, `main`
changes it. -/
def m3a : RepoState := { repo0 with workdir := [("a.txt", ⟨strBytes "A", 400⟩)] }

def m3b : RepoState := (stageFile "a.txt" 401 m3a).state

def m3c : RepoState := (newCommit "add a" 402 m3b).state

def m3d : RepoState := (addBranch "target" 403 m3c).state

def m3e : RepoState := (checkoutBranch "target" 404 m3d).state

def m3f : RepoState := (unstageFile "a.txt" 405 m3e).state

def m3g : RepoState := (newCommit "rm a" 406 m3f).state

def m3h : RepoState := (checkoutBranch "main" 407 m3g).state

def m3i : RepoState := { m3h with workdir := aset m3h.workdir "a.txt" ⟨strBytes "!A", 408⟩ }

def m3j : RepoState := (stageFile "a.txt" 409 m3i).state

def m3k : RepoState := (newCommit "change a" 410 m3j).state

/-- The M3 merge of `target` into `main`. -/
def m3merge : Res (List String) := mergeBranch "target" 411 m3k

/-- Scenario U: `u.txt` committed on `main`, branch `side` created there,
then `u.txt` removed and the removal committed, and finally an untracked
`u.txt` re-created in the working tree — every target-switching command
must now refuse. -/
def u1 : RepoState := { repo0 with workdir := [("u.txt", ⟨strBytes "U", 500⟩)] }

def u2 : RepoState := (stageFile "u.txt" 501 u1).state

def u3 : RepoState := (newCommit "add u" 502 u2).state

def u4 : RepoState := (addBranch "side" 503 u3).state

def u5 : RepoState := (unstageFile "u.txt" 504 u4).state

def u6 : RepoState := (newCommit "rm u" 505 u5).state

def u7 : RepoState := { u6 with workdir := [("u.txt", ⟨strBytes "UU", 506⟩)] }

/-- The commit `side` points at in scenario U (checked below). -/
def uSideHash : String := "2be61241281782b1a9cff5feb2aa1de3c6f4ee13"

/-- The head commit of branch `side` in scenario U (the `"add u"` commit;
values checked in the C4 witness). -/
def uTgtCommit : Commit :=
  ⟨"add u", 502, [("u.txt", "328ff8ab9acdd47b256e0e1350b8edfef342daba")],
    ("f14a7dfac63092f78fb5d209312a84315dd9ef73", "")⟩

/-- The current head commit in scenario U (the `"rm u"` commit). -/
def uCurCommit : Commit :=
  ⟨"rm u", 505, [], ("2be61241281782b1a9cff5feb2aa1de3c6f4ee13", "")⟩

/-- A stored blob whose payload exceeds the 4096-byte read buffer, plus a
commit tracking it (names chosen as placeholders; the truncation behavior
of `readBlob` does not depend on the object's name). -/
def bigPayload : List Nat := List.replicate 5000 65

def bigBlobHash : String := "aaaaaaaaaaaaaaaaaaaaaaaaaaaaaaaaaaaaaaaa"

def bigCommit : Commit := ⟨"add big", 7, [("big.txt", bigBlobHash)], ("", "")⟩

def bigCommitHash : String := "cccccccccccccccccccccccccccccccccccccccc"

def sBig : RepoState :=
  { gitletExists := true,
    objects := [(bigCommitHash, strBytes "commit" ++ 0 :: (serialize bigCommit ++ [10])),
                (bigBlobHash, strBytes "file" ++ 0 :: (bigPayload ++ [10]))],
    branches := [("main", strBytes bigCommitHash ++ [10])],
    head := strBytes (pathJoin branchesDir "main") ++ [10],
    index := [], workdir := [], output := [] }

/-- Scenario M1 state `m1l` written out as a literal (proved equal to the
operation-built state in `m1lS_eq`); the merge witnesses run from it. -/
def m1lS : RepoState :=
  { gitletExists := true,
    objects := [("f14a7dfac63092f78fb5d209312a84315dd9ef73",
                 [99, 111, 109, 109, 105, 116, 0, 123, 34, 77, 101, 115, 115, 97, 103, 101, 34, 58, 34, 105, 110, 105,
                  116, 105, 97, 108, 32, 99, 111, 109, 109, 105, 116, 34, 44, 34, 84, 105, 109, 101, 115, 116, 97, 109,
                  112, 34, 58, 48, 44, 34, 70, 105, 108, 101, 84, 111, 66, 108, 111, 98, 34, 58, 123, 125, 44, 34, 80, 97,
                  114, 101, 110, 116, 85, 73, 68, 115, 34, 58, 91, 34, 34, 44, 34, 34, 93, 125, 10]),
                ("b6542ce220a8191f6c0eceac0a1a65986ab490b1", [102, 105, 108, 101, 0, 66, 10]),
                ("efd1fe0386fff6309970fb95d23378ae9d31bdf0",
                 [99, 111, 109, 109, 105, 116, 0, 123, 34, 77, 101, 115, 115, 97, 103, 101, 34, 58, 34, 99, 111, 109, 109,
                  105, 116, 32, 98, 34, 44, 34, 84, 105, 109, 101, 115, 116, 97, 109, 112, 34, 58, 50, 48, 50, 44, 34, 70,
                  105, 108, 101, 84, 111, 66, 108, 111, 98, 34, 58, 123, 34, 98, 46, 116, 120, 116, 34, 58, 34, 98, 54,
                  53, 52, 50, 99, 101, 50, 50, 48, 97, 56, 49, 57, 49, 102, 54, 99, 48, 101, 99, 101, 97, 99, 48, 97, 49,
                  97, 54, 53, 57, 56, 54, 97, 98, 52, 57, 48, 98, 49, 34, 125, 44, 34, 80, 97, 114, 101, 110, 116, 85, 73,
                  68, 115, 34, 58, 91, 34, 102, 49, 52, 97, 55, 100, 102, 97, 99, 54, 51, 48, 57, 50, 102, 55, 56, 102,
                  98, 53, 100, 50, 48, 57, 51, 49, 50, 97, 56, 52, 51, 49, 53, 100, 100, 57, 101, 102, 55, 51, 34, 44, 34,
                  34, 93, 125, 10]),
                ("01884352b01f33ff1e759d9ed024c19a126e4867", [102, 105, 108, 101, 0, 33, 66, 10]),
                ("9aea4f3212abaa9908b5750e6cc43b7371281005",
                 [99, 111, 109, 109, 105, 116, 0, 123, 34, 77, 101, 115, 115, 97, 103, 101, 34, 58, 34, 99, 104, 97, 110,
                  103, 101, 32, 98, 34, 44, 34, 84, 105, 109, 101, 115, 116, 97, 109, 112, 34, 58, 50, 48, 55, 44, 34, 70,
                  105, 108, 101, 84, 111, 66, 108, 111, 98, 34, 58, 123, 34, 98, 46, 116, 120, 116, 34, 58, 34, 48, 49,
                  56, 56, 52, 51, 53, 50, 98, 48, 49, 102, 51, 51, 102, 102, 49, 101, 55, 53, 57, 100, 57, 101, 100, 48,
                  50, 52, 99, 49, 57, 97, 49, 50, 54, 101, 52, 56, 54, 55, 34, 125, 44, 34, 80, 97, 114, 101, 110, 116,
                  85, 73, 68, 115, 34, 58, 91, 34, 101, 102, 100, 49, 102, 101, 48, 51, 56, 54, 102, 102, 102, 54, 51, 48,
                  57, 57, 55, 48, 102, 98, 57, 53, 100, 50, 51, 51, 55, 56, 97, 101, 57, 100, 51, 49, 98, 100, 102, 48,
                  34, 44, 34, 34, 93, 125, 10]),
                ("35f169fae9798ddfa862c1e66a12211c537c120c", [102, 105, 108, 101, 0, 67, 10]),
                ("b38c631b4c80e6924b68343ddcb43eb2a6ca67e7",
                 [99, 111, 109, 109, 105, 116, 0, 123, 34, 77, 101, 115, 115, 97, 103, 101, 34, 58, 34, 97, 100, 100, 32,
                  99, 34, 44, 34, 84, 105, 109, 101, 115, 116, 97, 109, 112, 34, 58, 50, 49, 49, 44, 34, 70, 105, 108,
                  101, 84, 111, 66, 108, 111, 98, 34, 58, 123, 34, 98, 46, 116, 120, 116, 34, 58, 34, 98, 54, 53, 52, 50,
                  99, 101, 50, 50, 48, 97, 56, 49, 57, 49, 102, 54, 99, 48, 101, 99, 101, 97, 99, 48, 97, 49, 97, 54, 53,
                  57, 56, 54, 97, 98, 52, 57, 48, 98, 49, 34, 44, 34, 99, 46, 116, 120, 116, 34, 58, 34, 51, 53, 102, 49,
                  54, 57, 102, 97, 101, 57, 55, 57, 56, 100, 100, 102, 97, 56, 54, 50, 99, 49, 101, 54, 54, 97, 49, 50,
                  50, 49, 49, 99, 53, 51, 55, 99, 49, 50, 48, 99, 34, 125, 44, 34, 80, 97, 114, 101, 110, 116, 85, 73, 68,
                  115, 34, 58, 91, 34, 101, 102, 100, 49, 102, 101, 48, 51, 56, 54, 102, 102, 102, 54, 51, 48, 57, 57, 55,
                  48, 102, 98, 57, 53, 100, 50, 51, 51, 55, 56, 97, 101, 57, 100, 51, 49, 98, 100, 102, 48, 34, 44, 34,
                  34, 93, 125, 10])],
    branches := [("main",
                  [98, 51, 56, 99, 54, 51, 49, 98, 52, 99, 56, 48, 101, 54, 57, 50, 52, 98, 54, 56, 51, 52, 51, 100, 100,
                   99, 98, 52, 51, 101, 98, 50, 97, 54, 99, 97, 54, 55, 101, 55, 10]),
                 ("other",
                  [57, 97, 101, 97, 52, 102, 51, 50, 49, 50, 97, 98, 97, 97, 57, 57, 48, 56, 98, 53, 55, 53, 48, 101, 54,
                   99, 99, 52, 51, 98, 55, 51, 55, 49, 50, 56, 49, 48, 48, 53, 10])],
    head := [46, 103, 105, 116, 108, 101, 116, 47, 114, 101, 102, 115, 47, 104, 101, 97, 100, 115, 47, 109, 97, 105, 110,
             10],
    index := [],
    workdir := [("b.txt", { bytes := [66, 10, 10], modTime := 208 }), ("c.txt", { bytes := [67], modTime := 209 })],
    output := ["Branch 'other' was created on commit (efd1fe).", "Branch 'other' is now checked out.",
               "Branch 'main' is now checked out."] }

/-- Scenario M3 state `m3k` written out as a literal (proved equal to the
operation-built state in `m3kS_eq`). -/
def m3kS : RepoState :=
  { gitletExists := true,
    objects := [("f14a7dfac63092f78fb5d209312a84315dd9ef73",
                 [99, 111, 109, 109, 105, 116, 0, 123, 34, 77, 101, 115, 115, 97, 103, 101, 34, 58, 34, 105, 110, 105,
                  116, 105, 97, 108, 32, 99, 111, 109, 109, 105, 116, 34, 44, 34, 84, 105, 109, 101, 115, 116, 97, 109,
                  112, 34, 58, 48, 44, 34, 70, 105, 108, 101, 84, 111, 66, 108, 111, 98, 34, 58, 123, 125, 44, 34, 80, 97,
                  114, 101, 110, 116, 85, 73, 68, 115, 34, 58, 91, 34, 34, 44, 34, 34, 93, 125, 10]),
                ("58e73c5dc2c4a7099721eae37869df94529f5dc7", [102, 105, 108, 101, 0, 65, 10]),
                ("6619e071d722a390127c4409b4d8f92c87d429d6",
                 [99, 111, 109, 109, 105, 116, 0, 123, 34, 77, 101, 115, 115, 97, 103, 101, 34, 58, 34, 97, 100, 100, 32,
                  97, 34, 44, 34, 84, 105, 109, 101, 115, 116, 97, 109, 112, 34, 58, 52, 48, 50, 44, 34, 70, 105, 108,
                  101, 84, 111, 66, 108, 111, 98, 34, 58, 123, 34, 97, 46, 116, 120, 116, 34, 58, 34, 53, 56, 101, 55, 51,
                  99, 53, 100, 99, 50, 99, 52, 97, 55, 48, 57, 57, 55, 50, 49, 101, 97, 101, 51, 55, 56, 54, 57, 100, 102,
                  57, 52, 53, 50, 57, 102, 53, 100, 99, 55, 34, 125, 44, 34, 80, 97, 114, 101, 110, 116, 85, 73, 68, 115,
                  34, 58, 91, 34, 102, 49, 52, 97, 55, 100, 102, 97, 99, 54, 51, 48, 57, 50, 102, 55, 56, 102, 98, 53,
                  100, 50, 48, 57, 51, 49, 50, 97, 56, 52, 51, 49, 53, 100, 100, 57, 101, 102, 55, 51, 34, 44, 34, 34, 93,
                  125, 10]),
                ("c4db652fece85cd69e5ba10da85cbdabe98e7b70",
                 [99, 111, 109, 109, 105, 116, 0, 123, 34, 77, 101, 115, 115, 97, 103, 101, 34, 58, 34, 114, 109, 32, 97,
                  34, 44, 34, 84, 105, 109, 101, 115, 116, 97, 109, 112, 34, 58, 52, 48, 54, 44, 34, 70, 105, 108, 101,
                  84, 111, 66, 108, 111, 98, 34, 58, 123, 125, 44, 34, 80, 97, 114, 101, 110, 116, 85, 73, 68, 115, 34,
                  58, 91, 34, 54, 54, 49, 57, 101, 48, 55, 49, 100, 55, 50, 50, 97, 51, 57, 48, 49, 50, 55, 99, 52, 52,
                  48, 57, 98, 52, 100, 56, 102, 57, 50, 99, 56, 55, 100, 52, 50, 57, 100, 54, 34, 44, 34, 34, 93, 125,
                  10]),
                ("ac76b55c83795c8b12a16e812854fe21255d0da1", [102, 105, 108, 101, 0, 33, 65, 10]),
                ("0c9907bbbdd9a4bce7b808fcda4535e5140bf6d3",
                 [99, 111, 109, 109, 105, 116, 0, 123, 34, 77, 101, 115, 115, 97, 103, 101, 34, 58, 34, 99, 104, 97, 110,
                  103, 101, 32, 97, 34, 44, 34, 84, 105, 109, 101, 115, 116, 97, 109, 112, 34, 58, 52, 49, 48, 44, 34, 70,
                  105, 108, 101, 84, 111, 66, 108, 111, 98, 34, 58, 123, 34, 97, 46, 116, 120, 116, 34, 58, 34, 97, 99,
                  55, 54, 98, 53, 53, 99, 56, 51, 55, 57, 53, 99, 56, 98, 49, 50, 97, 49, 54, 101, 56, 49, 50, 56, 53, 52,
                  102, 101, 50, 49, 50, 53, 53, 100, 48, 100, 97, 49, 34, 125, 44, 34, 80, 97, 114, 101, 110, 116, 85, 73,
                  68, 115, 34, 58, 91, 34, 54, 54, 49, 57, 101, 48, 55, 49, 100, 55, 50, 50, 97, 51, 57, 48, 49, 50, 55,
                  99, 52, 52, 48, 57, 98, 52, 100, 56, 102, 57, 50, 99, 56, 55, 100, 52, 50, 57, 100, 54, 34, 44, 34, 34,
                  93, 125, 10])],
    branches := [("main",
                  [48, 99, 57, 57, 48, 55, 98, 98, 98, 100, 100, 57, 97, 52, 98, 99, 101, 55, 98, 56, 48, 56, 102, 99,
                   100, 97, 52, 53, 51, 53, 101, 53, 49, 52, 48, 98, 102, 54, 100, 51, 10]),
                 ("target",
                  [99, 52, 100, 98, 54, 53, 50, 102, 101, 99, 101, 56, 53, 99, 100, 54, 57, 101, 53, 98, 97, 49, 48, 100,
                   97, 56, 53, 99, 98, 100, 97, 98, 101, 57, 56, 101, 55, 98, 55, 48, 10])],
    head := [46, 103, 105, 116, 108, 101, 116, 47, 114, 101, 102, 115, 47, 104, 101, 97, 100, 115, 47, 109, 97, 105, 110,
             10],
    index := [],
    workdir := [("a.txt", { bytes := [33, 65], modTime := 408 })],
    output := ["Branch 'target' was created on commit (6619e0).", "Branch 'target' is now checked out.",
               "Branch 'main' is now checked out."] }

/-- Head commit hash of branch `other` in scenario M1 (checked in the C6
witness hypotheses). -/
def m1OtherHash : String := "9aea4f3212abaa9908b5750e6cc43b7371281005"

def m1MainHash : String := "b38c631b4c80e6924b68343ddcb43eb2a6ca67e7"

def m1SplitHash : String := "efd1fe0386fff6309970fb95d23378ae9d31bdf0"

def m1CurCommit : Commit :=
  ⟨"add c", 211,
    [("b.txt", "b6542ce220a8191f6c0eceac0a1a65986ab490b1"),
     ("c.txt", "35f169fae9798ddfa862c1e66a12211c537c120c")],
    ("efd1fe0386fff6309970fb95d23378ae9d31bdf0", "")⟩

def m1TgtCommit : Commit :=
  ⟨"change b", 207, [("b.txt", "01884352b01f33ff1e759d9ed024c19a126e4867")],
    ("efd1fe0386fff6309970fb95d23378ae9d31bdf0", "")⟩

def m1SplitCommit : Commit :=
  ⟨"commit b", 202, [("b.txt", "b6542ce220a8191f6c0eceac0a1a65986ab490b1")],
    ("f14a7dfac63092f78fb5d209312a84315dd9ef73", "")⟩

/-- The final state of the M1 merge, as a literal (tied to the run by the
C6 witness / C7 counterexample equations). -/
def m1s : RepoState :=
  { gitletExists := true,
    objects := [("f14a7dfac63092f78fb5d209312a84315dd9ef73",
                 [99, 111, 109, 109, 105, 116, 0, 123, 34, 77, 101, 115, 115, 97, 103, 101, 34, 58, 34, 105, 110, 105,
                  116, 105, 97, 108, 32, 99, 111, 109, 109, 105, 116, 34, 44, 34, 84, 105, 109, 101, 115, 116, 97, 109,
                  112, 34, 58, 48, 44, 34, 70, 105, 108, 101, 84, 111, 66, 108, 111, 98, 34, 58, 123, 125, 44, 34, 80, 97,
                  114, 101, 110, 116, 85, 73, 68, 115, 34, 58, 91, 34, 34, 44, 34, 34, 93, 125, 10]),
                ("b6542ce220a8191f6c0eceac0a1a65986ab490b1", [102, 105, 108, 101, 0, 66, 10]),
                ("efd1fe0386fff6309970fb95d23378ae9d31bdf0",
                 [99, 111, 109, 109, 105, 116, 0, 123, 34, 77, 101, 115, 115, 97, 103, 101, 34, 58, 34, 99, 111, 109, 109,
                  105, 116, 32, 98, 34, 44, 34, 84, 105, 109, 101, 115, 116, 97, 109, 112, 34, 58, 50, 48, 50, 44, 34, 70,
                  105, 108, 101, 84, 111, 66, 108, 111, 98, 34, 58, 123, 34, 98, 46, 116, 120, 116, 34, 58, 34, 98, 54,
                  53, 52, 50, 99, 101, 50, 50, 48, 97, 56, 49, 57, 49, 102, 54, 99, 48, 101, 99, 101, 97, 99, 48, 97, 49,
                  97, 54, 53, 57, 56, 54, 97, 98, 52, 57, 48, 98, 49, 34, 125, 44, 34, 80, 97, 114, 101, 110, 116, 85, 73,
                  68, 115, 34, 58, 91, 34, 102, 49, 52, 97, 55, 100, 102, 97, 99, 54, 51, 48, 57, 50, 102, 55, 56, 102,
                  98, 53, 100, 50, 48, 57, 51, 49, 50, 97, 56, 52, 51, 49, 53, 100, 100, 57, 101, 102, 55, 51, 34, 44, 34,
                  34, 93, 125, 10]),
                ("01884352b01f33ff1e759d9ed024c19a126e4867", [102, 105, 108, 101, 0, 33, 66, 10]),
                ("9aea4f3212abaa9908b5750e6cc43b7371281005",
                 [99, 111, 109, 109, 105, 116, 0, 123, 34, 77, 101, 115, 115, 97, 103, 101, 34, 58, 34, 99, 104, 97, 110,
                  103, 101, 32, 98, 34, 44, 34, 84, 105, 109, 101, 115, 116, 97, 109, 112, 34, 58, 50, 48, 55, 44, 34, 70,
                  105, 108, 101, 84, 111, 66, 108, 111, 98, 34, 58, 123, 34, 98, 46, 116, 120, 116, 34, 58, 34, 48, 49,
                  56, 56, 52, 51, 53, 50, 98, 48, 49, 102, 51, 51, 102, 102, 49, 101, 55, 53, 57, 100, 57, 101, 100, 48,
                  50, 52, 99, 49, 57, 97, 49, 50, 54, 101, 52, 56, 54, 55, 34, 125, 44, 34, 80, 97, 114, 101, 110, 116,
                  85, 73, 68, 115, 34, 58, 91, 34, 101, 102, 100, 49, 102, 101, 48, 51, 56, 54, 102, 102, 102, 54, 51, 48,
                  57, 57, 55, 48, 102, 98, 57, 53, 100, 50, 51, 51, 55, 56, 97, 101, 57, 100, 51, 49, 98, 100, 102, 48,
                  34, 44, 34, 34, 93, 125, 10]),
                ("35f169fae9798ddfa862c1e66a12211c537c120c", [102, 105, 108, 101, 0, 67, 10]),
                ("b38c631b4c80e6924b68343ddcb43eb2a6ca67e7",
                 [99, 111, 109, 109, 105, 116, 0, 123, 34, 77, 101, 115, 115, 97, 103, 101, 34, 58, 34, 97, 100, 100, 32,
                  99, 34, 44, 34, 84, 105, 109, 101, 115, 116, 97, 109, 112, 34, 58, 50, 49, 49, 44, 34, 70, 105, 108,
                  101, 84, 111, 66, 108, 111, 98, 34, 58, 123, 34, 98, 46, 116, 120, 116, 34, 58, 34, 98, 54, 53, 52, 50,
                  99, 101, 50, 50, 48, 97, 56, 49, 57, 49, 102, 54, 99, 48, 101, 99, 101, 97, 99, 48, 97, 49, 97, 54, 53,
                  57, 56, 54, 97, 98, 52, 57, 48, 98, 49, 34, 44, 34, 99, 46, 116, 120, 116, 34, 58, 34, 51, 53, 102, 49,
                  54, 57, 102, 97, 101, 57, 55, 57, 56, 100, 100, 102, 97, 56, 54, 50, 99, 49, 101, 54, 54, 97, 49, 50,
                  50, 49, 49, 99, 53, 51, 55, 99, 49, 50, 48, 99, 34, 125, 44, 34, 80, 97, 114, 101, 110, 116, 85, 73, 68,
                  115, 34, 58, 91, 34, 101, 102, 100, 49, 102, 101, 48, 51, 56, 54, 102, 102, 102, 54, 51, 48, 57, 57, 55,
                  48, 102, 98, 57, 53, 100, 50, 51, 51, 55, 56, 97, 101, 57, 100, 51, 49, 98, 100, 102, 48, 34, 44, 34,
                  34, 93, 125, 10]),
                ("891d2d8791ab8080357537ea3ded5c3eb045e2ff",
                 [99, 111, 109, 109, 105, 116, 0, 123, 34, 77, 101, 115, 115, 97, 103, 101, 34, 58, 34, 77, 101, 114, 103,
                  101, 100, 32, 111, 116, 104, 101, 114, 32, 105, 110, 116, 111, 32, 109, 97, 105, 110, 46, 34, 44, 34,
                  84, 105, 109, 101, 115, 116, 97, 109, 112, 34, 58, 50, 49, 50, 44, 34, 70, 105, 108, 101, 84, 111, 66,
                  108, 111, 98, 34, 58, 123, 34, 98, 46, 116, 120, 116, 34, 58, 34, 48, 49, 56, 56, 52, 51, 53, 50, 98,
                  48, 49, 102, 51, 51, 102, 102, 49, 101, 55, 53, 57, 100, 57, 101, 100, 48, 50, 52, 99, 49, 57, 97, 49,
                  50, 54, 101, 52, 56, 54, 55, 34, 44, 34, 99, 46, 116, 120, 116, 34, 58, 34, 51, 53, 102, 49, 54, 57,
                  102, 97, 101, 57, 55, 57, 56, 100, 100, 102, 97, 56, 54, 50, 99, 49, 101, 54, 54, 97, 49, 50, 50, 49,
                  49, 99, 53, 51, 55, 99, 49, 50, 48, 99, 34, 125, 44, 34, 80, 97, 114, 101, 110, 116, 85, 73, 68, 115,
                  34, 58, 91, 34, 98, 51, 56, 99, 54, 51, 49, 98, 52, 99, 56, 48, 101, 54, 57, 50, 52, 98, 54, 56, 51, 52,
                  51, 100, 100, 99, 98, 52, 51, 101, 98, 50, 97, 54, 99, 97, 54, 55, 101, 55, 34, 44, 34, 57, 97, 101, 97,
                  52, 102, 51, 50, 49, 50, 97, 98, 97, 97, 57, 57, 48, 56, 98, 53, 55, 53, 48, 101, 54, 99, 99, 52, 51,
                  98, 55, 51, 55, 49, 50, 56, 49, 48, 48, 53, 34, 93, 125, 10])],
    branches := [("main",
                  [56, 57, 49, 100, 50, 100, 56, 55, 57, 49, 97, 98, 56, 48, 56, 48, 51, 53, 55, 53, 51, 55, 101, 97, 51,
                   100, 101, 100, 53, 99, 51, 101, 98, 48, 52, 53, 101, 50, 102, 102, 10]),
                 ("other",
                  [57, 97, 101, 97, 52, 102, 51, 50, 49, 50, 97, 98, 97, 97, 57, 57, 48, 56, 98, 53, 55, 53, 48, 101, 54,
                   99, 99, 52, 51, 98, 55, 51, 55, 49, 50, 56, 49, 48, 48, 53, 10])],
    head := [46, 103, 105, 116, 108, 101, 116, 47, 114, 101, 102, 115, 47, 104, 101, 97, 100, 115, 47, 109, 97, 105, 110,
             10],
    index := [],
    workdir := [("b.txt", { bytes := [33, 66, 10, 10], modTime := 212 }), ("c.txt", { bytes := [67], modTime := 209 })],
    output := ["Branch 'other' was created on commit (efd1fe).", "Branch 'other' is now checked out.",
               "Branch 'main' is now checked out.", "Encountered a merge conflict."] }

def m3TargetHash : String := "c4db652fece85cd69e5ba10da85cbdabe98e7b70"

def m3MainHash : String := "0c9907bbbdd9a4bce7b808fcda4535e5140bf6d3"

def m3SplitHash : String := "6619e071d722a390127c4409b4d8f92c87d429d6"

def m3CurCommit : Commit :=
  ⟨"change a", 410, [("a.txt", "ac76b55c83795c8b12a16e812854fe21255d0da1")],
    ("6619e071d722a390127c4409b4d8f92c87d429d6", "")⟩

def m3TgtCommit : Commit :=
  ⟨"rm a", 406, [], ("6619e071d722a390127c4409b4d8f92c87d429d6", "")⟩

def m3SplitCommit : Commit :=
  ⟨"add a", 402, [("a.txt", "58e73c5dc2c4a7099721eae37869df94529f5dc7")],
    ("f14a7dfac63092f78fb5d209312a84315dd9ef73", "")⟩

/-- The final state of the M3 merge, as a literal. -/
def m3s : RepoState :=
  { gitletExists := true,
    objects := [("f14a7dfac63092f78fb5d209312a84315dd9ef73",
                 [99, 111, 109, 109, 105, 116, 0, 123, 34, 77, 101, 115, 115, 97, 103, 101, 34, 58, 34, 105, 110, 105,
                  116, 105, 97, 108, 32, 99, 111, 109, 109, 105, 116, 34, 44, 34, 84, 105, 109, 101, 115, 116, 97, 109,
                  112, 34, 58, 48, 44, 34, 70, 105, 108, 101, 84, 111, 66, 108, 111, 98, 34, 58, 123, 125, 44, 34, 80, 97,
                  114, 101, 110, 116, 85, 73, 68, 115, 34, 58, 91, 34, 34, 44, 34, 34, 93, 125, 10]),
                ("58e73c5dc2c4a7099721eae37869df94529f5dc7", [102, 105, 108, 101, 0, 65, 10]),
                ("6619e071d722a390127c4409b4d8f92c87d429d6",
                 [99, 111, 109, 109, 105, 116, 0, 123, 34, 77, 101, 115, 115, 97, 103, 101, 34, 58, 34, 97, 100, 100, 32,
                  97, 34, 44, 34, 84, 105, 109, 101, 115, 116, 97, 109, 112, 34, 58, 52, 48, 50, 44, 34, 70, 105, 108,
                  101, 84, 111, 66, 108, 111, 98, 34, 58, 123, 34, 97, 46, 116, 120, 116, 34, 58, 34, 53, 56, 101, 55, 51,
                  99, 53, 100, 99, 50, 99, 52, 97, 55, 48, 57, 57, 55, 50, 49, 101, 97, 101, 51, 55, 56, 54, 57, 100, 102,
                  57, 52, 53, 50, 57, 102, 53, 100, 99, 55, 34, 125, 44, 34, 80, 97, 114, 101, 110, 116, 85, 73, 68, 115,
                  34, 58, 91, 34, 102, 49, 52, 97, 55, 100, 102, 97, 99, 54, 51, 48, 57, 50, 102, 55, 56, 102, 98, 53,
                  100, 50, 48, 57, 51, 49, 50, 97, 56, 52, 51, 49, 53, 100, 100, 57, 101, 102, 55, 51, 34, 44, 34, 34, 93,
                  125, 10]),
                ("c4db652fece85cd69e5ba10da85cbdabe98e7b70",
                 [99, 111, 109, 109, 105, 116, 0, 123, 34, 77, 101, 115, 115, 97, 103, 101, 34, 58, 34, 114, 109, 32, 97,
                  34, 44, 34, 84, 105, 109, 101, 115, 116, 97, 109, 112, 34, 58, 52, 48, 54, 44, 34, 70, 105, 108, 101,
                  84, 111, 66, 108, 111, 98, 34, 58, 123, 125, 44, 34, 80, 97, 114, 101, 110, 116, 85, 73, 68, 115, 34,
                  58, 91, 34, 54, 54, 49, 57, 101, 48, 55, 49, 100, 55, 50, 50, 97, 51, 57, 48, 49, 50, 55, 99, 52, 52,
                  48, 57, 98, 52, 100, 56, 102, 57, 50, 99, 56, 55, 100, 52, 50, 57, 100, 54, 34, 44, 34, 34, 93, 125,
                  10]),
                ("ac76b55c83795c8b12a16e812854fe21255d0da1", [102, 105, 108, 101, 0, 33, 65, 10]),
                ("0c9907bbbdd9a4bce7b808fcda4535e5140bf6d3",
                 [99, 111, 109, 109, 105, 116, 0, 123, 34, 77, 101, 115, 115, 97, 103, 101, 34, 58, 34, 99, 104, 97, 110,
                  103, 101, 32, 97, 34, 44, 34, 84, 105, 109, 101, 115, 116, 97, 109, 112, 34, 58, 52, 49, 48, 44, 34, 70,
                  105, 108, 101, 84, 111, 66, 108, 111, 98, 34, 58, 123, 34, 97, 46, 116, 120, 116, 34, 58, 34, 97, 99,
                  55, 54, 98, 53, 53, 99, 56, 51, 55, 57, 53, 99, 56, 98, 49, 50, 97, 49, 54, 101, 56, 49, 50, 56, 53, 52,
                  102, 101, 50, 49, 50, 53, 53, 100, 48, 100, 97, 49, 34, 125, 44, 34, 80, 97, 114, 101, 110, 116, 85, 73,
                  68, 115, 34, 58, 91, 34, 54, 54, 49, 57, 101, 48, 55, 49, 100, 55, 50, 50, 97, 51, 57, 48, 49, 50, 55,
                  99, 52, 52, 48, 57, 98, 52, 100, 56, 102, 57, 50, 99, 56, 55, 100, 52, 50, 57, 100, 54, 34, 44, 34, 34,
                  93, 125, 10]),
                ("dd07a5be212408933e1e7b4e56f117bd38dfd13b",
                 [102, 105, 108, 101, 0, 60, 60, 60, 60, 60, 60, 60, 32, 72, 69, 65, 68, 10, 33, 65, 10, 61, 61, 61, 61,
                  61, 61, 61, 62, 62, 62, 62, 62, 62, 62, 10]),
                ("fdba807be45d3dbc231d66d039851255b0f5c455",
                 [99, 111, 109, 109, 105, 116, 0, 123, 34, 77, 101, 115, 115, 97, 103, 101, 34, 58, 34, 77, 101, 114, 103,
                  101, 100, 32, 116, 97, 114, 103, 101, 116, 32, 105, 110, 116, 111, 32, 109, 97, 105, 110, 46, 34, 44,
                  34, 84, 105, 109, 101, 115, 116, 97, 109, 112, 34, 58, 52, 49, 49, 44, 34, 70, 105, 108, 101, 84, 111,
                  66, 108, 111, 98, 34, 58, 123, 34, 97, 46, 116, 120, 116, 34, 58, 34, 100, 100, 48, 55, 97, 53, 98, 101,
                  50, 49, 50, 52, 48, 56, 57, 51, 51, 101, 49, 101, 55, 98, 52, 101, 53, 54, 102, 49, 49, 55, 98, 100, 51,
                  56, 100, 102, 100, 49, 51, 98, 34, 125, 44, 34, 80, 97, 114, 101, 110, 116, 85, 73, 68, 115, 34, 58, 91,
                  34, 48, 99, 57, 57, 48, 55, 98, 98, 98, 100, 100, 57, 97, 52, 98, 99, 101, 55, 98, 56, 48, 56, 102, 99,
                  100, 97, 52, 53, 51, 53, 101, 53, 49, 52, 48, 98, 102, 54, 100, 51, 34, 44, 34, 99, 52, 100, 98, 54, 53,
                  50, 102, 101, 99, 101, 56, 53, 99, 100, 54, 57, 101, 53, 98, 97, 49, 48, 100, 97, 56, 53, 99, 98, 100,
                  97, 98, 101, 57, 56, 101, 55, 98, 55, 48, 34, 93, 125, 10])],
    branches := [("main",
                  [102, 100, 98, 97, 56, 48, 55, 98, 101, 52, 53, 100, 51, 100, 98, 99, 50, 51, 49, 100, 54, 54, 100, 48,
                   51, 57, 56, 53, 49, 50, 53, 53, 98, 48, 102, 53, 99, 52, 53, 53, 10]),
                 ("target",
                  [99, 52, 100, 98, 54, 53, 50, 102, 101, 99, 101, 56, 53, 99, 100, 54, 57, 101, 53, 98, 97, 49, 48, 100,
                   97, 56, 53, 99, 98, 100, 97, 98, 101, 57, 56, 101, 55, 98, 55, 48, 10])],
    head := [46, 103, 105, 116, 108, 101, 116, 47, 114, 101, 102, 115, 47, 104, 101, 97, 100, 115, 47, 109, 97, 105, 110,
             10],
    index := [],
    workdir := [("a.txt",
                 { bytes := [60, 60, 60, 60, 60, 60, 60, 32, 72, 69, 65, 68, 10, 33, 65, 10, 61, 61, 61, 61, 61, 61, 61,
                             62, 62, 62, 62, 62, 62, 62, 10],
                   modTime := 411 })],
    output := ["Branch 'target' was created on commit (6619e0).", "Branch 'target' is now checked out.",
               "Branch 'main' is now checked out.", "Encountered a merge conflict."] }

/-- State after resolving `a.txt` as a conflict from `m3kS`. -/
def c8s : RepoState :=
  (mergeResolveLate m3TargetHash m3SplitCommit m3CurCommit m3TgtCommit "a.txt" 500 m3kS).state


/-! ## Theorems

Infrastructure lemmas first, then one theorem per claim (with its
counterexample and witness where applicable). -/

theorem strBytes_append (a b : String) : strBytes (a ++ b) = strBytes a ++ strBytes b := by
  show ((a ++ b).data.map Char.toNat) = a.data.map Char.toNat ++ b.data.map Char.toNat
  rw [String.data_append, List.map_append]

theorem bytesToStr_strBytes (s : String) : bytesToStr (strBytes s) = s := by
  show String.mk ((s.data.map Char.toNat).map Char.ofNat) = s
  rw [List.map_map]
  have : s.data.map (Char.ofNat ∘ Char.toNat) = s.data := by
    have : (Char.ofNat ∘ Char.toNat) = id := by
      funext c
      exact Char.ofNat_toNat c
    rw [this, List.map_id]
  rw [this]

theorem strBytes_inj {a b : String} (h : strBytes a = strBytes b) : a = b := by
  have := congrArg bytesToStr h
  rwa [bytesToStr_strBytes, bytesToStr_strBytes] at this

theorem alookup_aset_self {α : Type} (l : List (String × α)) (k : String) (v : α) :
    alookup (aset l k v) k = some v := by
  induction l with
  | nil => simp [aset, alookup]
  | cons kv rest ih =>
    by_cases h : kv.1 = k <;> simp [aset, alookup, h, ih]

theorem alookup_aset_ne {α : Type} (l : List (String × α)) (k k' : String) (v : α)
    (h : k' ≠ k) : alookup (aset l k v) k' = alookup l k' := by
  induction l with
  | nil => simp [aset, alookup, Ne.symm h]
  | cons kv rest ih =>
    by_cases hk : kv.1 = k
    · subst hk
      simp [aset, alookup, Ne.symm h, ih]
    · by_cases hk' : kv.1 = k' <;> simp [aset, alookup, hk, hk', ih, h]

theorem alookup_adel_self {α : Type} (l : List (String × α)) (k : String) :
    alookup (adel l k) k = none := by
  induction l with
  | nil => simp [adel, alookup]
  | cons kv rest ih =>
    by_cases h : kv.1 = k <;> simp [adel, alookup, h, ih]

theorem alookup_adel_ne {α : Type} (l : List (String × α)) (k k' : String) (h : k' ≠ k) :
    alookup (adel l k) k' = alookup l k' := by
  induction l with
  | nil => simp [adel, alookup]
  | cons kv rest ih =>
    by_cases hk : kv.1 = k
    · subst hk
      simp [adel, alookup, Ne.symm h, ih]
    · by_cases hk' : kv.1 = k' <;> simp [adel, alookup, hk, hk', ih, h]

theorem mem_aset {α : Type} {kv : String × α} {l : List (String × α)} {k : String} {v : α}
    (h : kv ∈ aset l k v) : kv = (k, v) ∨ kv ∈ l := by
  induction l with
  | nil =>
    simp only [aset, List.mem_singleton] at h
    exact Or.inl h
  | cons kw rest ih =>
    obtain ⟨k1, v1⟩ := kw
    by_cases hk : k1 = k
    · simp only [aset, if_pos hk] at h
      rcases List.mem_cons.1 h with h | h
      · subst hk
        exact Or.inl h
      · exact Or.inr (List.mem_cons_of_mem _ h)
    · simp only [aset, if_neg hk] at h
      rcases List.mem_cons.1 h with h | h
      · exact Or.inr (h ▸ List.mem_cons_self _ _)
      · rcases ih h with h | h
        · exact Or.inl h
        · exact Or.inr (List.mem_cons_of_mem _ h)

theorem mem_adel {α : Type} {kv : String × α} {l : List (String × α)} {k : String}
    (h : kv ∈ adel l k) : kv ∈ l := by
  induction l with
  | nil =>
    simp [adel] at h
  | cons kw rest ih =>
    obtain ⟨k1, v1⟩ := kw
    by_cases hk : k1 = k
    · simp only [adel, if_pos hk] at h
      exact List.mem_cons_of_mem _ (ih h)
    · simp only [adel, if_neg hk] at h
      rcases List.mem_cons.1 h with h | h
      · exact h ▸ List.mem_cons_self _ _
      · exact List.mem_cons_of_mem _ (ih h)

theorem alookup_mem {α : Type} {l : List (String × α)} {k : String} {v : α}
    (h : alookup l k = some v) : (k, v) ∈ l := by
  induction l with
  | nil => simp [alookup] at h
  | cons kw rest ih =>
    obtain ⟨k1, v1⟩ := kw
    by_cases hk : k1 = k
    · simp only [alookup, if_pos hk, Option.some.injEq] at h
      subst hk
      subst h
      exact List.mem_cons_self _ _
    · simp only [alookup, if_neg hk] at h
      exact List.mem_cons_of_mem _ (ih h)

theorem pathJoin_eq (d n : String) : pathJoin d n = (d ++ "/") ++ n := by
  simp [pathJoin, String.append_assoc]

theorem pHasPre_append (pre h : String) : pHasPre pre (pre ++ h) = true := by
  simp [pHasPre, List.isPrefixOf_iff_prefix, strBytes_append, List.prefix_append]

theorem pDropPre_append (pre h : String) : pDropPre pre (pre ++ h) = h := by
  simp [pDropPre, strBytes_append, List.drop_left, bytesToStr_strBytes]

theorem objPath_ne_headFile (h : String) : ((objectsDir ++ "/") ++ h) = headFile → False := by
  intro e
  have hlen := congrArg String.length e
  rw [String.length_append] at hlen
  have h1 : (objectsDir ++ "/").length = 16 := by decide
  have h2 : headFile.length = 12 := by decide
  omega

theorem branchPath_ne_headFile (h : String) :
    ((branchesDir ++ "/") ++ h) = headFile → False := by
  intro e
  have hlen := congrArg String.length e
  rw [String.length_append] at hlen
  have h1 : (branchesDir ++ "/").length = 19 := by decide
  have h2 : headFile.length = 12 := by decide
  omega

theorem not_objPre_branchPath (b : String) :
    pHasPre (objectsDir ++ "/") ((branchesDir ++ "/") ++ b) = false := by
  by_contra hcon
  rw [Bool.not_eq_false, pHasPre, List.isPrefixOf_iff_prefix, strBytes_append] at hcon
  have htake : (strBytes (branchesDir ++ "/")).take 16 <+:
      strBytes (branchesDir ++ "/") ++ strBytes b :=
    (List.take_prefix _ _).trans (List.prefix_append _ _)
  have hle : (strBytes (objectsDir ++ "/")).length ≤
      ((strBytes (branchesDir ++ "/")).take 16).length := by decide
  have hpre := List.prefix_of_prefix_length_le hcon htake hle
  have heq := hpre.eq_of_length (by decide)
  revert heq
  decide

theorem rawWrite_objPath (s : RepoState) (h : String) (b : List Nat) (now : Int) :
    rawWrite s (pathJoin objectsDir h) b now = { s with objects := aset s.objects h b } := by
  rw [pathJoin_eq, rawWrite, if_neg (objPath_ne_headFile h), if_pos (pHasPre_append _ _),
    pDropPre_append]

theorem rawWrite_branchPath (s : RepoState) (bn : String) (b : List Nat) (now : Int) :
    rawWrite s (pathJoin branchesDir bn) b now = { s with branches := aset s.branches bn b } := by
  rw [pathJoin_eq, rawWrite, if_neg (branchPath_ne_headFile bn)]
  rw [if_neg (by rw [not_objPre_branchPath bn]; exact Bool.false_ne_true),
    if_pos (pHasPre_append _ _), pDropPre_append]

theorem rawWrite_headFile (s : RepoState) (b : List Nat) (now : Int) :
    rawWrite s headFile b now = { s with head := b } := by
  rw [rawWrite, if_pos rfl]

theorem isWdPath_elim {p : String} (h : isWdPath p = true) :
    p ≠ headFile ∧ pHasPre (objectsDir ++ "/") p = false ∧
      pHasPre (branchesDir ++ "/") p = false := by
  simp only [isWdPath, Bool.and_eq_true, Bool.not_eq_true'] at h
  refine ⟨?_, h.1.2, h.2⟩
  intro e
  have := h.1.1
  rw [e] at this
  simp at this

theorem rawWrite_wd (s : RepoState) (p : String) (b : List Nat) (now : Int)
    (hp : isWdPath p = true) :
    rawWrite s p b now = { s with workdir := aset s.workdir p ⟨b, now⟩ } := by
  obtain ⟨h1, h2, h3⟩ := isWdPath_elim hp
  rw [rawWrite, if_neg h1, if_neg (by rw [h2]; exact Bool.false_ne_true),
    if_neg (by rw [h3]; exact Bool.false_ne_true)]

theorem rawRead_objPath (s : RepoState) (h : String) :
    rawRead s (pathJoin objectsDir h) = alookup s.objects h := by
  rw [pathJoin_eq, rawRead, if_neg (objPath_ne_headFile h), if_pos (pHasPre_append _ _),
    pDropPre_append]

theorem rawRead_branchPath (s : RepoState) (bn : String) :
    rawRead s (pathJoin branchesDir bn) = alookup s.branches bn := by
  rw [pathJoin_eq, rawRead, if_neg (branchPath_ne_headFile bn)]
  rw [if_neg (by rw [not_objPre_branchPath bn]; exact Bool.false_ne_true),
    if_pos (pHasPre_append _ _), pDropPre_append]

theorem rawRead_headFile (s : RepoState) : rawRead s headFile = some s.head := by
  rw [rawRead, if_pos rfl]

theorem rawRead_wd (s : RepoState) (p : String) (hp : isWdPath p = true) :
    rawRead s p = (alookup s.workdir p).map WFile.bytes := by
  obtain ⟨h1, h2, h3⟩ := isWdPath_elim hp
  rw [rawRead, if_neg h1, if_neg (by rw [h2]; exact Bool.false_ne_true),
    if_neg (by rw [h3]; exact Bool.false_ne_true)]

theorem rawDelete_objPath (s : RepoState) (h : String) :
    rawDelete s (pathJoin objectsDir h) = { s with objects := adel s.objects h } := by
  rw [pathJoin_eq, rawDelete, if_pos (pHasPre_append _ _), pDropPre_append]

theorem rawDelete_wd (s : RepoState) (p : String) (hp : isWdPath p = true) :
    rawDelete s p = { s with workdir := adel s.workdir p } := by
  obtain ⟨_, h2, h3⟩ := isWdPath_elim hp
  rw [rawDelete, if_neg (by rw [h2]; exact Bool.false_ne_true),
    if_neg (by rw [h3]; exact Bool.false_ne_true)]

theorem trimRightNl_concat_nl (b : List Nat) : trimRightNl (b ++ [10]) = trimRightNl b := by
  simp [trimRightNl, List.dropWhile]

theorem trimRightNl_of_getLast {b : List Nat} (h : b.getLast? ≠ some 10) :
    trimRightNl b = b := by
  rw [trimRightNl]
  cases hb : b.reverse with
  | nil =>
    have : b = [] := by simpa using congrArg List.reverse hb
    simp [this]
  | cons x xs =>
    have hx : b.getLast? = some x := by
      rw [← List.head?_reverse, hb]
      rfl
    have : ¬x == 10 := by
      intro e
      exact h (by rw [hx]; simpa using e)
    rw [List.dropWhile_cons_of_neg (by simpa using this)]
    rw [← hb, List.reverse_reverse]

theorem fragsBytes_blobPayload (hdr : String) (b : List Nat) :
    fragsBytes [Frag.str hdr, Frag.bytes [0], Frag.bytes b] = strBytes hdr ++ 0 :: b := by
  simp [fragsBytes, fragBytes]

theorem fragsBytes_single_str (t : String) : fragsBytes [Frag.str t] = strBytes t := by
  simp [fragsBytes, fragBytes]

theorem fragsBytes_single_bytes (b : List Nat) : fragsBytes [Frag.bytes b] = b := by
  simp [fragsBytes, fragBytes]

theorem readBlobBytes_stored (hdr : String) (payload : List Nat)
    (h0 : (strBytes hdr).all (fun c => !(c == 0)) = true)
    (hlen : (strBytes hdr).length + 1 + (payload.length + 1) ≤ 4096) :
    readBlobBytes (strBytes hdr ++ 0 :: (payload ++ [10])) = .ok (hdr, payload ++ [10]) := by
  have hfind : (strBytes hdr ++ 0 :: (payload ++ [10])).findIdx? (· == 0) =
      some (strBytes hdr).length := by
    rw [List.findIdx?_append]
    have hnone : (strBytes hdr).findIdx? (· == 0) = none := by
      rw [List.findIdx?_eq_none_iff]
      intro x hx
      have := List.all_eq_true.1 h0 x hx
      simpa using this
    rw [hnone]
    simp [List.findIdx?]
  rw [readBlobBytes, hfind]
  have hlen2 : (strBytes hdr ++ 0 :: (payload ++ [10])).length =
      (strBytes hdr).length + 1 + (payload.length + 1) := by
    simp
    omega
  have hmin : min bufferSize (strBytes hdr ++ 0 :: (payload ++ [10])).length =
      (strBytes hdr).length + 1 + (payload.length + 1) := by
    rw [hlen2]
    exact Nat.min_eq_right hlen
  simp only [hmin]
  rw [if_pos (by omega)]
  have htake : ((strBytes hdr ++ 0 :: (payload ++ [10])).take
      ((strBytes hdr).length + 1 + (payload.length + 1))) =
      strBytes hdr ++ 0 :: (payload ++ [10]) := by
    rw [← hlen2]
    exact List.take_length _
  rw [htake]
  have hdrop : (strBytes hdr ++ 0 :: (payload ++ [10])).drop ((strBytes hdr).length + 1) =
      payload ++ [10] := by
    have : strBytes hdr ++ 0 :: (payload ++ [10]) =
        (strBytes hdr ++ [0]) ++ (payload ++ [10]) := by simp
    rw [this]
    have hl : (strBytes hdr).length + 1 = (strBytes hdr ++ [0]).length := by simp
    rw [hl, List.drop_left]
  rw [hdrop]
  have hstr : bytesToStr ((strBytes hdr ++ 0 :: (payload ++ [10])).take (strBytes hdr).length) =
      hdr := by
    rw [List.take_left, bytesToStr_strBytes]
  rw [hstr]

theorem bigPayload_length : bigPayload.length = 5000 := by
  rw [bigPayload, List.length_replicate]

theorem sBig_raw :
    alookup sBig.objects bigBlobHash = some (strBytes "file" ++ 0 :: (bigPayload ++ [10])) := by
  simp only [sBig, alookup]
  simp [show ¬(bigCommitHash = bigBlobHash) from by decide]

theorem readBlob_sBig :
    readBlob sBig bigBlobHash = .ok ("file", List.replicate 4091 65) := by
  have hfind : (strBytes "file" ++ 0 :: (bigPayload ++ [10])).findIdx? (· == 0) = some 4 := by
    rw [List.findIdx?_append]
    rw [show (strBytes "file").findIdx? (· == 0) = none from by decide]
    simp [List.findIdx?]
    decide
  have hlen : (strBytes "file" ++ 0 :: (bigPayload ++ [10])).length = 5006 := by
    rw [List.length_append, List.length_cons, List.length_append, bigPayload_length]
    decide
  have hmin : min bufferSize (strBytes "file" ++ 0 :: (bigPayload ++ [10])).length = 4096 := by
    rw [hlen]
    decide
  have htake : (strBytes "file" ++ 0 :: (bigPayload ++ [10])).take 4096 =
      (strBytes "file" ++ [0]) ++ List.replicate 4091 65 := by
    have h5 : (strBytes "file" ++ [0]).length = 5 := by decide
    rw [show strBytes "file" ++ 0 :: (bigPayload ++ [10]) =
      (strBytes "file" ++ [0]) ++ (bigPayload ++ [10]) from by simp]
    rw [List.take_append_eq_append_take]
    rw [List.take_of_length_le (i := 4096) (l := strBytes "file" ++ [0]) (by decide)]
    rw [h5]
    rw [show (4096 - 5 : Nat) = 4091 from rfl]
    rw [List.take_append_eq_append_take, bigPayload, List.take_replicate,
      List.length_replicate]
    rw [show (4091 ⊓ 5000) = 4091 from by decide]
    rw [show (4091 - 5000 : Nat) = 0 from rfl]
    rw [List.take_zero, List.append_nil]
  have hdrop : ((strBytes "file" ++ [0]) ++ List.replicate 4091 65).drop 5 =
      List.replicate 4091 65 :=
    List.drop_left' (by decide)
  have hhdr : bytesToStr (((strBytes "file" ++ 0 :: (bigPayload ++ [10]))).take 4) = "file" := by
    rw [show strBytes "file" ++ 0 :: (bigPayload ++ [10]) =
      strBytes "file" ++ (0 :: (bigPayload ++ [10])) from rfl]
    rw [List.take_left' (by decide), bytesToStr_strBytes]
  simp only [readBlob.eq_def, sBig_raw, readBlobBytes.eq_def, hfind, hmin]
  rw [if_pos (by decide : (4 : Nat) + 1 < 4096)]
  rw [show ((4 : Nat) + 1) = 5 from rfl, htake, hdrop, hhdr]

/-- C10: `readBlob` reads a blob's payload with a single buffered read into
a 4096-byte buffer, so a stored `"file"` blob with a 5000-byte payload
reads back as the strict 4091-byte prefix of its payload (4091 = 4096
minus the five header bytes), and `checkoutCommit` then writes exactly
that prefix (plus `writeContents`' closing newline) into the working
tree. -/
theorem c10_readBlob_truncates :
    4096 < bigPayload.length ∧
    readBlob sBig bigBlobHash = .ok ("file", List.replicate 4091 65) ∧
    List.replicate 4091 65 <+: bigPayload ∧
    (List.replicate 4091 65).length < bigPayload.length ∧
    ∃ s', checkoutCommit "big.txt" bigCommitHash 9 sBig = .ok () s' ∧
      alookup s'.workdir "big.txt" = some ⟨List.replicate 4091 65 ++ [10], 9⟩ := by
  refine ⟨by rw [bigPayload_length]; omega, readBlob_sBig, ?_, ?_, ?_⟩
  · rw [bigPayload, show (5000 : Nat) = 4091 + 909 from by omega, List.replicate_add]
    exact List.prefix_append _ _
  · rw [List.length_replicate, bigPayload_length]
    omega
  · have hget : getCommit sBig bigCommitHash = .ok bigCommit := by decide
    have hlook : alookup bigCommit.fileToBlob "big.txt" = some bigBlobHash := by decide
    refine ⟨writeContents sBig "big.txt" [Frag.bytes (List.replicate 4091 65)] 9, ?_, ?_⟩
    · simp only [checkoutCommit, hget, hlook, readBlob_sBig]
    · simp only [writeContents, fragsBytes_single_bytes,
        rawWrite_wd _ _ _ _ (by decide : isWdPath "big.txt" = true),
        show sBig.workdir = [] from rfl, aset, alookup, if_true]

theorem objects_set_branches (s : RepoState) (b : List (String × List Nat)) :
    ({ s with branches := b } : RepoState).objects = s.objects := rfl

theorem objects_set_head (s : RepoState) (b : List Nat) :
    ({ s with head := b } : RepoState).objects = s.objects := rfl

theorem objects_set_index (s : RepoState) (i : List (String × IndexMetadata)) :
    ({ s with index := i } : RepoState).objects = s.objects := rfl

theorem objects_set_workdir (s : RepoState) (w : List (String × WFile)) :
    ({ s with workdir := w } : RepoState).objects = s.objects := rfl

theorem objects_addOut (s : RepoState) (m : String) : (addOut s m).objects = s.objects := rfl

theorem writeContents_objPath (s : RepoState) (h : String) (arr : List Frag) (now : Int) :
    writeContents s (pathJoin objectsDir h) arr now =
      { s with objects := aset s.objects h (fragsBytes arr ++ [10]) } := by
  rw [writeContents, rawWrite_objPath]

theorem writeContents_branchPath (s : RepoState) (bn : String) (arr : List Frag) (now : Int) :
    writeContents s (pathJoin branchesDir bn) arr now =
      { s with branches := aset s.branches bn (fragsBytes arr ++ [10]) } := by
  rw [writeContents, rawWrite_branchPath]

theorem writeContents_headFile (s : RepoState) (arr : List Frag) (now : Int) :
    writeContents s headFile arr now = { s with head := fragsBytes arr ++ [10] } := by
  rw [writeContents, rawWrite_headFile]

theorem restrictedDelete_objPath (s : RepoState) (h : String) :
    restrictedDelete s (pathJoin objectsDir h) = { s with objects := adel s.objects h } := by
  rw [restrictedDelete, rawDelete_objPath]

theorem readContentsAsString_headFile (s : RepoState) :
    readContentsAsString s headFile = .ok (bytesToStr (trimRightNl s.head)) := by
  simp only [readContentsAsString, readContents, rawRead_headFile]

theorem objectFileOK_blob (arr : List Frag) :
    objectFileOK (getHash arr, fragsBytes arr ++ [10]) :=
  ⟨List.getLast?_concat _, by rw [List.dropLast_concat]; rfl⟩

theorem objectsOK_aset {l : List (String × List Nat)} {k : String} {v : List Nat}
    (hl : ∀ kv ∈ l, objectFileOK kv) (hkv : objectFileOK (k, v)) :
    ∀ kv ∈ aset l k v, objectFileOK kv := fun kv hm =>
  (mem_aset hm).elim (fun e => e ▸ hkv) (hl kv)

theorem objectsOK_adel {l : List (String × List Nat)} {k : String}
    (hl : ∀ kv ∈ l, objectFileOK kv) : ∀ kv ∈ adel l k, objectFileOK kv := fun kv hm =>
  hl kv (mem_adel hm)

theorem c1aux_newRepository (s s' : RepoState) (h : newRepository s = .ok () s') :
    objectsOK s' := by
  by_cases hg : s.gitletExists
  · rw [newRepository, if_pos hg] at h
    exact absurd h (by simp)
  · rw [newRepository, if_neg hg] at h
    simp only [writeContents_objPath, writeContents_branchPath, writeContents_headFile,
      newIndex, writeIndex, Res.ok.injEq, true_and] at h
    subst h
    intro kv hm
    simp only [objects_set_index, objects_set_head, objects_set_branches] at hm
    rcases mem_aset hm with e | e
    · exact e ▸ objectFileOK_blob _
    · simp at e

theorem objects_set_objects (s : RepoState) (o : List (String × List Nat)) :
    ({ s with objects := o } : RepoState).objects = o := rfl

theorem c1aux_stageFile (f : String) (now : Int) (s s' : RepoState) (hOK : objectsOK s)
    (h : stageFile f now s = .ok () s') : objectsOK s' := by
  cases hgc : getHeadCommit s with
  | error e =>
    simp only [stageFile, hgc] at h
    exact Res.noConfusion h
  | ok headCommit =>
    simp only [stageFile, hgc] at h
    repeat' split at h
    all_goals first
      | exact Res.noConfusion h
      | (simp only [restrictedDelete_objPath, writeContents_objPath, writeIndex,
           Res.ok.injEq, true_and] at h
         subst h
         intro kv hm
         simp only [objects_addOut, objects_set_index, objects_set_objects] at hm
         first
           | exact hOK kv hm
           | exact objectsOK_adel hOK kv hm
           | exact objectsOK_aset hOK (objectFileOK_blob _) kv hm
           | exact objectsOK_aset (objectsOK_adel hOK) (objectFileOK_blob _) kv hm)

theorem head_set_objects (s : RepoState) (o : List (String × List Nat)) :
    ({ s with objects := o } : RepoState).head = s.head := rfl

theorem c1aux_writeCommit (c : Commit) (now : Int) (s s' : RepoState) (hv : String)
    (hOK : objectsOK s)
    (hh : ∃ bn, bytesToStr (trimRightNl s.head) = pathJoin branchesDir bn)
    (h : writeCommit c now s = .ok hv s') : objectsOK s' := by
  obtain ⟨bn, hbn⟩ := hh
  simp only [writeCommit] at h
  split at h
  · exact Res.noConfusion h
  · simp only [writeContents_objPath, readContentsAsString_headFile, head_set_objects,
      hbn] at h
    simp only [writeContents_branchPath, newIndex, writeIndex, Res.ok.injEq] at h
    obtain ⟨-, h⟩ := h
    subst h
    intro kv hm
    simp only [objects_set_index, objects_set_branches, objects_set_objects] at hm
    exact objectsOK_aset hOK (objectFileOK_blob _) kv hm

theorem c1aux_writeBlob (hdr : String) (b : List Nat) (now : Int) (s : RepoState)
    (hOK : objectsOK s) : objectsOK (writeBlob s hdr b now) := by
  rw [writeBlob]
  simp only [writeContents_objPath]
  intro kv hm
  simp only [] at hm
  exact objectsOK_aset hOK (objectFileOK_blob _) kv hm

/-- C1, counterexample to the claim as stated: already the object written
by `newRepository` (the initial commit blob) has a name that differs from
the hash of its on-disk bytes, because `writeContents` appends a newline
that is not part of the hashed payload. -/
theorem c1_hash_of_disk_bytes_counterexample :
    newRepository emptyRepo = .ok () repo0 ∧
    repo0.objects.map Prod.fst = [initialHash] ∧
    ∀ kv ∈ repo0.objects, hexSha1 kv.2 ≠ kv.1 := by
  refine ⟨by decide, by decide, by decide⟩

/-- C1 (amended): every object file written by `newRepository`,
`stageFile`, `writeCommit` or `writeBlob` consists of the hashed payload
followed by one newline byte, and its name is the 40-hex SHA-1 digest of
those bytes with that final newline removed: `newRepository` establishes
this invariant and the other three writers preserve it (for `writeCommit`,
provided HEAD holds a branch-ref path, as it does in every repository this
program builds). -/
theorem c1_objects_content_addressed :
    (∀ s s', newRepository s = .ok () s' → objectsOK s') ∧
    (∀ f now s s', objectsOK s → stageFile f now s = .ok () s' → objectsOK s') ∧
    (∀ c now s s' hv, objectsOK s →
      (∃ bn, bytesToStr (trimRightNl s.head) = pathJoin branchesDir bn) →
      writeCommit c now s = .ok hv s' → objectsOK s') ∧
    (∀ hdr b now s, objectsOK s → objectsOK (writeBlob s hdr b now)) :=
  ⟨c1aux_newRepository,
   fun f now s s' hOK h => c1aux_stageFile f now s s' hOK h,
   fun c now s s' hv hOK hh h => c1aux_writeCommit c now s s' hv hOK hh h,
   c1aux_writeBlob⟩

/-- C1 witness: the amended invariant, instantiated on the concrete `wug`
repository for all four operations. -/
theorem c1_objects_content_addressed_witness :
    objectsOK repo0 ∧ objectsOK wugStaged ∧
    objectsOK (writeCommit ⟨"m", 5, [("wug.txt", wugHash)], (initialHash, "")⟩ 5
      wugStaged).state ∧
    objectsOK (writeBlob repo0 "file" (strBytes "z") 5) :=
  ⟨c1_objects_content_addressed.1 emptyRepo repo0 (by decide),
   c1_objects_content_addressed.2.1 "wug.txt" 101 wugA wugStaged (by decide) (by decide),
   c1_objects_content_addressed.2.2.1 ⟨"m", 5, [("wug.txt", wugHash)], (initialHash, "")⟩ 5
     wugStaged _
     ((writeCommit ⟨"m", 5, [("wug.txt", wugHash)], (initialHash, "")⟩ 5
        wugStaged).val?.getD "")
     (by decide) ⟨"main", by decide⟩ (by decide),
   c1_objects_content_addressed.2.2.2 "file" (strBytes "z") 5 repo0 (by decide)⟩

/-- Staging a file that is present in the working tree, not in the index,
and not tracked with an identical hash writes the file blob and records
its hash: the common write path of `stageFile`. -/
theorem stageFile_fresh (f : String) (now : Int) (s : RepoState) (w : WFile) (hc : Commit)
    (hgc : getHeadCommit s = .ok hc)
    (hwd : alookup s.workdir f = some w)
    (hidx : alookup s.index f = none)
    (htr : ∀ th, alookup hc.fileToBlob f = some th → th ≠ fileBlobHash w.bytes) :
    stageFile f now s = .ok ()
      (writeIndex
        (writeContents s (pathJoin objectsDir (fileBlobHash w.bytes)) (fileBlobPayload w.bytes)
          now)
        (aset s.index f ⟨fileBlobHash w.bytes, now, ((trimRightNl w.bytes).length : Int)⟩)) := by
  simp only [stageFile, hgc, hwd, hidx, readIndex, Option.isSome_none, Option.isSome_some,
    Bool.false_eq_true, false_and, if_false, not_false_eq_true, true_and, Option.getD,
    fileBlobHash, fileBlobPayload]
  cases htb : alookup hc.fileToBlob f with
  | none => rw [if_neg (by simp [htb])]
  | some th =>
    simp only [Option.isSome_some, true_and]
    rw [if_neg (fun e => htr th htb e.symm)]

/-- C2 (amended): staging a fresh working-tree file records
`fileBlobHash` of its bytes in the index, and `readBlob` on that hash
returns the file's bytes with trailing newlines trimmed and one newline
appended (the newline `writeContents` adds to the blob file) — not the
original bytes — provided the trimmed file fits the 4096-byte read. -/
theorem c2_stage_readBlob (f : String) (now : Int) (s : RepoState) (w : WFile) (hc : Commit)
    (hgc : getHeadCommit s = .ok hc)
    (hwd : alookup s.workdir f = some w)
    (hidx : alookup s.index f = none)
    (htr : ∀ th, alookup hc.fileToBlob f = some th → th ≠ fileBlobHash w.bytes)
    (hlen : (trimRightNl w.bytes).length + 6 ≤ 4096) :
    ∃ s', stageFile f now s = .ok () s' ∧
      alookup s'.index f =
        some ⟨fileBlobHash w.bytes, now, ((trimRightNl w.bytes).length : Int)⟩ ∧
      readBlob s' (fileBlobHash w.bytes) = .ok ("file", trimRightNl w.bytes ++ [10]) := by
  refine ⟨writeIndex
      (writeContents s (pathJoin objectsDir (fileBlobHash w.bytes)) (fileBlobPayload w.bytes)
        now)
      (aset s.index f ⟨fileBlobHash w.bytes, now, ((trimRightNl w.bytes).length : Int)⟩),
    ?_, ?_, ?_⟩
  · exact stageFile_fresh f now s w hc hgc hwd hidx htr
  · exact alookup_aset_self _ _ _
  · have hobj : (writeIndex
        (writeContents s (pathJoin objectsDir (fileBlobHash w.bytes)) (fileBlobPayload w.bytes)
          now)
        (aset s.index f
          ⟨fileBlobHash w.bytes, now, ((trimRightNl w.bytes).length : Int)⟩)).objects =
        aset s.objects (fileBlobHash w.bytes) (fragsBytes (fileBlobPayload w.bytes) ++ [10]) := by
      simp only [writeIndex, writeContents_objPath, objects_set_index, objects_set_objects]
    have hbytes : fragsBytes (fileBlobPayload w.bytes) ++ [10] =
        strBytes "file" ++ 0 :: (trimRightNl w.bytes ++ [10]) := by
      rw [fileBlobPayload, fragsBytes_blobPayload]
      simp
    simp only [readBlob, hobj, alookup_aset_self, hbytes]
    have h4 : (strBytes "file").length = 4 := by decide
    exact readBlobBytes_stored "file" (trimRightNl w.bytes) (by decide) (by omega)

/-- C2, counterexample to the claim as stated: staging the 13-byte file
`"This is a wug"` (no trailing newline) and reading the blob back by the
recorded index hash yields a 14-byte payload ending in a newline, not the
file's bytes. -/
theorem c2_roundtrip_counterexample :
    stageFile "wug.txt" 101 wugA = .ok () wugStaged ∧
    alookup wugStaged.index "wug.txt" = some ⟨wugHash, 101, 13⟩ ∧
    readBlob wugStaged wugHash = .ok ("file", strBytes "This is a wug" ++ [10]) ∧
    strBytes "This is a wug" ++ [10] ≠ strBytes "This is a wug" :=
  ⟨by decide, by decide, by decide, by decide⟩

/-- C2 witness: the amended round-trip instantiated on the `wug`
repository. -/
theorem c2_stage_readBlob_witness :
    ∃ s', stageFile "wug.txt" 101 wugA = .ok () s' ∧
      alookup s'.index "wug.txt" =
        some ⟨fileBlobHash (strBytes "This is a wug"), 101,
          ((trimRightNl (strBytes "This is a wug")).length : Int)⟩ ∧
      readBlob s' (fileBlobHash (strBytes "This is a wug")) =
        .ok ("file", trimRightNl (strBytes "This is a wug") ++ [10]) :=
  c2_stage_readBlob "wug.txt" 101 wugA ⟨strBytes "This is a wug", 100⟩
    ⟨"initial commit", 0, [], ("", "")⟩ (by decide) (by decide) (by decide)
    (by intro th h; simp [alookup] at h) (by decide)

/-- C9: `stageFile` is insensitive to trailing newlines — staging two
fresh working-tree files whose bytes agree after right-trimming newlines
records the same blob hash in the index and writes byte-identical blob
files into the object store. -/
theorem c9_stage_trailing_newline_insensitive (f : String) (now1 now2 : Int)
    (s1 s2 : RepoState) (w1 w2 : WFile) (hc1 hc2 : Commit)
    (hgc1 : getHeadCommit s1 = .ok hc1) (hgc2 : getHeadCommit s2 = .ok hc2)
    (hwd1 : alookup s1.workdir f = some w1) (hwd2 : alookup s2.workdir f = some w2)
    (hidx1 : alookup s1.index f = none) (hidx2 : alookup s2.index f = none)
    (htr1 : ∀ th, alookup hc1.fileToBlob f = some th → th ≠ fileBlobHash w1.bytes)
    (htr2 : ∀ th, alookup hc2.fileToBlob f = some th → th ≠ fileBlobHash w2.bytes)
    (htrim : trimRightNl w1.bytes = trimRightNl w2.bytes) :
    ∃ s1' s2', stageFile f now1 s1 = .ok () s1' ∧ stageFile f now2 s2 = .ok () s2' ∧
      (alookup s1'.index f).map IndexMetadata.hash = some (fileBlobHash w1.bytes) ∧
      (alookup s2'.index f).map IndexMetadata.hash = some (fileBlobHash w1.bytes) ∧
      alookup s1'.objects (fileBlobHash w1.bytes) =
        some (fragsBytes (fileBlobPayload w1.bytes) ++ [10]) ∧
      alookup s2'.objects (fileBlobHash w1.bytes) =
        some (fragsBytes (fileBlobPayload w1.bytes) ++ [10]) := by
  have hpay : fileBlobPayload w2.bytes = fileBlobPayload w1.bytes := by
    rw [fileBlobPayload, fileBlobPayload, htrim]
  have hhash : fileBlobHash w2.bytes = fileBlobHash w1.bytes := by
    rw [fileBlobHash, fileBlobHash, hpay]
  refine ⟨_, _, stageFile_fresh f now1 s1 w1 hc1 hgc1 hwd1 hidx1 htr1,
    stageFile_fresh f now2 s2 w2 hc2 hgc2 hwd2 hidx2 htr2, ?_, ?_, ?_, ?_⟩
  · rw [show (writeIndex (writeContents s1 _ _ _) (aset s1.index f _)).index =
      aset s1.index f ⟨fileBlobHash w1.bytes, now1, ((trimRightNl w1.bytes).length : Int)⟩
      from rfl]
    rw [alookup_aset_self]
    rfl
  · rw [show (writeIndex (writeContents s2 _ _ _) (aset s2.index f _)).index =
      aset s2.index f ⟨fileBlobHash w2.bytes, now2, ((trimRightNl w2.bytes).length : Int)⟩
      from rfl]
    rw [alookup_aset_self]
    simp [hhash]
  · rw [show (writeIndex
        (writeContents s1 (pathJoin objectsDir (fileBlobHash w1.bytes))
          (fileBlobPayload w1.bytes) now1) (aset s1.index f _)).objects =
      aset s1.objects (fileBlobHash w1.bytes) (fragsBytes (fileBlobPayload w1.bytes) ++ [10])
      from by simp only [writeIndex, writeContents_objPath, objects_set_index,
        objects_set_objects]]
    rw [alookup_aset_self]
  · rw [show (writeIndex
        (writeContents s2 (pathJoin objectsDir (fileBlobHash w2.bytes))
          (fileBlobPayload w2.bytes) now2) (aset s2.index f _)).objects =
      aset s2.objects (fileBlobHash w2.bytes) (fragsBytes (fileBlobPayload w2.bytes) ++ [10])
      from by simp only [writeIndex, writeContents_objPath, objects_set_index,
        objects_set_objects]]
    rw [hhash, hpay, alookup_aset_self]

/-- C9 witness: staging `"This is a wug"` and `"This is a wug\n\n"` (same
bytes up to trailing newlines) records the same hash and writes the same
blob bytes. -/
theorem c9_stage_trailing_newline_insensitive_witness :
    ∃ s1' s2', stageFile "wug.txt" 101 wugA = .ok () s1' ∧
      stageFile "wug.txt" 102
        { repo0 with workdir := [("wug.txt", ⟨strBytes "This is a wug" ++ [10, 10], 100⟩)] } =
        .ok () s2' ∧
      (alookup s1'.index "wug.txt").map IndexMetadata.hash =
        some (fileBlobHash (strBytes "This is a wug")) ∧
      (alookup s2'.index "wug.txt").map IndexMetadata.hash =
        some (fileBlobHash (strBytes "This is a wug")) ∧
      alookup s1'.objects (fileBlobHash (strBytes "This is a wug")) =
        some (fragsBytes (fileBlobPayload (strBytes "This is a wug")) ++ [10]) ∧
      alookup s2'.objects (fileBlobHash (strBytes "This is a wug")) =
        some (fragsBytes (fileBlobPayload (strBytes "This is a wug")) ++ [10]) :=
  c9_stage_trailing_newline_insensitive "wug.txt" 101 102 wugA
    { repo0 with workdir := [("wug.txt", ⟨strBytes "This is a wug" ++ [10, 10], 100⟩)] }
    ⟨strBytes "This is a wug", 100⟩ ⟨strBytes "This is a wug" ++ [10, 10], 100⟩
    ⟨"initial commit", 0, [], ("", "")⟩ ⟨"initial commit", 0, [], ("", "")⟩
    (by decide) (by decide) (by decide) (by decide) (by decide) (by decide)
    (by intro th h; simp [alookup] at h) (by intro th h; simp [alookup] at h)
    (by decide)

theorem untrackedConflictScan_of_mem (cur tgt : Commit) (f : String)
    (h1 : (alookup cur.fileToBlob f).isNone) (h2 : (alookup tgt.fileToBlob f).isSome) :
    ∀ l : List String, f ∈ l → untrackedConflictScan cur tgt l = true := by
  intro l hf
  induction l with
  | nil => cases hf
  | cons a rest ih =>
    rw [untrackedConflictScan]
    by_cases hc : (alookup cur.fileToBlob a).isNone ∧ (alookup tgt.fileToBlob a).isSome
    · rw [if_pos hc]
    · rw [if_neg hc]
      cases hf with
      | head => exact absurd ⟨h1, h2⟩ hc
      | tail _ hm => exact ih hm

/-- C4: in `checkoutBranch`, `resetFile` and `mergeBranch`, whenever some
working-tree file is untracked in the current head commit but present in
the target commit, the command fails with the untracked-file message and
returns the state unchanged — the scan runs before any write or delete. -/
theorem c4_untracked_guard (now : Int) :
    (∀ (s : RepoState) (b cbf tbh : String) (cur tgt : Commit) (f : String),
      readContentsAsString s headFile = .ok cbf →
      b ≠ baseName cbf →
      readContentsAsString s (pathJoin branchesDir b) = .ok tbh →
      getCommit s tbh = .ok tgt →
      getHeadCommit s = .ok cur →
      f ∈ getFilenames s cwd →
      (alookup cur.fileToBlob f).isNone →
      (alookup tgt.fileToBlob f).isSome →
      checkoutBranch b now s =
        .fatal "There is an untracked file in the way; delete it, or add and commit it first." s) ∧
    (∀ (s : RepoState) (uid : String) (cur tgt : Commit) (f : String),
      getCommit s uid = .ok tgt →
      getHeadCommit s = .ok cur →
      f ∈ getFilenames s cwd →
      (alookup cur.fileToBlob f).isNone →
      (alookup tgt.fileToBlob f).isSome →
      resetFile uid now s =
        .fatal "There is an untracked file in the way; delete it, or add and commit it first." s) ∧
    (∀ (s : RepoState) (b cbf tbh : String) (cur tgt : Commit) (f : String),
      readIndex s = [] →
      readContentsAsString s (pathJoin branchesDir b) = .ok tbh →
      readContentsAsString s headFile = .ok cbf →
      b ≠ baseName cbf →
      getCommit s tbh = .ok tgt →
      getHeadCommit s = .ok cur →
      f ∈ getFilenames s cwd →
      (alookup cur.fileToBlob f).isNone →
      (alookup tgt.fileToBlob f).isSome →
      mergeBranch b now s =
        .fatal "There is an untracked file in the way; delete it, or add and commit it first." s)
    := by
  refine ⟨?_, ?_, ?_⟩
  · intro s b cbf tbh cur tgt f hhead hb htb htc hgc hf h1 h2
    simp only [checkoutBranch, hhead, htb, htc, hgc]
    rw [if_neg hb, if_pos (untrackedConflictScan_of_mem cur tgt f h1 h2 _ hf)]
  · intro s uid cur tgt f htc hgc hf h1 h2
    simp only [resetFile, htc, hgc]
    rw [if_pos (untrackedConflictScan_of_mem cur tgt f h1 h2 _ hf)]
  · intro s b cbf tbh cur tgt f hidx htb hhead hb htc hgc hf h1 h2
    simp only [mergeBranch, readIndex, hidx, List.length_nil, ne_eq, not_true_eq_false,
      if_false] at *
    simp only [hidx, htb, hhead, htc, hgc]
    rw [if_neg hb, if_pos (untrackedConflictScan_of_mem cur tgt f h1 h2 _ hf),
      if_neg (fun h => h rfl)]
/-- C4 witness: in scenario U (an untracked `u.txt` shadowing a file that
branch `side` tracks), all three commands refuse and leave the state
unchanged. -/
theorem c4_untracked_guard_witness :
    checkoutBranch "side" 600 u7 =
      .fatal "There is an untracked file in the way; delete it, or add and commit it first." u7 ∧
    resetFile uSideHash 601 u7 =
      .fatal "There is an untracked file in the way; delete it, or add and commit it first." u7 ∧
    mergeBranch "side" 602 u7 =
      .fatal "There is an untracked file in the way; delete it, or add and commit it first." u7 :=
  ⟨(c4_untracked_guard 600).1 u7 "side" ".gitlet/refs/heads/main" uSideHash uCurCommit
      uTgtCommit "u.txt" (by decide) (by decide) (by decide) (by decide) (by decide)
      (by decide) (by decide) (by decide),
    (c4_untracked_guard 601).2.1 u7 uSideHash uCurCommit uTgtCommit "u.txt"
      (by decide) (by decide) (by decide) (by decide) (by decide),
    (c4_untracked_guard 602).2.2 u7 "side" ".gitlet/refs/heads/main" uSideHash uCurCommit
      uTgtCommit "u.txt" (by decide) (by decide) (by decide) (by decide) (by decide)
      (by decide) (by decide) (by decide) (by decide)⟩

theorem mem_insertSortedStr {x y : String} {l : List String} :
    x ∈ insertSortedStr y l ↔ x = y ∨ x ∈ l := by
  induction l with
  | nil => simp [insertSortedStr]
  | cons z zs ih =>
    rw [insertSortedStr]
    by_cases h : strLe y z
    · rw [if_pos h]
      simp [List.mem_cons]
    · rw [if_neg h]
      simp only [List.mem_cons, ih]
      tauto

theorem mem_sortStrings {x : String} {l : List String} : x ∈ sortStrings l ↔ x ∈ l := by
  induction l with
  | nil => simp [sortStrings]
  | cons z zs ih =>
    show x ∈ insertSortedStr z (sortStrings zs) ↔ _
    rw [mem_insertSortedStr, ih, List.mem_cons]

theorem alookup_isSome_iff {α : Type} {l : List (String × α)} {k : String} :
    (alookup l k).isSome = true ↔ k ∈ l.map Prod.fst := by
  induction l with
  | nil => simp [alookup]
  | cons kv rest ih =>
    rw [alookup]
    by_cases h : kv.1 = k
    · simp [h]
    · rw [if_neg h]
      simp only [List.map_cons, List.mem_cons, ih]
      constructor
      · exact Or.inr
      · rintro (e | m)
        · exact absurd e.symm h
        · exact m

theorem alookup_eq_none {α : Type} {l : List (String × α)} {k : String}
    (h : k ∉ l.map Prod.fst) : alookup l k = none := by
  cases ha : alookup l k with
  | none => rfl
  | some v => exact absurd (List.mem_map_of_mem Prod.fst (alookup_mem ha)) h

theorem readBlob_congr {s s' : RepoState} (h : s'.objects = s.objects) (x : String) :
    readBlob s' x = readBlob s x := by
  simp only [readBlob, h]

theorem checkoutFiles_parts (now : Int) :
    ∀ (l : List (String × String)) (s s₁ : RepoState),
      (∀ p ∈ l, isWdPath p.1 = true) → checkoutFiles now l s = .ok () s₁ →
      s₁.objects = s.objects ∧ s₁.branches = s.branches ∧ s₁.head = s.head ∧
        s₁.index = s.index ∧ s₁.output = s.output := by
  intro l
  induction l with
  | nil =>
    intro s s₁ _ h
    simp only [checkoutFiles, Res.ok.injEq, true_and] at h
    subst h
    exact ⟨rfl, rfl, rfl, rfl, rfl⟩
  | cons p rest ih =>
    intro s s₁ hwd h
    obtain ⟨k, kh⟩ := p
    cases hrb : readBlob s kh with
    | error e =>
      simp only [checkoutFiles, hrb] at h
      exact Res.noConfusion h
    | ok pr =>
      obtain ⟨hd, c⟩ := pr
      simp only [checkoutFiles, hrb] at h
      have := ih (writeContents s k [Frag.bytes c] now) s₁
        (fun q hq => hwd q (List.mem_cons_of_mem _ hq)) h
      rw [writeContents, rawWrite_wd _ _ _ _ (hwd (k, kh) (List.mem_cons_self _ _))] at this
      exact this

theorem checkoutFiles_wd_not_mem (now : Int) :
    ∀ (l : List (String × String)) (s s₁ : RepoState) (f : String),
      (∀ p ∈ l, isWdPath p.1 = true) → f ∉ l.map Prod.fst →
      checkoutFiles now l s = .ok () s₁ → alookup s₁.workdir f = alookup s.workdir f := by
  intro l
  induction l with
  | nil =>
    intro s s₁ f _ _ h
    simp only [checkoutFiles, Res.ok.injEq, true_and] at h
    subst h
    rfl
  | cons p rest ih =>
    intro s s₁ f hwd hnin h
    obtain ⟨k, kh⟩ := p
    cases hrb : readBlob s kh with
    | error e =>
      simp only [checkoutFiles, hrb] at h
      exact Res.noConfusion h
    | ok pr =>
      obtain ⟨hd, c⟩ := pr
      simp only [checkoutFiles, hrb] at h
      have hfk : f ≠ k := fun e => hnin (by rw [List.map_cons]; exact e ▸ List.mem_cons_self _ _)
      have hrest := ih (writeContents s k [Frag.bytes c] now) s₁ f
        (fun q hq => hwd q (List.mem_cons_of_mem _ hq))
        (fun hm => hnin (List.mem_cons_of_mem _ hm)) h
      rw [hrest, writeContents, rawWrite_wd _ _ _ _ (hwd (k, kh) (List.mem_cons_self _ _))]
      exact alookup_aset_ne _ _ _ _ hfk

theorem checkoutFiles_wd_mem (now : Int) :
    ∀ (l : List (String × String)) (s s₁ : RepoState) (f h : String),
      (∀ p ∈ l, isWdPath p.1 = true) → (l.map Prod.fst).Nodup →
      alookup l f = some h → checkoutFiles now l s = .ok () s₁ →
      ∃ hd c, readBlob s h = .ok (hd, c) ∧ alookup s₁.workdir f = some ⟨c ++ [10], now⟩ := by
  intro l
  induction l with
  | nil =>
    intro s s₁ f h _ _ hm _
    simp [alookup] at hm
  | cons p rest ih =>
    intro s s₁ f h hwd hnd hm hrun
    obtain ⟨k, kh⟩ := p
    cases hrb : readBlob s kh with
    | error e =>
      simp only [checkoutFiles, hrb] at hrun
      exact Res.noConfusion hrun
    | ok pr =>
      obtain ⟨hd, c⟩ := pr
      simp only [checkoutFiles, hrb] at hrun
      have hkwd : isWdPath k = true := hwd (k, kh) (List.mem_cons_self _ _)
      by_cases hkf : k = f
      · subst hkf
        rw [alookup, if_pos rfl] at hm
        have hh : kh = h := Option.some.inj hm
        subst hh
        refine ⟨hd, c, hrb, ?_⟩
        have hknin : k ∉ rest.map Prod.fst := (List.nodup_cons.mp hnd).1
        have hrest := checkoutFiles_wd_not_mem now rest _ s₁ k
          (fun q hq => hwd q (List.mem_cons_of_mem _ hq)) hknin hrun
        rw [hrest, writeContents, fragsBytes_single_bytes, rawWrite_wd _ _ _ _ hkwd]
        exact alookup_aset_self _ _ _
      · rw [alookup, if_neg hkf] at hm
        have hnd' : (rest.map Prod.fst).Nodup := (List.nodup_cons.mp hnd).2
        obtain ⟨hd', c', hrb', hlk⟩ := ih (writeContents s k [Frag.bytes c] now) s₁ f h
          (fun q hq => hwd q (List.mem_cons_of_mem _ hq)) hnd' hm hrun
        have hobj : (writeContents s k [Frag.bytes c] now).objects = s.objects := by
          rw [writeContents, rawWrite_wd _ _ _ _ hkwd]
        rw [readBlob_congr hobj h] at hrb'
        exact ⟨hd', c', hrb', hlk⟩

theorem deleteMissing_cons (tgt : Commit) (g : String) (rest : List String) (s : RepoState) :
    deleteMissing tgt (g :: rest) s =
      deleteMissing tgt rest
        (if (alookup tgt.fileToBlob g).isNone then restrictedDelete s g else s) := rfl

theorem deleteMissing_parts (tgt : Commit) :
    ∀ (wdl : List String) (s : RepoState), (∀ g ∈ wdl, isWdPath g = true) →
      (deleteMissing tgt wdl s).objects = s.objects ∧
      (deleteMissing tgt wdl s).branches = s.branches ∧
      (deleteMissing tgt wdl s).head = s.head ∧
      (deleteMissing tgt wdl s).index = s.index ∧
      (deleteMissing tgt wdl s).output = s.output := by
  intro wdl
  induction wdl with
  | nil =>
    intro s _
    exact ⟨rfl, rfl, rfl, rfl, rfl⟩
  | cons g rest ih =>
    intro s hwd
    rw [deleteMissing_cons]
    have hg := hwd g (List.mem_cons_self _ _)
    by_cases hc : (alookup tgt.fileToBlob g).isNone
    · rw [if_pos hc, restrictedDelete, rawDelete_wd _ _ hg]
      exact ih _ (fun x hx => hwd x (List.mem_cons_of_mem _ hx))
    · rw [if_neg hc]
      exact ih _ (fun x hx => hwd x (List.mem_cons_of_mem _ hx))

theorem deleteMissing_wd (tgt : Commit) :
    ∀ (wdl : List String) (s : RepoState) (f : String), (∀ g ∈ wdl, isWdPath g = true) →
      alookup (deleteMissing tgt wdl s).workdir f =
        if f ∈ wdl ∧ (alookup tgt.fileToBlob f).isNone = true then none
        else alookup s.workdir f := by
  intro wdl
  induction wdl with
  | nil =>
    intro s f _
    rw [if_neg (fun hc => (List.not_mem_nil f) hc.1)]
    rfl
  | cons g rest ih =>
    intro s f hwd
    rw [deleteMissing_cons]
    have hg := hwd g (List.mem_cons_self _ _)
    have htail : ∀ x ∈ rest, isWdPath x = true := fun x hx => hwd x (List.mem_cons_of_mem _ hx)
    by_cases hcg : (alookup tgt.fileToBlob g).isNone
    · rw [if_pos hcg, restrictedDelete, rawDelete_wd _ _ hg, ih _ f htail]
      by_cases hfr : f ∈ rest ∧ (alookup tgt.fileToBlob f).isNone = true
      · rw [if_pos hfr, if_pos ⟨List.mem_cons_of_mem _ hfr.1, hfr.2⟩]
      · rw [if_neg hfr]
        by_cases hfg : f = g
        · subst hfg
          show alookup (adel s.workdir f) f = _
          rw [alookup_adel_self, if_pos ⟨List.mem_cons_self _ _, hcg⟩]
        · show alookup (adel s.workdir g) f = _
          rw [alookup_adel_ne _ _ _ hfg,
            if_neg (fun hcon => hfr ⟨(List.mem_cons.1 hcon.1).resolve_left hfg, hcon.2⟩)]
    · rw [if_neg hcg, ih _ f htail]
      by_cases hfr : f ∈ rest ∧ (alookup tgt.fileToBlob f).isNone = true
      · rw [if_pos hfr, if_pos ⟨List.mem_cons_of_mem _ hfr.1, hfr.2⟩]
      · rw [if_neg hfr]
        by_cases hfg : f = g
        · subst hfg
          rw [if_neg (fun hcon => hcg hcon.2)]
        · rw [if_neg (fun hcon => hfr ⟨(List.mem_cons.1 hcon.1).resolve_left hfg, hcon.2⟩)]

theorem getFilenames_cwd (s : RepoState) :
    getFilenames s cwd = sortStrings (s.workdir.map Prod.fst) := by
  rw [getFilenames, if_neg (by decide : ¬(cwd = objectsDir))]

/-- C3 (amended): after a successful `checkoutBranch b` whose target branch
ref reads back hash `tbh` naming commit `tc` (with working-tree-style file
names and duplicate-free keys), HEAD holds the target branch ref path plus
the `writeContents` newline, the working-tree file set equals the name set
of `tc`, and each tracked file holds the `readBlob` contents of its blob
plus the `writeContents` newline — not the byte-exact blob payload. -/
theorem c3_checkout_branch_post (b : String) (now : Int) (s s' : RepoState)
    (tc : Commit) (tbh : String)
    (htb : readContentsAsString s (pathJoin branchesDir b) = .ok tbh)
    (htc : getCommit s tbh = .ok tc)
    (hwdp : ∀ f ∈ s.workdir.map Prod.fst, isWdPath f = true)
    (htcp : ∀ p ∈ tc.fileToBlob, isWdPath p.1 = true)
    (hnd : (tc.fileToBlob.map Prod.fst).Nodup)
    (hrun : checkoutBranch b now s = .ok () s') :
    s'.head = strBytes (pathJoin branchesDir b) ++ [10] ∧
    (∀ f, (alookup s'.workdir f).isSome = true ↔ f ∈ tc.fileToBlob.map Prod.fst) ∧
    (∀ f h, alookup tc.fileToBlob f = some h →
      ∃ hd c, readBlob s h = .ok (hd, c) ∧ alookup s'.workdir f = some ⟨c ++ [10], now⟩) := by
  cases hhead : readContentsAsString s headFile with
  | error e =>
    simp only [checkoutBranch, hhead] at hrun
    exact Res.noConfusion hrun
  | ok cbf =>
  by_cases hbb : b = baseName cbf
  · simp only [checkoutBranch, hhead, if_pos hbb] at hrun
    exact Res.noConfusion hrun
  cases hgh : getHeadCommit s with
  | error e =>
    simp only [checkoutBranch, hhead, if_neg hbb, htb, htc, hgh] at hrun
    exact Res.noConfusion hrun
  | ok cur =>
  by_cases hscan : untrackedConflictScan cur tc (getFilenames s cwd) = true
  · simp only [checkoutBranch, hhead, if_neg hbb, htb, htc, hgh, if_pos hscan] at hrun
    exact Res.noConfusion hrun
  cases hcf : checkoutFiles now tc.fileToBlob s with
  | fatal m s₁ =>
    simp only [checkoutBranch, hhead, if_neg hbb, htb, htc, hgh, if_neg hscan, hcf] at hrun
    exact Res.noConfusion hrun
  | err e s₁ =>
    simp only [checkoutBranch, hhead, if_neg hbb, htb, htc, hgh, if_neg hscan, hcf] at hrun
    exact Res.noConfusion hrun
  | ok v s₁ =>
  cases v
  simp only [checkoutBranch, hhead, if_neg hbb, htb, htc, hgh, if_neg hscan, hcf,
    Res.ok.injEq, true_and] at hrun
  have hwdF : ∀ g ∈ getFilenames s cwd, isWdPath g = true := by
    intro g hg
    rw [getFilenames_cwd] at hg
    exact hwdp g (mem_sortStrings.1 hg)
  have hwdeq : s'.workdir = (deleteMissing tc (getFilenames s cwd) s₁).workdir := by
    rw [← hrun]
    rfl
  have hheq : s'.head = strBytes (pathJoin branchesDir b) ++ [10] := by
    rw [← hrun, writeContents_headFile, fragsBytes_single_str]
    rfl
  have htrk : ∀ f h, alookup tc.fileToBlob f = some h →
      ∃ hd c, readBlob s h = .ok (hd, c) ∧ alookup s'.workdir f = some ⟨c ++ [10], now⟩ := by
    intro f h hm
    obtain ⟨hd, c, hrb, hlk⟩ := checkoutFiles_wd_mem now tc.fileToBlob s s₁ f h htcp hnd hm hcf
    refine ⟨hd, c, hrb, ?_⟩
    rw [hwdeq, deleteMissing_wd tc _ s₁ f hwdF,
      if_neg (fun hc => by rw [hm] at hc; simp at hc)]
    exact hlk
  have huntrk : ∀ f, f ∉ tc.fileToBlob.map Prod.fst → alookup s'.workdir f = none := by
    intro f hnin
    have hnone : alookup tc.fileToBlob f = none := alookup_eq_none hnin
    rw [hwdeq, deleteMissing_wd tc _ s₁ f hwdF]
    by_cases hmem : f ∈ getFilenames s cwd
    · rw [if_pos ⟨hmem, by rw [hnone]; rfl⟩]
    · rw [if_neg (fun hc => hmem hc.1),
        checkoutFiles_wd_not_mem now tc.fileToBlob s s₁ f htcp hnin hcf]
      exact alookup_eq_none
        (fun hmm => hmem (by rw [getFilenames_cwd]; exact mem_sortStrings.2 hmm))
  refine ⟨hheq, fun f => ⟨?_, ?_⟩, htrk⟩
  · intro hsome
    by_contra hnin
    rw [huntrk f hnin] at hsome
    simp at hsome
  · intro hin
    obtain ⟨h, hm⟩ := Option.isSome_iff_exists.mp (alookup_isSome_iff.mpr hin)
    obtain ⟨hd, c, hrb, hlk⟩ := htrk f h hm
    rw [hlk]
    rfl
/-- C3 counterexample: checking out `side` from `wugBranched` succeeds, the
target head commit records blob payload `"This is a wug"` for `wug.txt`
(stored on disk with one trailing newline), but the working-tree file ends
up as `"This is a wug\n\n"`, which differs from the recorded payload. -/
theorem c3_checkout_bytes_counterexample :
    checkoutBranch "side" 105 wugBranched = .ok () c3s ∧
    readContentsAsString wugBranched (pathJoin branchesDir "side") = .ok wugCommitHash ∧
    getCommit wugBranched wugCommitHash = .ok wugCommitVal ∧
    alookup wugCommitVal.fileToBlob "wug.txt" = some wugHash ∧
    readBlob wugBranched wugHash = .ok ("file", strBytes "This is a wug" ++ [10]) ∧
    (alookup c3s.workdir "wug.txt").map WFile.bytes =
      some (strBytes "This is a wug" ++ [10, 10]) ∧
    strBytes "This is a wug" ++ [10, 10] ≠ strBytes "This is a wug" := by
  decide

/-- C3 witness: the amended postcondition evaluated on the concrete `side`
checkout. -/
theorem c3_checkout_branch_post_witness :
    c3s.head = strBytes (pathJoin branchesDir "side") ++ [10] ∧
    (∀ f, (alookup c3s.workdir f).isSome = true ↔ f ∈ wugCommitVal.fileToBlob.map Prod.fst) ∧
    (∀ f h, alookup wugCommitVal.fileToBlob f = some h →
      ∃ hd c, readBlob wugBranched h = .ok (hd, c) ∧
        alookup c3s.workdir f = some ⟨c ++ [10], 105⟩) :=
  c3_checkout_branch_post "side" 105 wugBranched c3s wugCommitVal wugCommitHash
    (by decide) (by decide) (by decide) (by decide) (by decide) (by decide)

theorem contains_iff_mem (l : List String) (a : String) : l.contains a = true ↔ a ∈ l :=
  List.elem_iff

theorem getCommit_store (s : RepoState) (u : String) (c : Commit)
    (h : getCommit s u = .ok c) :
    ∃ h' raw, alookup s.objects h' = some raw ∧ commitOfRaw raw = some c := by
  cases hr : (if u.length < 40 then resolveHash s u else .ok u) with
  | error e =>
    simp only [getCommit, hr] at h
    exact Except.noConfusion h
  | ok h0 =>
    simp only [getCommit, hr] at h
    cases hb : alookup s.objects h0 with
    | none =>
      simp only [readBlob, hb] at h
      exact Except.noConfusion h
    | some raw =>
      simp only [readBlob, hb] at h
      cases hbb : readBlobBytes raw with
      | error e =>
        simp only [hbb] at h
        exact Except.noConfusion h
      | ok pr =>
        obtain ⟨header, contents⟩ := pr
        simp only [hbb] at h
        by_cases hh : header = "commit"
        · rw [if_pos hh] at h
          cases hp : parseCommit contents with
          | none =>
            simp only [hp] at h
            exact Except.noConfusion h
          | some c2 =>
            simp only [hp] at h
            refine ⟨h0, raw, hb, ?_⟩
            rw [commitOfRaw, hbb]
            simp only [if_pos hh, hp]
            exact congrArg some (Except.ok.inj h)
        · rw [if_neg hh] at h
          exact Except.noConfusion h

theorem mem_storeParents (s : RepoState) {h' : String} {raw : List Nat} {c : Commit}
    (hm : (h', raw) ∈ s.objects) (hcr : commitOfRaw raw = some c) :
    c.parentUIDs.1 ∈ storeParents s ∧ c.parentUIDs.2 ∈ storeParents s := by
  rw [storeParents]
  revert hm
  generalize s.objects = l
  intro hm
  induction l with
  | nil => cases hm
  | cons kv rest ih =>
    rcases List.mem_cons.1 hm with he | hm2
    · rw [← he]
      simp only [List.foldr_cons, hcr]
      exact ⟨List.mem_cons_self _ _, List.mem_cons_of_mem _ (List.mem_cons_self _ _)⟩
    · have hih := ih hm2
      simp only [List.foldr_cons]
      cases hk : commitOfRaw kv.2 with
      | none => exact hih
      | some c2 =>
        exact ⟨List.mem_cons_of_mem _ (List.mem_cons_of_mem _ hih.1),
          List.mem_cons_of_mem _ (List.mem_cons_of_mem _ hih.2)⟩

theorem storeClosed_parents (s : RepoState) (hc : storeClosed s = true) (u : String)
    (c : Commit) (h : getCommit s u = .ok c) :
    ∀ p ∈ [c.parentUIDs.1, c.parentUIDs.2].filter (fun p => !(p == "")),
      isOkCommit s p = true := by
  obtain ⟨h2, raw, hb, hcr⟩ := getCommit_store s u c h
  have hmem : (h2, raw) ∈ s.objects := alookup_mem hb
  rw [storeClosed, List.all_eq_true] at hc
  have hkv := hc (h2, raw) hmem
  simp only [hcr] at hkv
  rw [Bool.and_eq_true] at hkv
  intro p hp
  rw [List.mem_filter] at hp
  obtain ⟨hpm, hpne⟩ := hp
  have hne : (p == "") = false := by
    cases hpe : p == "" with
    | false => rfl
    | true => rw [hpe] at hpne; exact Bool.noConfusion hpne
  rcases List.mem_cons.1 hpm with he | hpm2
  · have h1 := hkv.1
    rw [← he, hne, Bool.false_or] at h1
    exact h1
  · rcases List.mem_cons.1 hpm2 with he | h0
    · have h1 := hkv.2
      rw [← he, hne, Bool.false_or] at h1
      exact h1
    · cases h0
theorem splitLoop_spec_rel (s : RepoState) (hc : storeClosed s = true) :
    ∀ (fuel : Nat) (q vl : List String), (∀ u ∈ q, isOkCommit s u = true) →
    (∃ r, splitLoop s fuel q vl = .ok r ∧ specSplitLoop s fuel q vl.toFinset = .ok r) ∨
    (splitLoop s fuel q vl = .error (.other "findSplitPoint: no valid commit") ∧
     specSplitLoop s fuel q vl.toFinset = .error (.other "NoCommonAncestor")) ∨
    (splitLoop s fuel q vl = .error (.other "findSplitPoint: out of fuel") ∧
     specSplitLoop s fuel q vl.toFinset =
       .error (.other "NoCommonAncestor: out of fuel")) := by
  intro fuel
  induction fuel with
  | zero =>
    intro q vl _
    exact Or.inr (Or.inr ⟨rfl, rfl⟩)
  | succ n ih =>
    intro q vl hq
    cases q with
    | nil => exact Or.inr (Or.inl ⟨rfl, rfl⟩)
    | cons u rest =>
      cases hv : vl.contains u with
      | true =>
        refine Or.inl ⟨u, ?_, ?_⟩
        · rw [splitLoop, if_pos hv]
        · rw [specSplitLoop,
            if_pos (List.mem_toFinset.mpr ((contains_iff_mem vl u).mp hv))]
      | false =>
        have hu := hq u (List.mem_cons_self _ _)
        cases hg : getCommit s u with
        | error e =>
          rw [isOkCommit, hg] at hu
          exact Bool.noConfusion hu
        | ok c =>
          have hrest : ∀ x ∈ rest ++
              ([c.parentUIDs.1, c.parentUIDs.2].filter (fun p => !(p == ""))),
              isOkCommit s x = true := by
            intro x hx
            rcases List.mem_append.1 hx with hx | hx
            · exact hq x (List.mem_cons_of_mem _ hx)
            · exact storeClosed_parents s hc u c hg x hx
          have hih := ih _ (u :: vl) hrest
          rw [List.toFinset_cons] at hih
          have hstep1 : splitLoop s (n + 1) (u :: rest) vl =
              splitLoop s n
                (rest ++ ([c.parentUIDs.1, c.parentUIDs.2].filter (fun p => !(p == ""))))
                (u :: vl) := by
            rw [splitLoop, if_neg (by rw [hv]; exact Bool.false_ne_true)]
            simp only [hg]
          have hstep2 : specSplitLoop s (n + 1) (u :: rest) vl.toFinset =
              specSplitLoop s n
                (rest ++ ([c.parentUIDs.1, c.parentUIDs.2].filter (fun p => !(p == ""))))
                (insert u vl.toFinset) := by
            rw [specSplitLoop,
              if_neg (fun hm => by
                rw [(contains_iff_mem vl u).mpr (List.mem_toFinset.mp hm)] at hv
                exact Bool.noConfusion hv)]
            simp only [hg]
          rw [hstep1, hstep2]
          exact hih
theorem storeParents_length (s : RepoState) :
    (storeParents s).length ≤ 2 * s.objects.length := by
  rw [storeParents]
  generalize s.objects = l
  induction l with
  | nil => simp
  | cons kv rest ih =>
    simp only [List.foldr_cons, List.length_cons]
    cases hk : commitOfRaw kv.2 with
    | none =>
      simp only [hk]
      omega
    | some c =>
      simp only [hk, List.length_cons]
      omega

theorem splitLoop_fuel (s : RepoState) (V : List String) (hc : storeClosed s = true)
    (hpar : ∀ u c, getCommit s u = .ok c →
      ∀ p ∈ [c.parentUIDs.1, c.parentUIDs.2].filter (fun p => !(p == "")), p ∈ V) :
    ∀ (fuel : Nat) (q vl : List String), (∀ u ∈ q, isOkCommit s u = true) →
      (∀ u ∈ q, u ∈ V) → (∀ u ∈ vl, u ∈ V) → vl.Nodup → V.length < fuel + vl.length →
      splitLoop s fuel q vl ≠ .error (.other "findSplitPoint: out of fuel") := by
  intro fuel
  induction fuel with
  | zero =>
    intro q vl _ _ hvV hnd hlen _
    have h1 : vl.toFinset.card = vl.length := List.toFinset_card_of_nodup hnd
    have h2 : vl.toFinset ⊆ V.toFinset := fun x hx =>
      List.mem_toFinset.mpr (hvV x (List.mem_toFinset.mp hx))
    have h3 := Finset.card_le_card h2
    have h4 := List.toFinset_card_le V
    omega
  | succ n ih =>
    intro q vl hqok hqV hvV hnd hlen
    cases q with
    | nil =>
      intro h
      rw [splitLoop] at h
      exact absurd (GErr.other.inj (Except.error.inj h)) (by decide)
    | cons u rest =>
      cases hv : vl.contains u with
      | true =>
        intro h
        rw [splitLoop, if_pos hv] at h
        exact Except.noConfusion h
      | false =>
        cases hg : getCommit s u with
        | error e =>
          have hu := hqok u (List.mem_cons_self _ _)
          rw [isOkCommit, hg] at hu
          exact Bool.noConfusion hu
        | ok c =>
          intro h
          rw [splitLoop, if_neg (by rw [hv]; exact Bool.false_ne_true)] at h
          simp only [hg] at h
          refine ih _ (u :: vl) ?_ ?_ ?_ ?_ ?_ h
          · intro x hx
            rcases List.mem_append.1 hx with hx | hx
            · exact hqok x (List.mem_cons_of_mem _ hx)
            · exact storeClosed_parents s hc u c hg x hx
          · intro x hx
            rcases List.mem_append.1 hx with hx | hx
            · exact hqV x (List.mem_cons_of_mem _ hx)
            · exact hpar u c hg x hx
          · intro x hx
            rcases List.mem_cons.1 hx with he | hx
            · exact he ▸ hqV u (List.mem_cons_self _ _)
            · exact hvV x hx
          · exact List.nodup_cons.mpr
              ⟨fun hm => by
                rw [(contains_iff_mem vl u).mpr hm] at hv
                exact Bool.noConfusion hv, hnd⟩
          · have hl : (u :: vl).length = vl.length + 1 := rfl
            omega
/-- C5: on a parent-closed store with both head UIDs loadable,
`findSplitPoint` is the BFS the specification describes — it agrees with
the spec-side BFS (`specSplitPoint`: both heads enqueued, one shared
visited set, non-empty parents enqueued, first already-visited dequeue
returned) on the split point whenever one exists, and it returns an error
exactly when the queue empties without such a commit (never by fuel
exhaustion or a failing commit load). -/
theorem c5_findSplitPoint_bfs (s : RepoState) (u1 u2 : String)
    (hc : storeClosed s = true) (h1 : isOkCommit s u1 = true) (h2 : isOkCommit s u2 = true) :
    (∃ r, findSplitPoint s u1 u2 = .ok r ∧ specSplitPoint s u1 u2 = .ok r) ∨
    (findSplitPoint s u1 u2 = .error (.other "findSplitPoint: no valid commit") ∧
     specSplitPoint s u1 u2 = .error (.other "NoCommonAncestor")) := by
  have hqok : ∀ x ∈ [u1, u2], isOkCommit s x = true := by
    intro x hx
    rcases List.mem_cons.1 hx with he | hx
    · exact he ▸ h1
    · rcases List.mem_cons.1 hx with he | hx
      · exact he ▸ h2
      · cases hx
  have hrel := splitLoop_spec_rel s hc (2 * s.objects.length + 3) [u1, u2] [] hqok
  rw [List.toFinset_nil] at hrel
  have hpar : ∀ u c, getCommit s u = .ok c →
      ∀ p ∈ [c.parentUIDs.1, c.parentUIDs.2].filter (fun p => !(p == "")),
        p ∈ u1 :: u2 :: storeParents s := by
    intro u c hg p hp
    obtain ⟨h', raw, hb, hcr⟩ := getCommit_store s u c hg
    have hsp := mem_storeParents s (alookup_mem hb) hcr
    rw [List.mem_filter] at hp
    rcases List.mem_cons.1 hp.1 with he | hp2
    · exact he ▸ List.mem_cons_of_mem _ (List.mem_cons_of_mem _ hsp.1)
    · rcases List.mem_cons.1 hp2 with he | hp3
      · exact he ▸ List.mem_cons_of_mem _ (List.mem_cons_of_mem _ hsp.2)
      · cases hp3
  have hfuel := splitLoop_fuel s (u1 :: u2 :: storeParents s) hc hpar
    (2 * s.objects.length + 3) [u1, u2] [] hqok
    (by
      intro x hx
      rcases List.mem_cons.1 hx with he | hx
      · exact he ▸ List.mem_cons_self _ _
      · rcases List.mem_cons.1 hx with he | hx
        · exact he ▸ List.mem_cons_of_mem _ (List.mem_cons_self _ _)
        · cases hx)
    (fun x hx => absurd hx (List.not_mem_nil x))
    List.nodup_nil
    (by
      have hsp := storeParents_length s
      simp only [List.length_cons, List.length_nil]
      omega)
  rcases hrel with h | h | h
  · exact Or.inl h
  · exact Or.inr h
  · exact absurd h.1 hfuel
/-- C5 witness: in scenario M2 the BFS from the two branch heads finds the
initial commit as split point, agreeing with the spec-side BFS. -/
theorem c5_findSplitPoint_bfs_witness :
    (∃ r, findSplitPoint m2k m2mainHash m2targetHash = .ok r ∧
      specSplitPoint m2k m2mainHash m2targetHash = .ok r) ∨
    (findSplitPoint m2k m2mainHash m2targetHash =
      .error (.other "findSplitPoint: no valid commit") ∧
     specSplitPoint m2k m2mainHash m2targetHash = .error (.other "NoCommonAncestor")) :=
  c5_findSplitPoint_bfs m2k m2mainHash m2targetHash (by decide) (by decide) (by decide)

theorem writeContents_wd (s : RepoState) (p : String) (arr : List Frag) (now : Int)
    (hp : isWdPath p = true) :
    writeContents s p arr now =
      { s with workdir := aset s.workdir p ⟨fragsBytes arr ++ [10], now⟩ } := by
  rw [writeContents, rawWrite_wd _ _ _ _ hp]

theorem restrictedDelete_wd (s : RepoState) (p : String) (hp : isWdPath p = true) :
    restrictedDelete s p = { s with workdir := adel s.workdir p } := by
  rw [restrictedDelete, rawDelete_wd _ _ hp]

theorem stageFile_frame (f : String) (now : Int) (s s₂ : RepoState)
    (h : stageFile f now s = .ok () s₂) :
    s₂.head = s.head ∧ s₂.branches = s.branches ∧ s₂.workdir = s.workdir := by
  cases hgc : getHeadCommit s with
  | error e =>
    simp only [stageFile, hgc] at h
    exact Res.noConfusion h
  | ok headCommit =>
    simp only [stageFile, hgc] at h
    repeat' split at h
    all_goals first
      | exact Res.noConfusion h
      | (simp only [restrictedDelete_objPath, writeContents_objPath, writeIndex, addOut,
           Res.ok.injEq, true_and] at h
         subst h
         exact ⟨rfl, rfl, rfl⟩)

theorem checkoutCommit_hb (f u : String) (now : Int) (s s₂ : RepoState)
    (hf : isWdPath f = true) (h : checkoutCommit f u now s = .ok () s₂) :
    s₂.head = s.head ∧ s₂.branches = s.branches := by
  simp only [checkoutCommit] at h
  repeat' split at h
  all_goals first
    | exact Res.noConfusion h
    | (simp only [Res.ok.injEq, true_and] at h
       subst h
       rw [writeContents_wd _ _ _ _ hf]
       exact ⟨rfl, rfl⟩)
theorem unstageFile_hb (f : String) (now : Int) (s s₂ : RepoState) (hf : isWdPath f = true)
    (h : unstageFile f now s = .ok () s₂) :
    s₂.head = s.head ∧ s₂.branches = s.branches := by
  simp only [unstageFile, readIndex] at h
  cases hsm : alookup s.index f with
  | some m =>
    simp only [hsm, restrictedDelete_objPath, writeIndex] at h
    repeat' split at h
    all_goals first
      | exact Res.noConfusion h
      | (simp only [Res.ok.injEq, true_and] at h
         subst h
         first
           | exact ⟨rfl, rfl⟩
           | (rename_i heq
              obtain ⟨h1, h2, _⟩ := stageFile_frame f now _ _ heq
              rw [restrictedDelete_wd _ _ hf] at h1 h2
              exact ⟨h1.trans rfl, h2.trans rfl⟩))
  | none =>
    simp only [hsm] at h
    repeat' split at h
    all_goals first
      | exact Res.noConfusion h
      | (simp only [Res.ok.injEq, true_and] at h
         subst h
         first
           | exact ⟨rfl, rfl⟩
           | (rename_i heq
              obtain ⟨h1, h2, _⟩ := stageFile_frame f now _ _ heq
              rw [restrictedDelete_wd _ _ hf] at h1 h2
              exact ⟨h1.trans rfl, h2.trans rfl⟩))
set_option maxHeartbeats 1000000 in
theorem mergeResolveLate_hb (tbh : String) (sp cur tgt : Commit) (f : String) (now : Int)
    (s s₂ : RepoState) (hf : isWdPath f = true) (b : Bool)
    (h : mergeResolveLate tbh sp cur tgt f now s = .ok b s₂) :
    s₂.head = s.head ∧ s₂.branches = s.branches := by
  simp only [mergeResolveLate] at h
  split at h
  · obtain ⟨hb, hs⟩ := (by simpa only [Res.ok.injEq] using h : false = b ∧ s = s₂)
    subst hs
    exact ⟨rfl, rfl⟩
  split at h
  · split at h
    · exact Res.noConfusion h
    · exact Res.noConfusion h
    · rename_i v3 s3 heq1
      split at h
      · exact Res.noConfusion h
      · exact Res.noConfusion h
      · rename_i v4 s4 heq2
        obtain ⟨hb, hs⟩ := (by simpa only [Res.ok.injEq] using h : false = b ∧ s4 = s₂)
        subst hs
        obtain ⟨h1, h2, _⟩ := stageFile_frame f now _ _ heq2
        obtain ⟨h3, h4⟩ := checkoutCommit_hb f tbh now _ _ hf heq1
        exact ⟨h1.trans h3, h2.trans h4⟩
  split at h
  · split at h
    · exact Res.noConfusion h
    · exact Res.noConfusion h
    · rename_i v3 s3 hequ
      obtain ⟨hb, hs⟩ := (by simpa only [Res.ok.injEq] using h : false = b ∧ s3 = s₂)
      subst hs
      exact unstageFile_hb f now _ _ hf hequ
  split at h
  · obtain ⟨hb, hs⟩ := (by simpa only [Res.ok.injEq] using h : false = b ∧ s = s₂)
    subst hs
    exact ⟨rfl, rfl⟩
  split at h
  · split at h
    · exact Res.noConfusion h
    · rename_i xc hdc curC heqc
      split at h
      · exact Res.noConfusion h
      · rename_i xt hdt tgtC heqt
        split at h
        · exact Res.noConfusion h
        · exact Res.noConfusion h
        · rename_i v4 s4 heq2
          obtain ⟨hb, hs⟩ := (by simpa only [Res.ok.injEq] using h : true = b ∧ s4 = s₂)
          subst hs
          obtain ⟨h1, h2, _⟩ := stageFile_frame f now _ _ heq2
          rw [writeContents_wd _ _ _ _ hf] at h1 h2
          exact ⟨h1.trans rfl, h2.trans rfl⟩
  obtain ⟨hb, hs⟩ := (by simpa only [Res.ok.injEq] using h : false = b ∧ s = s₂)
  subst hs
  exact ⟨rfl, rfl⟩
set_option maxHeartbeats 1000000 in
theorem mergeResolveFile_hb (tbh : String) (sp cur tgt : Commit) (f : String) (now : Int)
    (s s₂ : RepoState) (hf : isWdPath f = true) (b : Bool)
    (h : mergeResolveFile tbh sp cur tgt f now s = .ok b s₂) :
    s₂.head = s.head ∧ s₂.branches = s.branches := by
  simp only [mergeResolveFile] at h
  split at h
  · split at h
    · exact Res.noConfusion h
    · exact Res.noConfusion h
    · rename_i v3 s3 heq1
      split at h
      · exact Res.noConfusion h
      · exact Res.noConfusion h
      · rename_i v4 s4 heq2
        obtain ⟨hb, hs⟩ := (by simpa only [Res.ok.injEq] using h : false = b ∧ s4 = s₂)
        subst hs
        obtain ⟨h1, h2, _⟩ := stageFile_frame f now _ _ heq2
        obtain ⟨h3, h4⟩ := checkoutCommit_hb f tbh now _ _ hf heq1
        exact ⟨h1.trans h3, h2.trans h4⟩
  split at h
  · obtain ⟨hb, hs⟩ := (by simpa only [Res.ok.injEq] using h : false = b ∧ s = s₂)
    subst hs
    exact ⟨rfl, rfl⟩
  split at h
  · split at h
    · obtain ⟨hb, hs⟩ := (by simpa only [Res.ok.injEq] using h : false = b ∧ s = s₂)
      subst hs
      exact ⟨rfl, rfl⟩
    split at h
    · split at h
      · obtain ⟨hb, hs⟩ := (by simpa only [Res.ok.injEq] using h : false = b ∧ s = s₂)
        subst hs
        exact ⟨rfl, rfl⟩
      · split at h
        · exact Res.noConfusion h
        · rename_i xc hdc curC heqc
          split at h
          · exact Res.noConfusion h
          · rename_i xt hdt tgtC heqt
            split at h
            · obtain ⟨hb, hs⟩ := (by simpa only [Res.ok.injEq] using h : false = b ∧ s = s₂)
              subst hs
              exact ⟨rfl, rfl⟩
            · exact mergeResolveLate_hb tbh sp cur tgt f now s s₂ hf b h
    · exact mergeResolveLate_hb tbh sp cur tgt f now s s₂ hf b h
  · exact mergeResolveLate_hb tbh sp cur tgt f now s s₂ hf b h
theorem mergeResolveLoop_hb (tbh : String) (sp cur tgt : Commit) (now : Int) :
    ∀ (l : List String) (s : RepoState) (acc conflicts : List String) (s₂ : RepoState),
      (∀ f ∈ l, isWdPath f = true) →
      mergeResolveLoop tbh sp cur tgt now l s acc = .ok conflicts s₂ →
      s₂.head = s.head ∧ s₂.branches = s.branches := by
  intro l
  induction l with
  | nil =>
    intro s acc conflicts s₂ _ h
    obtain ⟨hc, hs⟩ := (by simpa only [mergeResolveLoop, Res.ok.injEq] using h :
      acc = conflicts ∧ s = s₂)
    subst hs
    exact ⟨rfl, rfl⟩
  | cons f rest ih =>
    intro s acc conflicts s₂ hwd h
    cases hmf : mergeResolveFile tbh sp cur tgt f now s with
    | fatal m s3 =>
      simp only [mergeResolveLoop, hmf] at h
      exact Res.noConfusion h
    | err e s3 =>
      simp only [mergeResolveLoop, hmf] at h
      exact Res.noConfusion h
    | ok bf s3 =>
      simp only [mergeResolveLoop, hmf] at h
      have h1 := ih s3 _ conflicts s₂ (fun x hx => hwd x (List.mem_cons_of_mem _ hx)) h
      have h2 := mergeResolveFile_hb tbh sp cur tgt f now s s3 (hwd f (List.mem_cons_self _ _))
        bf hmf
      exact ⟨h1.1.trans h2.1, h1.2.trans h2.2⟩
set_option maxHeartbeats 1000000 in
theorem mergeBranch_ok_run (b cb tbh chh sph : String) (tgt cur spc : Commit)
    (now : Int) (s s' : RepoState) (conflicts : List String)
    (hidx : s.index = [])
    (hh : bytesToStr (trimRightNl s.head) = pathJoin branchesDir cb)
    (hbn : baseName (pathJoin branchesDir cb) = cb)
    (hbne : b ≠ cb)
    (htb : readContentsAsString s (pathJoin branchesDir b) = .ok tbh)
    (htc : getCommit s tbh = .ok tgt)
    (hgh : getHeadCommit s = .ok cur)
    (hchh : getHeadCommitHash s = .ok chh)
    (hspl : findSplitPoint s chh tbh = .ok sph)
    (hne1 : sph ≠ tbh) (hne2 : sph ≠ chh)
    (hspc : getCommit s sph = .ok spc)
    (hwf : ∀ f ∈ mergeAllFiles spc cur tgt, isWdPath f = true)
    (hrun : mergeBranch b now s = .ok conflicts s') :
    ∃ (mc : Commit) (s₄ : RepoState),
      mc.message = "Merged " ++ b ++ " into " ++ cb ++ "." ∧
      mc.parentUIDs = (chh, tbh) ∧
      s' = addOut s₄ "Encountered a merge conflict." ∧
      alookup s₄.objects (getHash [Frag.str "commit", Frag.bytes [0],
        Frag.bytes (serialize mc)]) =
        some (fragsBytes [Frag.str "commit", Frag.bytes [0],
          Frag.bytes (serialize mc)] ++ [10]) ∧
      alookup s₄.branches cb =
        some (strBytes (getHash [Frag.str "commit", Frag.bytes [0],
          Frag.bytes (serialize mc)]) ++ [10]) := by
  have hhead : readContentsAsString s headFile = .ok (pathJoin branchesDir cb) := by
    rw [readContentsAsString_headFile, hh]
  simp only [mergeBranch, readIndex, hidx, List.length_nil, htb, hhead, htc, hgh, hchh,
    hspl, hspc, hbn] at hrun
  rw [if_neg (fun hq : ¬(0 : Nat) = 0 => hq rfl), if_neg hbne] at hrun
  by_cases hscan : untrackedConflictScan cur tgt (getFilenames s cwd) = true
  · rw [if_pos hscan] at hrun
    exact Res.noConfusion hrun
  rw [if_neg hscan, if_neg hne1, if_neg hne2] at hrun
  cases hloop : mergeResolveLoop tbh spc cur tgt now (mergeAllFiles spc cur tgt) s [] with
  | fatal m s2 =>
    simp only [hloop] at hrun
    exact Res.noConfusion hrun
  | err e s2 =>
    simp only [hloop] at hrun
    exact Res.noConfusion hrun
  | ok conflicts0 s2 =>
  simp only [hloop] at hrun
  have hhd2 : s2.head = s.head :=
    (mergeResolveLoop_hb tbh spc cur tgt now (mergeAllFiles spc cur tgt) s [] conflicts0 s2
      hwf hloop).1
  cases hgc2 : getHeadCommit s2 with
  | error e =>
    simp only [newMergeCommit, hgc2] at hrun
    exact Res.noConfusion hrun
  | ok hc2 =>
  simp only [newMergeCommit, hgc2, readIndex, writeCommit] at hrun
  by_cases hlen : s2.index.length = 0
  · rw [if_pos hlen] at hrun
    simp only [] at hrun
    exact Res.noConfusion hrun
  rw [if_neg hlen] at hrun
  simp only [readContentsAsString_headFile, writeContents_objPath, head_set_objects] at hrun
  rw [hhd2, hh] at hrun
  simp only [writeContents_branchPath, newIndex, writeIndex] at hrun
  rw [hh] at hrun
  simp only [writeContents_branchPath, newIndex, writeIndex, fragsBytes_single_str] at hrun
  simp only [Res.ok.injEq] at hrun
  obtain ⟨hcf, hs⟩ := hrun
  refine ⟨⟨"Merged " ++ b ++ " into " ++ cb ++ ".", now,
    applyIndex s2.index hc2.fileToBlob, (chh, tbh)⟩, _, rfl, rfl, hs.symm, ?_, ?_⟩
  · exact alookup_aset_self _ _ _
  · exact alookup_aset_self _ _ _
theorem stageFile_index (f : String) (now : Int) (s s₂ : RepoState) (w : WFile)
    (hw : alookup s.workdir f = some w)
    (h : stageFile f now s = .ok () s₂) :
    (alookup s₂.index f).isSome = true ∨ alookup s₂.index f = alookup s.index f := by
  cases hgc : getHeadCommit s with
  | error e =>
    simp only [stageFile, hgc] at h
    exact Res.noConfusion h
  | ok hc =>
    simp only [stageFile, hgc, readIndex, hw] at h
    repeat' split at h
    all_goals first
      | exact Res.noConfusion h
      | (simp only [restrictedDelete_objPath, writeContents_objPath, writeIndex, addOut,
           Res.ok.injEq, true_and] at h
         subst h
         first
           | exact Or.inr rfl
           | exact Or.inl (by rw [alookup_aset_self]; rfl))

set_option maxHeartbeats 1000000 in
/-- C8 (amended): whenever the merge resolution returns a file as a
conflict, the working-tree file holds `"<<<<<<< HEAD\n"`, the
current-side bytes, `"======="` with NO following newline, the
target-side bytes, and `">>>>>>>"` plus the single newline appended by
`writeContents`; the file is then handed to `stageFile` (so it is staged
unless staging detects no change). -/
theorem c8_conflict_file_rendering (tbh : String) (sp cur tgt : Commit) (f : String)
    (now : Int) (s s₂ : RepoState) (hf : isWdPath f = true)
    (h : mergeResolveLate tbh sp cur tgt f now s = .ok true s₂) :
    ∃ curC tgtC hdc hdt,
      (if ((alookup sp.fileToBlob f).isSome && !(alookup cur.fileToBlob f).isSome) = true
        then Except.ok ("", []) else readBlob s ((alookup cur.fileToBlob f).getD "")) =
          .ok (hdc, curC) ∧
      (if ((alookup sp.fileToBlob f).isSome && !(alookup tgt.fileToBlob f).isSome) = true
        then Except.ok ("", []) else readBlob s ((alookup tgt.fileToBlob f).getD "")) =
          .ok (hdt, tgtC) ∧
      (alookup s₂.workdir f).map WFile.bytes =
        some (strBytes "<<<<<<< HEAD\n" ++ curC ++ strBytes "=======" ++ tgtC ++
          strBytes ">>>>>>>" ++ [10]) ∧
      ((alookup s₂.index f).isSome = true ∨ alookup s₂.index f = alookup s.index f) := by
  simp only [mergeResolveLate] at h
  split at h
  · exact Bool.noConfusion (by simpa only [Res.ok.injEq] using h : false = true ∧ s = s₂).1
  split at h
  · split at h
    · exact Res.noConfusion h
    · exact Res.noConfusion h
    · rename_i v3 s3 heq1
      split at h
      · exact Res.noConfusion h
      · exact Res.noConfusion h
      · rename_i v4 s4 heq2
        exact Bool.noConfusion
          (by simpa only [Res.ok.injEq] using h : false = true ∧ s4 = s₂).1
  split at h
  · split at h
    · exact Res.noConfusion h
    · exact Res.noConfusion h
    · rename_i v3 s3 hequ
      exact Bool.noConfusion (by simpa only [Res.ok.injEq] using h : false = true ∧ s3 = s₂).1
  split at h
  · exact Bool.noConfusion (by simpa only [Res.ok.injEq] using h : false = true ∧ s = s₂).1
  split at h
  · split at h
    · exact Res.noConfusion h
    · rename_i xc hdc curC heqc
      split at h
      · exact Res.noConfusion h
      · rename_i xt hdt tgtC heqt
        split at h
        · exact Res.noConfusion h
        · exact Res.noConfusion h
        · rename_i v4 s4 heq2
          obtain ⟨hb, hs⟩ := (by simpa only [Res.ok.injEq] using h : true = true ∧ s4 = s₂)
          subst hs
          obtain ⟨h1, h2, h3⟩ := stageFile_frame f now _ _ heq2
          have hidx := stageFile_index f now _ _ ⟨fragsBytes [Frag.str "<<<<<<< HEAD\n",
            Frag.bytes curC, Frag.str "=======", Frag.bytes tgtC,
            Frag.str ">>>>>>>"] ++ [10], now⟩
            (by rw [writeContents_wd _ _ _ _ hf]; exact alookup_aset_self _ _ _) heq2
          refine ⟨curC, tgtC, hdc, hdt, heqc, heqt, ?_, ?_⟩
          · rw [h3, writeContents_wd _ _ _ _ hf]
            rw [alookup_aset_self]
            simp [fragsBytes, fragBytes, List.append_assoc]
          · rw [writeContents_wd _ _ _ _ hf] at hidx
            exact hidx
  · exact Bool.noConfusion (by simpa only [Res.ok.injEq] using h : false = true ∧ s = s₂).1
set_option maxHeartbeats 10000000 in
theorem m1lS_eq : m1l = m1lS := by decide

set_option maxHeartbeats 10000000 in
theorem m3kS_eq : m3k = m3kS := by decide

/-- C6 (amended): a `mergeBranch` run that passes the preconditions, hits
neither shortcut, and returns normally has created a merge commit object
whose parents are (current head hash, target head hash) and whose message
is `"Merged <target> into <current>."`, and the current branch ref now
names its hash.  (The run can instead die in `writeCommit` when the
resolution staged nothing — the counterexample.) -/
theorem c6_merge_commit_parents (b cb tbh chh sph : String) (tgt cur spc : Commit)
    (now : Int) (s s' : RepoState) (conflicts : List String)
    (hidx : s.index = [])
    (hh : bytesToStr (trimRightNl s.head) = pathJoin branchesDir cb)
    (hbn : baseName (pathJoin branchesDir cb) = cb)
    (hbne : b ≠ cb)
    (htb : readContentsAsString s (pathJoin branchesDir b) = .ok tbh)
    (htc : getCommit s tbh = .ok tgt)
    (hgh : getHeadCommit s = .ok cur)
    (hchh : getHeadCommitHash s = .ok chh)
    (hspl : findSplitPoint s chh tbh = .ok sph)
    (hne1 : sph ≠ tbh) (hne2 : sph ≠ chh)
    (hspc : getCommit s sph = .ok spc)
    (hwf : ∀ f ∈ mergeAllFiles spc cur tgt, isWdPath f = true)
    (hrun : mergeBranch b now s = .ok conflicts s') :
    ∃ (mc : Commit) (s₄ : RepoState),
      mc.message = "Merged " ++ b ++ " into " ++ cb ++ "." ∧
      mc.parentUIDs = (chh, tbh) ∧
      s' = addOut s₄ "Encountered a merge conflict." ∧
      alookup s₄.objects (getHash [Frag.str "commit", Frag.bytes [0],
        Frag.bytes (serialize mc)]) =
        some (fragsBytes [Frag.str "commit", Frag.bytes [0],
          Frag.bytes (serialize mc)] ++ [10]) ∧
      alookup s₄.branches cb =
        some (strBytes (getHash [Frag.str "commit", Frag.bytes [0],
          Frag.bytes (serialize mc)]) ++ [10]) :=
  mergeBranch_ok_run b cb tbh chh sph tgt cur spc now s s' conflicts hidx hh hbn hbne htb htc
    hgh hchh hspl hne1 hne2 hspc hwf hrun

/-- C6 counterexample: in scenario M2 every precondition passes and the
split point is neither head, yet the merge creates no commit — the
per-file resolution stages nothing and `writeCommit` exits with
`"No changes added to commit."`. -/
theorem c6_merge_no_commit_counterexample :
    getHeadCommitHash m2k = .ok m2mainHash ∧
    readContentsAsString m2k (pathJoin branchesDir "target") = .ok m2targetHash ∧
    findSplitPoint m2k m2mainHash m2targetHash = .ok initialHash ∧
    initialHash ≠ m2targetHash ∧ initialHash ≠ m2mainHash ∧
    Res.fatalMsg (mergeBranch "target" 311 m2k) = some "No changes added to commit." := by
  decide

set_option maxHeartbeats 10000000 in
/-- C6 witness: the M1 merge creates the merge commit with parents
(main head, other head) and the standard message. -/
theorem c6_merge_commit_parents_witness :
    ∃ (mc : Commit) (s₄ : RepoState),
      mc.message = "Merged " ++ "other" ++ " into " ++ "main" ++ "." ∧
      mc.parentUIDs = (m1MainHash, m1OtherHash) ∧
      m1s = addOut s₄ "Encountered a merge conflict." ∧
      alookup s₄.objects (getHash [Frag.str "commit", Frag.bytes [0],
        Frag.bytes (serialize mc)]) =
        some (fragsBytes [Frag.str "commit", Frag.bytes [0],
          Frag.bytes (serialize mc)] ++ [10]) ∧
      alookup s₄.branches "main" =
        some (strBytes (getHash [Frag.str "commit", Frag.bytes [0],
          Frag.bytes (serialize mc)]) ++ [10]) :=
  c6_merge_commit_parents "other" "main" m1OtherHash m1MainHash m1SplitHash m1TgtCommit
    m1CurCommit m1SplitCommit 212 m1lS m1s [] (by decide) (by decide) (by decide) (by decide)
    (by decide) (by decide) (by decide) (by decide) (by decide) (by decide) (by decide)
    (by decide) (by decide) (by decide)
/-- C7 (amended): every non-shortcut `mergeBranch` run that returns
normally prints `"Encountered a merge conflict."` — unconditionally, not
only when some file was resolved as a conflict. -/
theorem c7_conflict_message_printed (b cb tbh chh sph : String) (tgt cur spc : Commit)
    (now : Int) (s s' : RepoState) (conflicts : List String)
    (hidx : s.index = [])
    (hh : bytesToStr (trimRightNl s.head) = pathJoin branchesDir cb)
    (hbn : baseName (pathJoin branchesDir cb) = cb)
    (hbne : b ≠ cb)
    (htb : readContentsAsString s (pathJoin branchesDir b) = .ok tbh)
    (htc : getCommit s tbh = .ok tgt)
    (hgh : getHeadCommit s = .ok cur)
    (hchh : getHeadCommitHash s = .ok chh)
    (hspl : findSplitPoint s chh tbh = .ok sph)
    (hne1 : sph ≠ tbh) (hne2 : sph ≠ chh)
    (hspc : getCommit s sph = .ok spc)
    (hwf : ∀ f ∈ mergeAllFiles spc cur tgt, isWdPath f = true)
    (hrun : mergeBranch b now s = .ok conflicts s') :
    "Encountered a merge conflict." ∈ s'.output := by
  obtain ⟨mc, s₄, _, _, hs', _, _⟩ := mergeBranch_ok_run b cb tbh chh sph tgt cur spc now s s'
    conflicts hidx hh hbn hbne htb htc hgh hchh hspl hne1 hne2 hspc hwf hrun
  rw [hs', addOut]
  exact List.mem_append_right _ (List.mem_singleton_self _)

set_option maxHeartbeats 10000000 in
/-- C7 counterexample: the M1 merge resolves no file as a conflict (the
ghost conflict list is empty) yet still prints the conflict message. -/
theorem c7_print_without_conflict_counterexample :
    mergeBranch "other" 212 m1lS = .ok [] m1s ∧
    "Encountered a merge conflict." ∈ m1s.output := by
  constructor
  · decide
  · decide

set_option maxHeartbeats 10000000 in
/-- C7 witness: the conflict message in the output of the M3 merge. -/
theorem c7_conflict_message_printed_witness :
    "Encountered a merge conflict." ∈ m3s.output :=
  c7_conflict_message_printed "target" "main" m3TargetHash m3MainHash m3SplitHash m3TgtCommit
    m3CurCommit m3SplitCommit 411 m3kS m3s ["a.txt"] (by decide) (by decide) (by decide)
    (by decide) (by decide) (by decide) (by decide) (by decide) (by decide) (by decide)
    (by decide) (by decide) (by decide) (by decide)

set_option maxHeartbeats 10000000 in
/-- C8 counterexample: the conflict file the M3 merge writes differs from
the specified rendering (`specConflictBytes`), which puts a newline after
`"======="`. -/
theorem c8_conflict_rendering_counterexample :
    mergeBranch "target" 411 m3kS = .ok ["a.txt"] m3s ∧
    readBlob m3kS "ac76b55c83795c8b12a16e812854fe21255d0da1" =
      .ok ("file", strBytes "!A" ++ [10]) ∧
    (alookup m3s.workdir "a.txt").map WFile.bytes =
      some (strBytes "<<<<<<< HEAD\n" ++ (strBytes "!A" ++ [10]) ++ strBytes "=======" ++
        ([] : List Nat) ++ strBytes ">>>>>>>" ++ [10]) ∧
    strBytes "<<<<<<< HEAD\n" ++ (strBytes "!A" ++ [10]) ++ strBytes "=======" ++
      ([] : List Nat) ++ strBytes ">>>>>>>" ++ [10] ≠
      specConflictBytes (strBytes "!A" ++ [10]) [] := by
  refine ⟨by decide, by decide, by decide, by decide⟩

set_option maxHeartbeats 10000000 in
/-- C8 witness: the conflict rendering evaluated on the M3 conflict file
(current side `"!A\n"`, target side removed). -/
theorem c8_conflict_file_rendering_witness :
    ∃ curC tgtC hdc hdt,
      (if ((alookup m3SplitCommit.fileToBlob "a.txt").isSome &&
          !(alookup m3CurCommit.fileToBlob "a.txt").isSome) = true
        then Except.ok ("", [])
        else readBlob m3kS ((alookup m3CurCommit.fileToBlob "a.txt").getD "")) =
          .ok (hdc, curC) ∧
      (if ((alookup m3SplitCommit.fileToBlob "a.txt").isSome &&
          !(alookup m3TgtCommit.fileToBlob "a.txt").isSome) = true
        then Except.ok ("", [])
        else readBlob m3kS ((alookup m3TgtCommit.fileToBlob "a.txt").getD "")) =
          .ok (hdt, tgtC) ∧
      (alookup c8s.workdir "a.txt").map WFile.bytes =
        some (strBytes "<<<<<<< HEAD\n" ++ curC ++ strBytes "=======" ++ tgtC ++
          strBytes ">>>>>>>" ++ [10]) ∧
      ((alookup c8s.index "a.txt").isSome = true ∨
        alookup c8s.index "a.txt" = alookup m3kS.index "a.txt") :=
  c8_conflict_file_rendering m3TargetHash m3SplitCommit m3CurCommit m3TgtCommit "a.txt" 500
    m3kS c8s (by decide) (by decide)

end Gitlet
